import Mathlib

/-!
# vecash: seed, cache, dataset and mix engine

A shallow embedding of `libvecash/internal.c`.

Conventions of the embedding.

* The host is little-endian, so the `fix_endian` operations are the identity and the
  `words` view of a `node` is the little-endian reading of its `bytes` view.
* A `node` is its sixteen 32-bit words; a byte string is a list of naturals below 256.
* A buffer of nodes (the cache, the dataset, the mapped file) is a map from the node index
  to the node stored there.  Allocation bounds are not part of the model.
* Unsigned C arithmetic is arithmetic on `Nat` reduced modulo `2 ^ 32` where the C type
  is 32 bits wide.
* A function whose C body can divide by zero, dereference a null handle or loop for ever
  returns an `Option`; `none` is "no defined result".  The light handle constructor, which
  can also fail an assertion or leave the size table, returns a `call_end`.
* The type `size_t` is 64 bits wide, so the casts `(size_t)full_size` keep the value.
* The Keccak primitives are external: the functions take them as the parameters
  `SHA3_512` and `SHA3_256`, from the input bytes to the output bytes.
-/

namespace Vecash

/-! ## Constants -/

/-- Constant `VECASH_EPOCH_LENGTH` of vecash.h. -/
def VECASH_EPOCH_LENGTH : Nat := 30000

/-- Constant `VECASH_DATASET_PARENTS` of vecash.h. -/
def VECASH_DATASET_PARENTS : Nat := 256

/-- Constant `VECASH_CACHE_ROUNDS` of vecash.h. -/
def VECASH_CACHE_ROUNDS : Nat := 3

/-- Constant `VECASH_ACCESSES` of vecash.h. -/
def VECASH_ACCESSES : Nat := 64

/-- Modelled from the spec: internal.h is not among the sources; `NODE_WORDS = 16`. -/
def NODE_WORDS : Nat := 16

/-- Modelled from the spec: internal.h is not among the sources; `MIX_WORDS = 32`. -/
def MIX_WORDS : Nat := 32

/-- Modelled from the spec: internal.h is not among the sources; `MIX_NODES = 2`. -/
def MIX_NODES : Nat := 2

/-- Modelled from the spec: fnv.h is not among the sources; `FNV_PRIME = 0x01000193`. -/
def FNV_PRIME : Nat := 0x01000193

/-- Modelled from the spec: fnv.h is not among the sources;
`fnv_hash(x, y) = ((x * FNV_PRIME) mod 2^32) XOR y`. -/
def fnv_hash (x y : Nat) : Nat := ((x * FNV_PRIME) % 2 ^ 32) ^^^ y

/-- Number of values of a `uint32_t`. -/
def UINT32_RANGE : Nat := 2 ^ 32

/-! ## Nodes and byte strings -/

/-- The `node` union of internal.h seen through its `words` member: sixteen 32-bit words. -/
abbrev node := List Nat

/-- A `vecash_h256_t`: the list of its thirty-two bytes. -/
abbrev vecash_h256_t := List Nat

/-- The four bytes of a 32-bit word, least significant first. -/
def word_bytes (v : Nat) : List Nat :=
  [v % 256, v / 256 % 256, v / 65536 % 256, v / 16777216 % 256]

/-- The `bytes` member of a node: the bytes of its words `0 .. k-1`, in memory order. -/
def words_bytes (n : node) : Nat → List Nat
  | 0 => []
  | k + 1 => words_bytes n k ++ word_bytes (n.getD k 0)

/-- The 64 bytes of a node. -/
def node_bytes (n : node) : List Nat := words_bytes n NODE_WORDS

/-- The 32-bit word stored at word offset `w` of a byte string. -/
def bytes_word (b : List Nat) (w : Nat) : Nat :=
  b.getD (4 * w) 0 + 256 * b.getD (4 * w + 1) 0 + 65536 * b.getD (4 * w + 2) 0
    + 16777216 * b.getD (4 * w + 3) 0

/-- The node whose `bytes` member holds the 64 bytes `b`. -/
def node_of_bytes (b : List Nat) : node :=
  (List.range NODE_WORDS).map (bytes_word b)

/-- The eight bytes of a 64-bit value, least significant first. -/
def le64_bytes (v : Nat) : List Nat :=
  [v % 256, v / 2 ^ 8 % 256, v / 2 ^ 16 % 256, v / 2 ^ 24 % 256,
   v / 2 ^ 32 % 256, v / 2 ^ 40 % 256, v / 2 ^ 48 % 256, v / 2 ^ 56 % 256]

/-- The call `SHA3_512(out.bytes, in.bytes, 64)` on nodes: hash the 64 bytes of `n` into a
node. -/
def sha3_512_node (SHA3_512 : List Nat → List Nat) (n : node) : node :=
  node_of_bytes (SHA3_512 (node_bytes n))

/-! ## Loops -/

/-- The loop `for (uint32_t i = start; i != bound; ++i) body`, whose counter wraps at
`2 ^ 32`.  `fuel` bounds the number of tests of the loop condition. -/
def loop_ne32 {σ : Type} (bound : Nat) (body : Nat → σ → Option σ) : Nat → Nat → σ → Option σ
  | 0, _, _ => none
  | fuel + 1, i, s =>
    if i = bound then some s
    else (body i s).bind (loop_ne32 bound body fuel ((i + 1) % UINT32_RANGE))

/-- A `uint32_t` counter has `2 ^ 32` values, so a `!=` loop that has not stopped after
`2 ^ 32` tests never stops. -/
def LOOP_FUEL : Nat := 2 ^ 32

/-- The loop `for (i = 0; i != n; ++i) body` for a compile-time constant `n`. -/
def for_const {σ : Type} (n : Nat) (body : Nat → σ → σ) (s : σ) : σ :=
  (List.range n).foldl (fun s i => body i s) s

/-! ## Cache builder -/

/-- The body of the round loop of `vecash_compute_cache_nodes` at counter `i`. -/
def cache_round_step (SHA3_512 : List Nat → List Nat) (num_nodes i : Nat)
    (nodes : Nat → node) : Nat → node :=
  let idx := (nodes i).getD 0 0 % num_nodes
  let data := nodes ((num_nodes - 1 + i) % UINT32_RANGE % num_nodes)
  let data := for_const NODE_WORDS
    (fun w data => data.set w (data.getD w 0 ^^^ (nodes idx).getD w 0)) data
  Function.update nodes i (sha3_512_node SHA3_512 data)

/-- Embedding of `vecash_compute_cache_nodes`: the return value and the buffer afterwards.
`nodes` points to a buffer of `cache_size` bytes, which holds `cache_size / 64` nodes.
`none`: the buffer holds no node and `nodes[0]` is written outside it.  When it holds a
node every access of the function is inside it: the indices are below `num_nodes` when
that is not 0, and below `2 ^ 32 <= cache_size / 64` when it is. -/
def vecash_compute_cache_nodes (SHA3_512 : List Nat → List Nat) (nodes : Nat → node)
    (cache_size : Nat) (seed : vecash_h256_t) : Option (Bool × (Nat → node)) :=
  if cache_size % 64 ≠ 0 then some (false, nodes)
  else if cache_size / 64 = 0 then none
  else
    let num_nodes := (cache_size / 64) % UINT32_RANGE
    let nodes := Function.update nodes 0 (node_of_bytes (SHA3_512 seed))
    (loop_ne32 num_nodes
      (fun i nodes => some (Function.update nodes i (sha3_512_node SHA3_512 (nodes (i - 1)))))
      LOOP_FUEL 1 nodes).bind fun nodes =>
    (loop_ne32 VECASH_CACHE_ROUNDS
      (fun _ nodes => loop_ne32 num_nodes
        (fun i nodes => some (cache_round_step SHA3_512 num_nodes i nodes)) LOOP_FUEL 0 nodes)
      LOOP_FUEL 0 nodes).bind fun nodes =>
    some (true, nodes)

/-! ## Dataset node generator -/

/-- The fields of `struct vecash_light` that internal.c uses. -/
structure vecash_light where
  /-- The nodes behind the `cache` pointer. -/
  cache : Nat → node
  /-- The `cache_size` field, in bytes. -/
  cache_size : Nat
  /-- The `block_number` field. -/
  block_number : Nat

/-- Embedding of `vecash_calculate_dag_item` (portable branch): the node written to `ret`.
`node_index` is a `uint32_t`.  `none`: `node_index % num_parent_nodes` divides by zero. -/
def vecash_calculate_dag_item (SHA3_512 : List Nat → List Nat) (node_index : Nat)
    (light : vecash_light) : Option node :=
  let num_parent_nodes := (light.cache_size / 64) % UINT32_RANGE
  if num_parent_nodes = 0 then none
  else
    let ret := light.cache (node_index % num_parent_nodes)
    let ret := ret.set 0 (ret.getD 0 0 ^^^ node_index)
    let ret := sha3_512_node SHA3_512 ret
    let ret := for_const VECASH_DATASET_PARENTS
      (fun i ret =>
        let parent_index :=
          fnv_hash (node_index ^^^ i) (ret.getD (i % NODE_WORDS) 0) % num_parent_nodes
        let parent := light.cache parent_index
        for_const NODE_WORDS
          (fun w ret => ret.set w (fnv_hash (ret.getD w 0) (parent.getD w 0))) ret)
      ret
    some (sha3_512_node SHA3_512 ret)

/-! ## Dataset builder -/

/-- What a run of the dataset builder and of the full-handle constructor does to the
outside, in order. -/
inductive full_event where
  /-- Call of `vecash_io_prepare` with the given `force_create`. -/
  | io_prepare (force_create : Bool)
  /-- Call of `vecash_mmap`. -/
  | mmap
  /-- Call of `vecash_compute_full_data`. -/
  | compute
  /-- Call of the progress callback while the loop counter is `n`. -/
  | callback (n : Nat)
  /-- Write of dataset node `n`. -/
  | write_node (n : Nat)
  /-- Call of `fseek(f, 0, SEEK_SET)`. -/
  | fseek
  /-- Call of `fwrite` with the magic number. -/
  | fwrite_magic
  /-- Call of `fflush`. -/
  | fflush
  /-- Call of `munmap`. -/
  | munmap
  /-- Call of `fclose`. -/
  | fclose
  /-- Call of `free` on the handle. -/
  | free
  deriving DecidableEq, Repr

/-- The test `callback && n % (max_n / 100) == 0 && callback(...) != 0` of
`vecash_compute_full_data`, with the log extended by the call it makes.
`callback n` is what the callback returns when called while the loop counter is `n`
(the progress value it receives is computed in floating point from `n`).
`none`: `n % (max_n / 100)` divides by zero. -/
def progress_test (callback : Option (Nat → Int)) (max_n n : Nat) (log : List full_event) :
    Option (Bool × List full_event) :=
  match callback with
  | none => some (false, log)
  | some cb =>
    if max_n / 100 = 0 then none
    else if n % (max_n / 100) = 0 then
      some (decide (cb n ≠ 0), log ++ [full_event.callback n])
    else some (false, log)

/-- The loop of `vecash_compute_full_data`, from counter `n` on. -/
def compute_full_data_loop (SHA3_512 : List Nat → List Nat) (max_n : Nat)
    (light : vecash_light) (callback : Option (Nat → Int)) :
    Nat → Nat → (Nat → node) → List full_event →
      Option (Bool × (Nat → node) × List full_event)
  | 0, _, _, _ => none
  | fuel + 1, n, full_nodes, log =>
    if n = max_n then some (true, full_nodes, log)
    else
      match progress_test callback max_n n log with
      | none => none
      | some (true, log) => some (false, full_nodes, log)
      | some (false, log) =>
        match vecash_calculate_dag_item SHA3_512 n light with
        | none => none
        | some r =>
          compute_full_data_loop SHA3_512 max_n light callback fuel ((n + 1) % UINT32_RANGE)
            (Function.update full_nodes n r) (log ++ [full_event.write_node n])

/-- Embedding of `vecash_compute_full_data`: the return value, the buffer afterwards and
the callback calls and node writes made. -/
def vecash_compute_full_data (SHA3_512 : List Nat → List Nat) (mem : Nat → node)
    (full_size : Nat) (light : vecash_light) (callback : Option (Nat → Int)) :
    Option (Bool × (Nat → node) × List full_event) :=
  if full_size % (4 * MIX_WORDS) ≠ 0 ∨ full_size % 64 ≠ 0 then some (false, mem, [])
  else
    let max_n := (full_size / 64) % UINT32_RANGE
    compute_full_data_loop SHA3_512 max_n light callback LOOP_FUEL 0 mem []

/-! ## Mix engine -/

/-- A `vecash_return_value_t`. -/
structure vecash_return_value where
  /-- The `result` field. -/
  result : vecash_h256_t
  /-- The `mix_hash` field. -/
  mix_hash : vecash_h256_t
  /-- The `success` field. -/
  success : Bool
  deriving DecidableEq, Repr

/-- The node `dag_node` of `vecash_hash` for page `index` and `n`: read from `full_nodes`
when that pointer is not null, computed from the light handle otherwise. -/
def hash_dag_node (SHA3_512 : List Nat → List Nat) (full_nodes : Option (Nat → node))
    (light : Option vecash_light) (index n : Nat) : Option node :=
  match full_nodes with
  | some nodes => some (nodes ((MIX_NODES * index + n) % UINT32_RANGE))
  | none =>
    match light with
    | none => none
    | some l => vecash_calculate_dag_item SHA3_512 ((index * MIX_NODES + n) % UINT32_RANGE) l

/-- One pass of the access loop of `vecash_hash`, at counter `i`, on the 32 words of `mix`.
`none`: `% num_full_pages` divides by zero, or the node has no defined value. -/
def hash_access (SHA3_512 : List Nat → List Nat) (full_nodes : Option (Nat → node))
    (light : Option vecash_light) (num_full_pages : Nat) (s_mix0 : node) (mix : List Nat)
    (i : Nat) : Option (List Nat) :=
  if num_full_pages = 0 then none
  else
    let index :=
      fnv_hash (s_mix0.getD 0 0 ^^^ i) (mix.getD (i % MIX_WORDS) 0) % num_full_pages
    (List.range MIX_NODES).foldlM
      (fun mix n =>
        (hash_dag_node SHA3_512 full_nodes light index n).map fun dag_node =>
          for_const NODE_WORDS
            (fun w mix => mix.set (NODE_WORDS * n + w)
              (fnv_hash (mix.getD (NODE_WORDS * n + w) 0) (dag_node.getD w 0))) mix)
      mix

/-- The loop `compress mix` of `vecash_hash`, for `w = 0, 4, .., MIX_WORDS - 4`. -/
def compress_mix (mix : List Nat) : List Nat :=
  (List.range (MIX_WORDS / 4)).foldl
    (fun mix k =>
      let w := 4 * k
      let reduction := mix.getD (w + 0) 0
      let reduction := ((reduction * FNV_PRIME) % 2 ^ 32) ^^^ mix.getD (w + 1) 0
      let reduction := ((reduction * FNV_PRIME) % 2 ^ 32) ^^^ mix.getD (w + 2) 0
      let reduction := ((reduction * FNV_PRIME) % 2 ^ 32) ^^^ mix.getD (w + 3) 0
      mix.set (w / 4) reduction)
    mix

/-- Embedding of `vecash_hash`: the return value and `*ret` afterwards.
`none`: the run divides by zero or reads an absent light handle. -/
def vecash_hash (SHA3_512 SHA3_256 : List Nat → List Nat) (ret : vecash_return_value)
    (full_nodes : Option (Nat → node)) (light : Option vecash_light) (full_size : Nat)
    (header_hash : vecash_h256_t) (nonce : Nat) : Option (Bool × vecash_return_value) :=
  if full_size % MIX_WORDS ≠ 0 then some (false, ret)
  else
    let s_mix0 := node_of_bytes (SHA3_512 (header_hash ++ le64_bytes nonce))
    let mix := (List.range MIX_WORDS).map fun w => s_mix0.getD (w % NODE_WORDS) 0
    let page_size := 4 * MIX_WORDS
    let num_full_pages := (full_size / page_size) % UINT32_RANGE
    ((List.range VECASH_ACCESSES).foldlM
      (hash_access SHA3_512 full_nodes light num_full_pages s_mix0) mix).map fun mix =>
    let mix := compress_mix mix
    let mix_hash := words_bytes mix (MIX_WORDS / 4)
    (true, { ret with
      mix_hash := mix_hash
      result := SHA3_256 (node_bytes s_mix0 ++ mix_hash) })

/-- Embedding of `vecash_quick_hash`: the hash written to `return_hash`. -/
def vecash_quick_hash (SHA3_512 SHA3_256 : List Nat → List Nat) (header_hash : vecash_h256_t)
    (nonce : Nat) (mix_hash : vecash_h256_t) : vecash_h256_t :=
  let buf := header_hash ++ le64_bytes nonce
  let buf := SHA3_512 buf
  let buf := buf ++ mix_hash
  SHA3_256 buf

/-- Embedding of `vecash_light_compute_internal`.  `ret` is the content of the local
variable before it is assigned. -/
def vecash_light_compute_internal (SHA3_512 SHA3_256 : List Nat → List Nat)
    (ret : vecash_return_value) (light : vecash_light) (full_size : Nat)
    (header_hash : vecash_h256_t) (nonce : Nat) : Option vecash_return_value :=
  let ret := { ret with success := true }
  (vecash_hash SHA3_512 SHA3_256 ret none (some light) full_size header_hash nonce).map
    fun r => if !r.1 then { r.2 with success := false } else r.2

/-- The fields of `struct vecash_full` that internal.c reads back. -/
structure vecash_full where
  /-- The `file_size` field. -/
  file_size : Nat
  /-- The nodes behind the `data` pointer. -/
  data : Nat → node

/-- Embedding of `vecash_full_compute`.  `ret` is the content of the local variable before
it is assigned. -/
def vecash_full_compute (SHA3_512 SHA3_256 : List Nat → List Nat)
    (ret : vecash_return_value) (full : vecash_full)
    (header_hash : vecash_h256_t) (nonce : Nat) : Option vecash_return_value :=
  let ret := { ret with success := true }
  (vecash_hash SHA3_512 SHA3_256 ret (some full.data) none full.file_size header_hash nonce).map
    fun r => if !r.1 then { r.2 with success := false } else r.2

/-! ## Seed -/

/-- The loop `for (uint32_t i = 0; i < epochs; ++i) SHA3_256(&ret, &ret, 32)` of
`vecash_get_seedhash`; `epochs` is a `uint64_t`. -/
def seedhash_loop (SHA3_256 : List Nat → List Nat) (epochs : Nat) :
    Nat → Nat → vecash_h256_t → Option vecash_h256_t
  | 0, _, _ => none
  | fuel + 1, i, ret =>
    if i < epochs then
      seedhash_loop SHA3_256 epochs fuel ((i + 1) % UINT32_RANGE) (SHA3_256 ret)
    else some ret

/-- Modelled from the spec: internal.h is not among the sources; `vecash_h256_reset` sets
the 32 bytes of the seed to zero. -/
def vecash_h256_reset : vecash_h256_t := List.replicate 32 0

/-- Embedding of `vecash_get_seedhash`.  `none`: the loop never ends. -/
def vecash_get_seedhash (SHA3_256 : List Nat → List Nat) (block_number : Nat) :
    Option vecash_h256_t :=
  seedhash_loop SHA3_256 (block_number / VECASH_EPOCH_LENGTH) LOOP_FUEL 0 vecash_h256_reset

/-! ## Full handle constructor -/

/-- Modelled from the spec: io.h is not among the sources; the four answers of
`vecash_io_prepare` that `vecash_full_new_internal` switches on. -/
inductive vecash_io_rc where
  /-- The file could not be prepared. -/
  | VECASH_IO_FAIL
  /-- A file of the same name and another size exists. -/
  | VECASH_IO_MEMO_SIZE_MISMATCH
  /-- No usable file exists: one was created, or the magic number is wrong. -/
  | VECASH_IO_MEMO_MISMATCH
  /-- A file of the right size and magic number exists. -/
  | VECASH_IO_MEMO_MATCH
  deriving DecidableEq, Repr

/-- What the system answers to one run of `vecash_full_new_internal`. -/
structure full_env where
  /-- Whether `calloc` returns a handle. -/
  calloc_ok : Bool
  /-- Answer of `vecash_io_prepare(.., false)`. -/
  prepare_first : vecash_io_rc
  /-- Answer of `vecash_io_prepare(.., true)`. -/
  prepare_forced : vecash_io_rc
  /-- Whether `vecash_mmap` succeeds. -/
  mmap_ok : Bool
  /-- The nodes of the mapped region when it is mapped. -/
  data : Nat → node
  /-- Whether `fseek` returns 0. -/
  fseek_ok : Bool
  /-- Whether `fwrite` returns 1. -/
  fwrite_ok : Bool
  /-- Whether `fflush` returns 0. -/
  fflush_ok : Bool

/-- The part of `vecash_full_new_internal` from the `VECASH_IO_MEMO_MISMATCH` case on:
map, compute, write the magic number.  `log` is what has happened so far. -/
def full_new_build (SHA3_512 : List Nat → List Nat) (env : full_env) (full_size : Nat)
    (light : vecash_light) (callback : Option (Nat → Int)) (log : List full_event) :
    Option (Option vecash_full × List full_event) :=
  let log := log ++ [full_event.mmap]
  if !env.mmap_ok then some (none, log ++ [full_event.fclose, full_event.free])
  else
    let fail_free_full_data := [full_event.munmap, full_event.fclose, full_event.free]
    let log := log ++ [full_event.compute]
    match vecash_compute_full_data SHA3_512 env.data full_size light callback with
    | none => none
    | some (false, _, events) => some (none, log ++ events ++ fail_free_full_data)
    | some (true, data, events) =>
      let log := log ++ events ++ [full_event.fseek]
      if !env.fseek_ok then some (none, log ++ fail_free_full_data)
      else
        let log := log ++ [full_event.fwrite_magic]
        if !env.fwrite_ok then some (none, log ++ fail_free_full_data)
        else
          let log := log ++ [full_event.fflush]
          if !env.fflush_ok then some (none, log ++ fail_free_full_data)
          else some (some { file_size := full_size, data := data }, log)

/-- Embedding of `vecash_full_new_internal`: the handle returned (`none` for `NULL`) and
what the run did.  The outer `none`: the dataset builder has no defined result. -/
def vecash_full_new_internal (SHA3_512 : List Nat → List Nat) (env : full_env)
    (full_size : Nat) (light : vecash_light) (callback : Option (Nat → Int)) :
    Option (Option vecash_full × List full_event) :=
  if !env.calloc_ok then some (none, [])
  else
    let log := [full_event.io_prepare false]
    match env.prepare_first with
    | vecash_io_rc.VECASH_IO_FAIL => some (none, log ++ [full_event.free])
    | vecash_io_rc.VECASH_IO_MEMO_MATCH =>
      let log := log ++ [full_event.mmap]
      if !env.mmap_ok then some (none, log ++ [full_event.fclose, full_event.free])
      else some (some { file_size := full_size, data := env.data }, log)
    | vecash_io_rc.VECASH_IO_MEMO_SIZE_MISMATCH =>
      let log := log ++ [full_event.io_prepare true]
      if env.prepare_forced ≠ vecash_io_rc.VECASH_IO_MEMO_MISMATCH then
        some (none, log ++ [full_event.free])
      else full_new_build SHA3_512 env full_size light callback log
    | vecash_io_rc.VECASH_IO_MEMO_MISMATCH =>
      full_new_build SHA3_512 env full_size light callback log

/-! ## Light handle constructor -/

/-- What the system answers to one run of `vecash_light_new_internal`. -/
structure light_env where
  /-- Whether `calloc` returns a handle. -/
  calloc_ok : Bool
  /-- Whether `malloc` returns a cache buffer. -/
  malloc_ok : Bool
  /-- The nodes of the cache buffer as `malloc` returns it. -/
  cache : Nat → node

/-- Embedding of `vecash_light_new_internal`: the handle returned, `none` for `NULL`.
`calloc` leaves `block_number` zero.  The outer `none`: the cache builder has no defined
result. -/
def vecash_light_new_internal (SHA3_512 : List Nat → List Nat) (env : light_env)
    (cache_size : Nat) (seed : vecash_h256_t) : Option (Option vecash_light) :=
  if !env.calloc_ok then some none
  else if !env.malloc_ok then some none
  else
    match vecash_compute_cache_nodes SHA3_512 env.cache cache_size seed with
    | none => none
    | some (false, _) => some none
    | some (true, nodes) =>
      some (some { cache := nodes, cache_size := cache_size, block_number := 0 })

/-- How a call of `vecash_get_cachesize` or of `vecash_light_new` ends. -/
inductive call_end (α : Type) where
  /-- The call returns a value. -/
  | returns (a : α)
  /-- An `assert` fails and the program aborts. -/
  | assert_fails
  /-- The call reads the size table at `index`, past its 2048 entries. -/
  | table_overrun (index : Nat)
  /-- The call writes a field through a `NULL` handle. -/
  | null_write
  /-- The call never returns. -/
  | no_return

/-- Embedding of `vecash_get_cachesize`.  `cache_sizes` stands for the table of
data_sizes.h, which is not among the sources and has 2048 entries; `ndebug` says whether
the build compiles `assert` away. -/
def vecash_get_cachesize (ndebug : Bool) (cache_sizes : Nat → Nat) (block_number : Nat) :
    call_end Nat :=
  if !ndebug && !decide (block_number / VECASH_EPOCH_LENGTH < 2048) then call_end.assert_fails
  else if block_number / VECASH_EPOCH_LENGTH < 2048 then
    call_end.returns (cache_sizes (block_number / VECASH_EPOCH_LENGTH))
  else call_end.table_overrun (block_number / VECASH_EPOCH_LENGTH)

/-- Embedding of `vecash_light_new`: the handle returned (`none` for `NULL`), or how the
call ends without returning. -/
def vecash_light_new (SHA3_512 SHA3_256 : List Nat → List Nat) (ndebug : Bool)
    (cache_sizes : Nat → Nat) (env : light_env) (block_number : Nat) :
    call_end (Option vecash_light) :=
  match vecash_get_seedhash SHA3_256 block_number with
  | none => call_end.no_return
  | some seedhash =>
    match vecash_get_cachesize ndebug cache_sizes block_number with
    | call_end.assert_fails => call_end.assert_fails
    | call_end.table_overrun index => call_end.table_overrun index
    | call_end.null_write => call_end.null_write
    | call_end.no_return => call_end.no_return
    | call_end.returns cache_size =>
      match vecash_light_new_internal SHA3_512 env cache_size seedhash with
      | none => call_end.no_return
      | some none => call_end.null_write
      | some (some ret) => call_end.returns (some { ret with block_number := block_number })

/-! ## Vectorised dataset node generator -/

/-- The `xmm[k]` member of a node: its words `4k .. 4k+3` as the four 32-bit lanes of a
register. -/
def node_xmm (n : node) (k : Nat) : List Nat :=
  [n.getD (4 * k) 0, n.getD (4 * k + 1) 0, n.getD (4 * k + 2) 0, n.getD (4 * k + 3) 0]

/-- The assignment `ret->xmm[k] = x`. -/
def node_set_xmm (n : node) (k : Nat) (x : List Nat) : node :=
  (((n.set (4 * k) (x.getD 0 0)).set (4 * k + 1) (x.getD 1 0)).set (4 * k + 2)
    (x.getD 2 0)).set (4 * k + 3) (x.getD 3 0)

/-- The intrinsic `_mm_set1_epi32`: the value in every lane. -/
def mm_set1_epi32 (a : Nat) : List Nat := [a, a, a, a]

/-- The intrinsic `_mm_mullo_epi32`: the low 32 bits of the lane-wise products. -/
def mm_mullo_epi32 (a b : List Nat) : List Nat :=
  List.zipWith (fun x y => (x * y) % 2 ^ 32) a b

/-- The intrinsic `_mm_xor_si128`: the bitwise XOR of two registers. -/
def mm_xor_si128 (a b : List Nat) : List Nat :=
  List.zipWith (fun x y => x ^^^ y) a b

/-- The registers of the vectorised loop: `ret` and `xmm0 .. xmm3`. -/
structure sse_state where
  /-- The node behind `ret`. -/
  ret : node
  /-- Register `xmm0`. -/
  xmm0 : List Nat
  /-- Register `xmm1`. -/
  xmm1 : List Nat
  /-- Register `xmm2`. -/
  xmm2 : List Nat
  /-- Register `xmm3`. -/
  xmm3 : List Nat

/-- The registers after `xmm0 = ret->xmm[0]; .. xmm3 = ret->xmm[3]` for the node `r`
behind `ret`. -/
def sse_of_node (r : node) : sse_state :=
  { ret := r, xmm0 := node_xmm r 0, xmm1 := node_xmm r 1, xmm2 := node_xmm r 2,
    xmm3 := node_xmm r 3 }

/-- One pass of the vectorised parent loop of `vecash_calculate_dag_item`, at counter
`i`: multiply the registers by the prime, XOR the parent's registers in, write the
registers back to `ret`. -/
def sse_parent_step (cache : Nat → node) (num_parent_nodes node_index i : Nat)
    (s : sse_state) : sse_state :=
  let fnv_prime := mm_set1_epi32 FNV_PRIME
  let parent_index :=
    fnv_hash (node_index ^^^ i) (s.ret.getD (i % NODE_WORDS) 0) % num_parent_nodes
  let parent := cache parent_index
  let xmm0 := mm_mullo_epi32 s.xmm0 fnv_prime
  let xmm1 := mm_mullo_epi32 s.xmm1 fnv_prime
  let xmm2 := mm_mullo_epi32 s.xmm2 fnv_prime
  let xmm3 := mm_mullo_epi32 s.xmm3 fnv_prime
  let xmm0 := mm_xor_si128 xmm0 (node_xmm parent 0)
  let xmm1 := mm_xor_si128 xmm1 (node_xmm parent 1)
  let xmm2 := mm_xor_si128 xmm2 (node_xmm parent 2)
  let xmm3 := mm_xor_si128 xmm3 (node_xmm parent 3)
  let ret := node_set_xmm s.ret 0 xmm0
  let ret := node_set_xmm ret 1 xmm1
  let ret := node_set_xmm ret 2 xmm2
  let ret := node_set_xmm ret 3 xmm3
  { ret := ret, xmm0 := xmm0, xmm1 := xmm1, xmm2 := xmm2, xmm3 := xmm3 }

/-- Embedding of `vecash_calculate_dag_item` compiled with the branch
`defined(_M_X64) && ENABLE_SSE`.  `none`: `node_index % num_parent_nodes` divides by
zero. -/
def vecash_calculate_dag_item_sse (SHA3_512 : List Nat → List Nat) (node_index : Nat)
    (light : vecash_light) : Option node :=
  let num_parent_nodes := (light.cache_size / 64) % UINT32_RANGE
  if num_parent_nodes = 0 then none
  else
    let ret := light.cache (node_index % num_parent_nodes)
    let ret := ret.set 0 (ret.getD 0 0 ^^^ node_index)
    let ret := sha3_512_node SHA3_512 ret
    let s := sse_of_node ret
    let s := for_const VECASH_DATASET_PARENTS
      (sse_parent_step light.cache num_parent_nodes node_index) s
    some (sha3_512_node SHA3_512 s.ret)

/-! ## Parameter constants -/

/-- Constant `VECASH_DATASET_BYTES_INIT` of vecash.h, `1073741824U`. -/
def VECASH_DATASET_BYTES_INIT : Nat := 1073741824

/-- Constant `VECASH_CACHE_BYTES_INIT` of vecash.h, `1073741824U`; the comment beside it
reads `2**24`. -/
def VECASH_CACHE_BYTES_INIT : Nat := 1073741824

/-! ## Runs with a record of the indices used -/

/-- The node the access loop of `vecash_hash` gets for a dataset node index:
`full_nodes[node_index]` in full mode, the result of
`vecash_calculate_dag_item(&tmp_node, node_index, light)` in light mode. -/
def dag_node_at (SHA3_512 : List Nat → List Nat) (full_nodes : Option (Nat → node))
    (light : Option vecash_light) (node_index : Nat) : Option node :=
  match full_nodes with
  | some nodes => some (nodes node_index)
  | none =>
    match light with
    | none => none
    | some l => vecash_calculate_dag_item SHA3_512 node_index l

/-- One pass of the access loop of `vecash_hash`, as `hash_access`, on a mix and a record
of the dataset node indices used so far.  Each pass of the inner loop forms the index
`MIX_NODES * index + n`, appends it to the record, and gets the node at that index.  The
mix is `none` from the point where the run has no defined result. -/
def hash_access_traced (SHA3_512 : List Nat → List Nat) (full_nodes : Option (Nat → node))
    (light : Option vecash_light) (num_full_pages : Nat) (s_mix0 : node)
    (st : Option (List Nat) × List Nat) (i : Nat) : Option (List Nat) × List Nat :=
  match st.1 with
  | none => st
  | some mix =>
    if num_full_pages = 0 then (none, st.2)
    else
      let index :=
        fnv_hash (s_mix0.getD 0 0 ^^^ i) (mix.getD (i % MIX_WORDS) 0) % num_full_pages
      (List.range MIX_NODES).foldl
        (fun st n =>
          match st.1 with
          | none => st
          | some mix =>
            let node_index := (MIX_NODES * index + n) % UINT32_RANGE
            ((dag_node_at SHA3_512 full_nodes light node_index).map fun dag_node =>
              for_const NODE_WORDS
                (fun w mix => mix.set (NODE_WORDS * n + w)
                  (fnv_hash (mix.getD (NODE_WORDS * n + w) 0) (dag_node.getD w 0))) mix,
              st.2 ++ [node_index]))
        (some mix, st.2)

/-- The access loop of `vecash_hash` with the record of the dataset node indices it uses:
the mix after the loop (`none` when the guard fails or the run has no defined result) and
the indices, in order. -/
def vecash_hash_accesses (SHA3_512 : List Nat → List Nat) (full_nodes : Option (Nat → node))
    (light : Option vecash_light) (full_size : Nat) (header_hash : vecash_h256_t)
    (nonce : Nat) : Option (List Nat) × List Nat :=
  if full_size % MIX_WORDS ≠ 0 then (none, [])
  else
    let s_mix0 := node_of_bytes (SHA3_512 (header_hash ++ le64_bytes nonce))
    let mix := (List.range MIX_WORDS).map fun w => s_mix0.getD (w % NODE_WORDS) 0
    let page_size := 4 * MIX_WORDS
    let num_full_pages := (full_size / page_size) % UINT32_RANGE
    (List.range VECASH_ACCESSES).foldl
      (hash_access_traced SHA3_512 full_nodes light num_full_pages s_mix0) (some mix, [])

/-- One pass of the parent loop of `vecash_calculate_dag_item` on `ret` and a record of
the cache indices read so far: the parent index is appended. -/
def dag_parent_traced (cache : Nat → node) (num_parent_nodes node_index i : Nat)
    (st : node × List Nat) : node × List Nat :=
  let parent_index :=
    fnv_hash (node_index ^^^ i) (st.1.getD (i % NODE_WORDS) 0) % num_parent_nodes
  let parent := cache parent_index
  (for_const NODE_WORDS
      (fun w ret => ret.set w (fnv_hash (ret.getD w 0) (parent.getD w 0))) st.1,
    st.2 ++ [parent_index])

/-- The portable branch of `vecash_calculate_dag_item` with the record of the cache
indices it reads: the node written to `ret` and the indices, the initial one first.
`none`: `node_index % num_parent_nodes` divides by zero. -/
def vecash_calculate_dag_item_reads (SHA3_512 : List Nat → List Nat) (node_index : Nat)
    (light : vecash_light) : Option (node × List Nat) :=
  let num_parent_nodes := (light.cache_size / 64) % UINT32_RANGE
  if num_parent_nodes = 0 then none
  else
    let init := node_index % num_parent_nodes
    let ret := light.cache init
    let ret := ret.set 0 (ret.getD 0 0 ^^^ node_index)
    let ret := sha3_512_node SHA3_512 ret
    let st := for_const VECASH_DATASET_PARENTS
      (dag_parent_traced light.cache num_parent_nodes node_index) (ret, [init])
    some (sha3_512_node SHA3_512 st.1, st.2)

/-- A loop body that also records the value of the loop counter at each pass. -/
def counted {σ : Type} (body : Nat → σ → Option σ) (i : Nat) (st : σ × List Nat) :
    Option (σ × List Nat) :=
  (body i st.1).map fun s => (s, st.2 ++ [i])

/-! ## The specification's algorithms -/

/-- Specification of `get_seedhash`: SHA3-256 applied `block_number / 30000` times to 32
zero bytes, each application taking the previous output as input. -/
def seedhash_spec (SHA3_256 : List Nat → List Nat) (block_number : Nat) : vecash_h256_t :=
  SHA3_256^[block_number / 30000] (List.replicate 32 0)

/-- Specification of `calc_dataset_item` for a cache of `P` nodes:
`r = cache[node_index mod P]`; `r.word[0] ^= node_index`; `r = SHA3-512(r)`; for
`i = 0..255`, `parent_index = fnv_hash(node_index XOR i, r.word[i mod 16]) mod P` and every
word `w` of `r` becomes `fnv_hash(r.word[w], cache[parent_index].word[w])`;
`r = SHA3-512(r)`. -/
def calc_dataset_item_spec (SHA3_512 : List Nat → List Nat) (cache : Nat → node) (P : Nat)
    (node_index : Nat) : node :=
  let r := cache (node_index % P)
  let r := r.set 0 (r.getD 0 0 ^^^ node_index)
  let r := sha3_512_node SHA3_512 r
  let r := (List.range 256).foldl
    (fun r i =>
      let parent_index := fnv_hash (node_index ^^^ i) (r.getD (i % 16) 0) % P
      (List.range 16).map fun w => fnv_hash (r.getD w 0) ((cache parent_index).getD w 0))
    r
  sha3_512_node SHA3_512 r

/-- Word-wise XOR of all 16 words of two nodes. -/
def node_xor (a b : node) : node :=
  (List.range 16).map fun w => a.getD w 0 ^^^ b.getD w 0

/-- Specification of the first pass of SeqMemoHash: `nodes[0] = SHA3-512(seed)` and
`nodes[i] = SHA3-512(nodes[i-1])`. -/
def seq_memo_fill (SHA3_512 : List Nat → List Nat) (seed : vecash_h256_t) : Nat → node
  | 0 => node_of_bytes (SHA3_512 seed)
  | i + 1 => sha3_512_node SHA3_512 (seq_memo_fill SHA3_512 seed i)

/-- Specification of one round of SeqMemoHash on `N` nodes: for `i = 0..N-1` in order, on
the array as updated so far, `idx = nodes[i].word[0] mod N` and
`nodes[i] = SHA3-512(nodes[(N - 1 + i) mod N] XOR nodes[idx])`. -/
def seq_memo_round (SHA3_512 : List Nat → List Nat) (N : Nat) (nodes : Nat → node) :
    Nat → node :=
  (List.range N).foldl
    (fun nodes i =>
      let idx := (nodes i).getD 0 0 % N
      Function.update nodes i
        (sha3_512_node SHA3_512 (node_xor (nodes ((N - 1 + i) % N)) (nodes idx))))
    nodes

/-- Specification of SeqMemoHash on `N` nodes: the first pass, then 3 rounds. -/
def SeqMemoHash (SHA3_512 : List Nat → List Nat) (N : Nat) (seed : vecash_h256_t) :
    Nat → node :=
  (seq_memo_round SHA3_512 N)^[3] (seq_memo_fill SHA3_512 seed)

/-! ## Definitions used by the proofs -/

/-- One round of the cache builder on `num_nodes` nodes, as a fold. -/
def cache_round (SHA3_512 : List Nat → List Nat) (num_nodes : Nat) (nodes : Nat → node) :
    Nat → node :=
  (List.range num_nodes).foldl (fun s k => cache_round_step SHA3_512 num_nodes k s) nodes

/-- Two node arrays hold the same 16-word nodes below `n`. -/
def agree_below (n : Nat) (a b : Nat → node) : Prop :=
  ∀ i, i < n → a i = b i ∧ (a i).length = 16

/-! ## Loop lemmas -/

theorem seedhash_loop_iterate (SHA3_256 : List Nat → List Nat) (epochs : Nat)
    (he : epochs < UINT32_RANGE) :
    ∀ (fuel i : Nat) (ret : vecash_h256_t), i ≤ epochs → epochs - i < fuel →
      seedhash_loop SHA3_256 epochs fuel i ret = some (SHA3_256^[epochs - i] ret) := by
  intro fuel
  induction fuel with
  | zero => intro i ret _ h; omega
  | succ fuel ih =>
    intro i ret hi hf
    unfold seedhash_loop
    by_cases hlt : i < epochs
    · have hmod : (i + 1) % UINT32_RANGE = i + 1 := Nat.mod_eq_of_lt (by omega)
      rw [if_pos hlt, hmod, ih (i + 1) _ (by omega) (by omega)]
      have hs : epochs - i = (epochs - (i + 1)) + 1 := by omega
      rw [hs, Function.iterate_succ_apply]
    · have hz : epochs - i = 0 := by omega
      rw [if_neg hlt, hz]
      rfl

theorem vecash_get_seedhash_eq (SHA3_256 : List Nat → List Nat) (block_number : Nat)
    (h : block_number / VECASH_EPOCH_LENGTH < UINT32_RANGE - 1) :
    vecash_get_seedhash SHA3_256 block_number
      = some (SHA3_256^[block_number / VECASH_EPOCH_LENGTH] (List.replicate 32 0)) := by
  unfold vecash_get_seedhash
  have hlt : block_number / VECASH_EPOCH_LENGTH < UINT32_RANGE := by omega
  have hfuel : block_number / VECASH_EPOCH_LENGTH - 0 < LOOP_FUEL := by
    unfold LOOP_FUEL
    unfold UINT32_RANGE at h
    generalize block_number / VECASH_EPOCH_LENGTH = e at *
    omega
  have := seedhash_loop_iterate SHA3_256 _ hlt LOOP_FUEL 0 vecash_h256_reset
    (Nat.zero_le _) hfuel
  simpa [vecash_h256_reset] using this

/-- A `!=` loop whose counter starts at or below the bound runs the body on
`start, start + 1, .., bound - 1`. -/
theorem loop_ne32_pure {σ : Type} (bound : Nat) (f : Nat → σ → σ)
    (hb : bound < UINT32_RANGE) :
    ∀ (fuel i : Nat) (s : σ), i ≤ bound → bound - i < fuel →
      loop_ne32 bound (fun i s => some (f i s)) fuel i s
        = some ((List.range' i (bound - i)).foldl (fun s k => f k s) s) := by
  intro fuel
  induction fuel with
  | zero => intro i s _ h; omega
  | succ fuel ih =>
    intro i s hi hf
    unfold loop_ne32
    by_cases heq : i = bound
    · subst heq
      simp
    · have hmod : (i + 1) % UINT32_RANGE = i + 1 := Nat.mod_eq_of_lt (by omega)
      have hs : bound - i = (bound - (i + 1)) + 1 := by omega
      rw [if_neg heq, hmod]
      simp only [Option.some_bind]
      rw [ih (i + 1) _ (by omega) (by omega), hs, List.range'_succ, List.foldl_cons]

/-- A `!=` loop on a `uint32_t` counter with a body that always returns ends, whatever
the start and the bound. -/
theorem loop_ne32_total {σ : Type} (bound : Nat) (f : Nat → σ → σ)
    (hb : bound < UINT32_RANGE) :
    ∀ (fuel i : Nat) (s : σ), i < UINT32_RANGE →
      (bound + UINT32_RANGE - i) % UINT32_RANGE < fuel →
      ∃ s', loop_ne32 bound (fun i s => some (f i s)) fuel i s = some s' := by
  intro fuel
  induction fuel with
  | zero => intro i s _ h; omega
  | succ fuel ih =>
    intro i s hi hf
    unfold loop_ne32
    by_cases heq : i = bound
    · exact ⟨s, by rw [if_pos heq]⟩
    · rw [if_neg heq]
      simp only [Option.some_bind]
      apply ih
      · exact Nat.mod_lt _ (by unfold UINT32_RANGE; norm_num)
      · unfold UINT32_RANGE at *
        omega

/-! ## Constant loops that rewrite every word -/

theorem for_const_succ {σ : Type} (n : Nat) (body : Nat → σ → σ) (s : σ) :
    for_const (n + 1) body s = body n (for_const n body s) := by
  simp [for_const, List.range_succ, List.foldl_append]

theorem for_const_set_upto (f : Nat → Nat → Nat) (d : List Nat) :
    ∀ k, k ≤ d.length →
      for_const k (fun w d => d.set w (f w (d.getD w 0))) d
        = (List.range d.length).map (fun w => if w < k then f w (d.getD w 0) else d.getD w 0) := by
  intro k
  induction k with
  | zero =>
    intro _
    apply List.ext_getElem
    · simp [for_const]
    · intro i h1 h2
      have hi : i < d.length := by simpa [for_const] using h1
      simp [for_const, List.getD_eq_getElem?_getD, List.getElem?_eq_getElem hi]
  | succ k ih =>
    intro hk
    rw [for_const_succ, ih (by omega)]
    apply List.ext_getElem
    · simp
    · intro i h1 h2
      simp only [List.length_set, List.length_map, List.length_range] at h1
      simp only [List.getElem_set, List.getElem_map, List.getElem_range,
        List.getD_eq_getElem?_getD, List.getElem?_map, List.getElem?_range hk]
      by_cases hki : k = i
      · subst hki
        simp
      · rw [if_neg hki]
        by_cases hik : i < k
        · simp [hik, Nat.lt_succ_of_lt hik]
        · have : ¬ i < k + 1 := by omega
          simp [hik, this]

theorem for_const_set_map (f : Nat → Nat → Nat) (d : List Nat) (n : Nat) (h : d.length = n) :
    for_const n (fun w d => d.set w (f w (d.getD w 0))) d
      = (List.range n).map (fun w => f w (d.getD w 0)) := by
  subst h
  rw [for_const_set_upto f d d.length (Nat.le_refl _)]
  apply List.map_congr_left
  intro w hw
  simp [List.mem_range.mp hw]

/-! ## Dataset node generator against its specification -/

theorem node_of_bytes_length (b : List Nat) : (node_of_bytes b).length = 16 := by
  simp [node_of_bytes, NODE_WORDS]

theorem sha3_512_node_length (SHA3_512 : List Nat → List Nat) (n : node) :
    (sha3_512_node SHA3_512 n).length = 16 :=
  node_of_bytes_length _

/-- The parent loop of the code and the parent loop of the specification agree on a
16-word node. -/
theorem dag_parents_fold (cache : Nat → node) (P node_index : Nat) :
    ∀ (l : List Nat) (r : node), r.length = 16 →
      l.foldl (fun ret i =>
          for_const NODE_WORDS
            (fun w acc => acc.set w (fnv_hash (acc.getD w 0)
              ((cache (fnv_hash (node_index ^^^ i) (ret.getD (i % NODE_WORDS) 0) % P)).getD w 0)))
            ret) r
        = l.foldl (fun r i =>
          (List.range 16).map fun w => fnv_hash (r.getD w 0)
            ((cache (fnv_hash (node_index ^^^ i) (r.getD (i % 16) 0) % P)).getD w 0)) r := by
  intro l
  induction l with
  | nil => intro r _; rfl
  | cons i l ih =>
    intro r hr
    simp only [List.foldl_cons]
    have hstep : for_const NODE_WORDS
        (fun w acc => acc.set w (fnv_hash (acc.getD w 0)
          ((cache (fnv_hash (node_index ^^^ i) (r.getD (i % NODE_WORDS) 0) % P)).getD w 0))) r
        = (List.range 16).map fun w => fnv_hash (r.getD w 0)
          ((cache (fnv_hash (node_index ^^^ i) (r.getD (i % 16) 0) % P)).getD w 0) :=
      for_const_set_map
        (fun w x => fnv_hash x
          ((cache (fnv_hash (node_index ^^^ i) (r.getD (i % 16) 0) % P)).getD w 0))
        r 16 hr
    rw [hstep]
    exact ih _ (by simp)

/-- With a non-zero 32-bit node count the code computes the specified node for that
count. -/
theorem vecash_calculate_dag_item_eq (SHA3_512 : List Nat → List Nat) (node_index : Nat)
    (light : vecash_light) (hP : (light.cache_size / 64) % UINT32_RANGE ≠ 0) :
    vecash_calculate_dag_item SHA3_512 node_index light
      = some (calc_dataset_item_spec SHA3_512 light.cache
          ((light.cache_size / 64) % UINT32_RANGE) node_index) := by
  unfold vecash_calculate_dag_item calc_dataset_item_spec
  rw [if_neg hP]
  simp only [for_const]
  have h := dag_parents_fold light.cache ((light.cache_size / 64) % UINT32_RANGE) node_index
    (List.range 256)
    (sha3_512_node SHA3_512
      ((light.cache (node_index % ((light.cache_size / 64) % UINT32_RANGE))).set 0
        ((light.cache (node_index % ((light.cache_size / 64) % UINT32_RANGE))).getD 0 0
          ^^^ node_index)))
    (sha3_512_node_length _ _)
  simp only [for_const] at h
  exact congrArg (fun r => some (sha3_512_node SHA3_512 r)) h

/-! ## Mix engine: shape of a run -/

theorem range_mix_nodes : List.range MIX_NODES = [0, 1] := rfl

/-- In light mode every access of the mix engine has a result when the page count and the
32-bit node count of the cache are not zero. -/
theorem hash_access_light_some (SHA3_512 : List Nat → List Nat) (light : vecash_light)
    (np : Nat) (s_mix0 : node) (mix : List Nat) (i : Nat) (hnp : np ≠ 0)
    (hP : (light.cache_size / 64) % UINT32_RANGE ≠ 0) :
    ∃ mix', hash_access SHA3_512 none (some light) np s_mix0 mix i = some mix' := by
  unfold hash_access
  rw [if_neg hnp]
  simp only [range_mix_nodes, List.foldlM_cons, List.foldlM_nil, hash_dag_node,
    vecash_calculate_dag_item_eq SHA3_512 _ light hP, Option.map_some', Option.bind_eq_bind,
    Option.some_bind, Option.pure_def]
  exact ⟨_, rfl⟩

/-- When the dataset holds the nodes the generator computes, an access in full mode and
the same access in light mode produce the same mix. -/
theorem hash_access_agree (SHA3_512 : List Nat → List Nat) (full_nodes : Nat → node)
    (light : vecash_light) (np bound : Nat) (s_mix0 : node) (mix : List Nat) (i : Nat)
    (hnp : np ≠ 0) (hb : 2 * np ≤ bound) (hb32 : bound < UINT32_RANGE)
    (hfull : ∀ n, n < bound → vecash_calculate_dag_item SHA3_512 n light = some (full_nodes n)) :
    hash_access SHA3_512 (some full_nodes) none np s_mix0 mix i
      = hash_access SHA3_512 none (some light) np s_mix0 mix i := by
  unfold hash_access
  rw [if_neg hnp, if_neg hnp]
  have hidx : fnv_hash (s_mix0.getD 0 0 ^^^ i) (mix.getD (i % MIX_WORDS) 0) % np < np :=
    Nat.mod_lt _ (Nat.pos_of_ne_zero hnp)
  generalize fnv_hash (s_mix0.getD 0 0 ^^^ i) (mix.getD (i % MIX_WORDS) 0) % np = index at hidx
  have key : ∀ n, n < 2 →
      hash_dag_node SHA3_512 none (some light) index n
        = hash_dag_node SHA3_512 (some full_nodes) none index n := by
    intro n hn
    have hlt : index * MIX_NODES + n < bound := by
      unfold MIX_NODES
      omega
    have hm1 : (index * MIX_NODES + n) % UINT32_RANGE = index * MIX_NODES + n :=
      Nat.mod_eq_of_lt (by omega)
    have hm2 : (MIX_NODES * index + n) % UINT32_RANGE = index * MIX_NODES + n := by
      rw [Nat.mul_comm MIX_NODES index]
      exact hm1
    simp only [hash_dag_node, hm1, hm2, hfull _ hlt]
  simp only [range_mix_nodes, List.foldlM_cons, List.foldlM_nil, key 0 (by decide),
    key 1 (by decide)]

theorem foldlM_some_of_step {α β : Type} (f : β → α → Option β)
    (hf : ∀ b a, ∃ b', f b a = some b') :
    ∀ (l : List α) (b : β), ∃ b', l.foldlM f b = some b' := by
  intro l
  induction l with
  | nil => intro b; exact ⟨b, rfl⟩
  | cons a l ih =>
    intro b
    obtain ⟨b1, hb1⟩ := hf b a
    obtain ⟨b2, hb2⟩ := ih b1
    exact ⟨b2, by simp [List.foldlM_cons, hb1, hb2]⟩

/-- Shape of a run of `vecash_hash` on a size that passes its guard. -/
theorem vecash_hash_aligned (SHA3_512 SHA3_256 : List Nat → List Nat)
    (ret : vecash_return_value) (full_nodes : Option (Nat → node))
    (light : Option vecash_light) (full_size : Nat) (header_hash : vecash_h256_t) (nonce : Nat)
    (h : full_size % MIX_WORDS = 0) :
    vecash_hash SHA3_512 SHA3_256 ret full_nodes light full_size header_hash nonce
      = ((List.range VECASH_ACCESSES).foldlM
          (hash_access SHA3_512 full_nodes light ((full_size / 128) % UINT32_RANGE)
            (node_of_bytes (SHA3_512 (header_hash ++ le64_bytes nonce))))
          ((List.range MIX_WORDS).map fun w =>
            (node_of_bytes (SHA3_512 (header_hash ++ le64_bytes nonce))).getD
              (w % NODE_WORDS) 0)).map
        fun mix =>
          (true, { ret with
            mix_hash := words_bytes (compress_mix mix) 8
            result := SHA3_256
              (node_bytes (node_of_bytes (SHA3_512 (header_hash ++ le64_bytes nonce)))
                ++ words_bytes (compress_mix mix) 8) }) := by
  unfold vecash_hash
  rw [if_neg (by simpa using h)]
  rfl

/-- In light mode `vecash_hash` returns true when the page count and the 32-bit node count
of the cache are not zero. -/
theorem vecash_hash_light_some (SHA3_512 SHA3_256 : List Nat → List Nat)
    (ret : vecash_return_value) (light : vecash_light) (full_size : Nat)
    (header_hash : vecash_h256_t) (nonce : Nat)
    (h : full_size % MIX_WORDS = 0) (hnp : (full_size / 128) % UINT32_RANGE ≠ 0)
    (hP : (light.cache_size / 64) % UINT32_RANGE ≠ 0) :
    ∃ m, vecash_hash SHA3_512 SHA3_256 ret none (some light) full_size header_hash nonce
      = some (true, { ret with
          mix_hash := m
          result := SHA3_256
            (node_bytes (node_of_bytes (SHA3_512 (header_hash ++ le64_bytes nonce))) ++ m) }) := by
  rw [vecash_hash_aligned _ _ _ _ _ _ _ _ h]
  obtain ⟨mix, hmix⟩ := foldlM_some_of_step
    (hash_access SHA3_512 none (some light) ((full_size / 128) % UINT32_RANGE)
      (node_of_bytes (SHA3_512 (header_hash ++ le64_bytes nonce))))
    (fun b a => hash_access_light_some SHA3_512 light _ _ b a hnp hP)
    (List.range VECASH_ACCESSES)
    ((List.range MIX_WORDS).map fun w =>
      (node_of_bytes (SHA3_512 (header_hash ++ le64_bytes nonce))).getD (w % NODE_WORDS) 0)
  rw [hmix]
  exact ⟨_, rfl⟩

/-! ## Bytes and words -/

theorem word_bytes_bytes_word (b : List Nat) (hbyte : ∀ x ∈ b, x < 256) (w : Nat) :
    word_bytes (bytes_word b w)
      = [b.getD (4 * w) 0, b.getD (4 * w + 1) 0, b.getD (4 * w + 2) 0, b.getD (4 * w + 3) 0] := by
  have hget : ∀ i, b.getD i 0 < 256 := by
    intro i
    rw [List.getD_eq_getElem?_getD]
    cases h : b[i]? with
    | none => simp
    | some x => simpa using hbyte x (List.getElem?_mem h)
  have h0 := hget (4 * w)
  have h1 := hget (4 * w + 1)
  have h2 := hget (4 * w + 2)
  have h3 := hget (4 * w + 3)
  unfold word_bytes bytes_word
  generalize b.getD (4 * w) 0 = x0 at *
  generalize b.getD (4 * w + 1) 0 = x1 at *
  generalize b.getD (4 * w + 2) 0 = x2 at *
  generalize b.getD (4 * w + 3) 0 = x3 at *
  have e0 : (x0 + 256 * x1 + 65536 * x2 + 16777216 * x3) % 256 = x0 := by omega
  have e1 : (x0 + 256 * x1 + 65536 * x2 + 16777216 * x3) / 256 % 256 = x1 := by omega
  have e2 : (x0 + 256 * x1 + 65536 * x2 + 16777216 * x3) / 65536 % 256 = x2 := by omega
  have e3 : (x0 + 256 * x1 + 65536 * x2 + 16777216 * x3) / 16777216 % 256 = x3 := by omega
  rw [e0, e1, e2, e3]

theorem words_bytes_node_of_bytes (b : List Nat) (hlen : b.length = 64)
    (hbyte : ∀ x ∈ b, x < 256) :
    ∀ k, k ≤ 16 → words_bytes (node_of_bytes b) k = b.take (4 * k) := by
  have ht : ∀ i, i < b.length → b.take (i + 1) = b.take i ++ [b.getD i 0] := by
    intro i hi
    rw [List.take_succ]
    simp [List.getD_eq_getElem?_getD, List.getElem?_eq_getElem hi]
  intro k
  induction k with
  | zero => intro _; simp [words_bytes]
  | succ k ih =>
    intro hk
    have hw : (node_of_bytes b).getD k 0 = bytes_word b k := by
      have hk16 : k < 16 := by omega
      simp [node_of_bytes, NODE_WORDS, List.getD_eq_getElem?_getD, List.getElem?_range hk16]
    have h4 : 4 * (k + 1) = 4 * k + 1 + 1 + 1 + 1 := by omega
    rw [words_bytes, ih (by omega), hw, word_bytes_bytes_word b hbyte, h4,
      ht (4 * k + 1 + 1 + 1) (by omega), ht (4 * k + 1 + 1) (by omega),
      ht (4 * k + 1) (by omega), ht (4 * k) (by omega)]
    simp [List.append_assoc]

/-- Reading 64 bytes as a node and the node as bytes gives the bytes back. -/
theorem node_bytes_node_of_bytes (b : List Nat) (hlen : b.length = 64)
    (hbyte : ∀ x ∈ b, x < 256) : node_bytes (node_of_bytes b) = b := by
  unfold node_bytes
  rw [show NODE_WORDS = 16 from rfl, words_bytes_node_of_bytes b hlen hbyte 16 (Nat.le_refl _)]
  exact List.take_of_length_le (by omega)

/-- The result and the mix hash of a successful run of `vecash_light_compute_internal`
are tied by the final SHA3-256. -/
theorem light_compute_result (SHA3_512 SHA3_256 : List Nat → List Nat)
    (ret : vecash_return_value) (light : vecash_light) (full_size : Nat)
    (header_hash : vecash_h256_t) (nonce : Nat) (r : vecash_return_value)
    (hr : vecash_light_compute_internal SHA3_512 SHA3_256 ret light full_size header_hash nonce
      = some r)
    (hs : r.success = true) :
    r.result = SHA3_256
      (node_bytes (node_of_bytes (SHA3_512 (header_hash ++ le64_bytes nonce))) ++ r.mix_hash) := by
  simp only [vecash_light_compute_internal] at hr
  by_cases h : full_size % MIX_WORDS = 0
  · rw [vecash_hash_aligned _ _ _ _ _ _ _ _ h] at hr
    cases hfold : (List.range VECASH_ACCESSES).foldlM
        (hash_access SHA3_512 none (some light) ((full_size / 128) % UINT32_RANGE)
          (node_of_bytes (SHA3_512 (header_hash ++ le64_bytes nonce))))
        ((List.range MIX_WORDS).map fun w =>
          (node_of_bytes (SHA3_512 (header_hash ++ le64_bytes nonce))).getD (w % NODE_WORDS) 0) with
    | none =>
      rw [hfold] at hr
      simp at hr
    | some mix =>
      rw [hfold] at hr
      simp at hr
      subst hr
      rfl
  · have hrun : vecash_hash SHA3_512 SHA3_256 { ret with success := true } none (some light)
        full_size header_hash nonce = some (false, { ret with success := true }) := by
      unfold vecash_hash
      rw [if_pos h]
    rw [hrun] at hr
    simp at hr
    subst hr
    simp at hs

/-! ## Cache builder: shape of a run -/

theorem cache_round_loop (SHA3_512 : List Nat → List Nat) (num_nodes : Nat)
    (hn : num_nodes < UINT32_RANGE) (nodes : Nat → node) :
    loop_ne32 num_nodes (fun i nodes => some (cache_round_step SHA3_512 num_nodes i nodes))
      LOOP_FUEL 0 nodes = some (cache_round SHA3_512 num_nodes nodes) := by
  have hf : num_nodes - 0 < LOOP_FUEL := by
    unfold LOOP_FUEL
    unfold UINT32_RANGE at hn
    omega
  rw [loop_ne32_pure num_nodes _ hn LOOP_FUEL 0 nodes (Nat.zero_le _) hf]
  simp [cache_round, List.range_eq_range']

theorem cache_rounds_loop (SHA3_512 : List Nat → List Nat) (num_nodes : Nat)
    (hn : num_nodes < UINT32_RANGE) (nodes : Nat → node) :
    loop_ne32 VECASH_CACHE_ROUNDS
      (fun _ nodes => loop_ne32 num_nodes
        (fun i nodes => some (cache_round_step SHA3_512 num_nodes i nodes)) LOOP_FUEL 0 nodes)
      LOOP_FUEL 0 nodes = some ((cache_round SHA3_512 num_nodes)^[3] nodes) := by
  have hbody : (fun (_ : Nat) (nodes : Nat → node) => loop_ne32 num_nodes
        (fun i nodes => some (cache_round_step SHA3_512 num_nodes i nodes)) LOOP_FUEL 0 nodes)
      = fun _ nodes => some (cache_round SHA3_512 num_nodes nodes) := by
    funext _ nodes
    exact cache_round_loop SHA3_512 num_nodes hn nodes
  rw [hbody, loop_ne32_pure VECASH_CACHE_ROUNDS _ (by decide) LOOP_FUEL 0 nodes
    (Nat.zero_le _) (by decide)]
  rfl

/-- On an aligned size of at least one node the cache builder returns true; the buffer is
the result of the fill loop followed by three rounds. -/
theorem compute_cache_nodes_aligned (SHA3_512 : List Nat → List Nat) (nodes : Nat → node)
    (cache_size : Nat) (seed : vecash_h256_t) (h : cache_size % 64 = 0)
    (hpos : cache_size / 64 ≠ 0) :
    ∃ filled,
      loop_ne32 ((cache_size / 64) % UINT32_RANGE)
        (fun i nodes => some (Function.update nodes i (sha3_512_node SHA3_512 (nodes (i - 1)))))
        LOOP_FUEL 1 (Function.update nodes 0 (node_of_bytes (SHA3_512 seed))) = some filled ∧
      vecash_compute_cache_nodes SHA3_512 nodes cache_size seed
        = some (true, (cache_round SHA3_512 ((cache_size / 64) % UINT32_RANGE))^[3] filled) := by
  have hn : (cache_size / 64) % UINT32_RANGE < UINT32_RANGE :=
    Nat.mod_lt _ (by unfold UINT32_RANGE; norm_num)
  obtain ⟨filled, hfill⟩ := loop_ne32_total ((cache_size / 64) % UINT32_RANGE)
    (fun i (nodes : Nat → node) =>
      Function.update nodes i (sha3_512_node SHA3_512 (nodes (i - 1))))
    hn LOOP_FUEL 1 (Function.update nodes 0 (node_of_bytes (SHA3_512 seed)))
    (by unfold UINT32_RANGE; norm_num)
    (by
      unfold LOOP_FUEL
      unfold UINT32_RANGE at *
      omega)
  refine ⟨filled, hfill, ?_⟩
  unfold vecash_compute_cache_nodes
  rw [if_neg (by simpa using h), if_neg hpos]
  simp only [hfill, Option.some_bind, cache_rounds_loop SHA3_512 _ hn]

/-! ## Cache builder against SeqMemoHash -/

/-- The fill loop of the cache builder writes the chain of hashes into nodes `0 .. k` and
nothing else. -/
theorem cache_fill_fold (SHA3_512 : List Nat → List Nat) (seed : vecash_h256_t)
    (nodes : Nat → node) :
    ∀ k, (∀ i, i ≤ k →
        (List.range' 1 k).foldl
          (fun s j => Function.update s j (sha3_512_node SHA3_512 (s (j - 1))))
          (Function.update nodes 0 (node_of_bytes (SHA3_512 seed))) i
          = seq_memo_fill SHA3_512 seed i) ∧
      (∀ i, k < i →
        (List.range' 1 k).foldl
          (fun s j => Function.update s j (sha3_512_node SHA3_512 (s (j - 1))))
          (Function.update nodes 0 (node_of_bytes (SHA3_512 seed))) i = nodes i) := by
  intro k
  induction k with
  | zero =>
    refine ⟨?_, ?_⟩
    · intro i hi
      have : i = 0 := by omega
      subst this
      simp [seq_memo_fill]
    · intro i hi
      have : i ≠ 0 := by omega
      simp [Function.update, this]
  | succ k ih =>
    obtain ⟨ih1, ih2⟩ := ih
    rw [List.range'_1_concat, List.foldl_append]
    simp only [List.foldl_cons, List.foldl_nil]
    have hk : 1 + k - 1 = k := by omega
    refine ⟨?_, ?_⟩
    · intro i hi
      by_cases hik : i = 1 + k
      · subst hik
        rw [Function.update_same, hk, ih1 k (Nat.le_refl _)]
        have : 1 + k = k + 1 := by omega
        rw [this]
        rfl
      · rw [Function.update_noteq hik]
        exact ih1 i (by omega)
    · intro i hi
      have hik : i ≠ 1 + k := by omega
      rw [Function.update_noteq hik]
      exact ih2 i (by omega)

theorem node_xor_loop (data other : node) (h : data.length = 16) :
    for_const NODE_WORDS (fun w data => data.set w (data.getD w 0 ^^^ other.getD w 0)) data
      = node_xor data other :=
  for_const_set_map (fun w x => x ^^^ other.getD w 0) data 16 h

/-- One pass of the round loop of the code and one step of the specified round keep two
arrays in agreement. -/
theorem cache_round_step_agree (SHA3_512 : List Nat → List Nat) (n i : Nat)
    (a b : Nat → node) (hn : n ≤ 2 ^ 31) (hi : i < n) (hab : agree_below n a b) :
    agree_below n (cache_round_step SHA3_512 n i a)
      (Function.update b i
        (sha3_512_node SHA3_512 (node_xor (b ((n - 1 + i) % n)) (b ((b i).getD 0 0 % n))))) := by
  have hpos : 0 < n := by omega
  have hwrap : (n - 1 + i) % UINT32_RANGE = n - 1 + i :=
    Nat.mod_eq_of_lt (by unfold UINT32_RANGE; omega)
  have hj : (n - 1 + i) % n < n := Nat.mod_lt _ hpos
  have hidx : (b i).getD 0 0 % n < n := Nat.mod_lt _ hpos
  have hstep : cache_round_step SHA3_512 n i a
      = Function.update a i
        (sha3_512_node SHA3_512 (node_xor (b ((n - 1 + i) % n)) (b ((b i).getD 0 0 % n)))) := by
    unfold cache_round_step
    simp only [hwrap]
    rw [node_xor_loop _ _ (hab _ hj).2, (hab i hi).1, (hab _ hj).1, (hab _ hidx).1]
  rw [hstep]
  intro k hk
  by_cases hki : k = i
  · subst hki
    simp [sha3_512_node_length]
  · simp only [Function.update_noteq hki]
    exact hab k hk

theorem cache_round_fold_agree (SHA3_512 : List Nat → List Nat) (n : Nat) (hn : n ≤ 2 ^ 31) :
    ∀ (l : List Nat) (a b : Nat → node), (∀ i ∈ l, i < n) → agree_below n a b →
      agree_below n
        (l.foldl (fun s k => cache_round_step SHA3_512 n k s) a)
        (l.foldl (fun nodes i =>
          Function.update nodes i
            (sha3_512_node SHA3_512
              (node_xor (nodes ((n - 1 + i) % n)) (nodes ((nodes i).getD 0 0 % n))))) b) := by
  intro l
  induction l with
  | nil => intro a b _ hab; exact hab
  | cons i l ih =>
    intro a b hl hab
    simp only [List.foldl_cons]
    exact ih _ _ (fun j hj => hl j (List.mem_cons_of_mem _ hj))
      (cache_round_step_agree SHA3_512 n i a b hn (hl i (List.mem_cons_self _ _)) hab)

theorem cache_round_agree (SHA3_512 : List Nat → List Nat) (n : Nat) (hn : n ≤ 2 ^ 31)
    (a b : Nat → node) (hab : agree_below n a b) :
    agree_below n (cache_round SHA3_512 n a) (seq_memo_round SHA3_512 n b) :=
  cache_round_fold_agree SHA3_512 n hn (List.range n) a b
    (fun _ hi => List.mem_range.mp hi) hab

theorem cache_round_fold_frame (SHA3_512 : List Nat → List Nat) (n : Nat) :
    ∀ (l : List Nat) (a : Nat → node) (i : Nat), (∀ j ∈ l, j ≠ i) →
      l.foldl (fun s k => cache_round_step SHA3_512 n k s) a i = a i := by
  intro l
  induction l with
  | nil => intro a i _; rfl
  | cons j l ih =>
    intro a i hl
    simp only [List.foldl_cons]
    rw [ih _ i (fun k hk => hl k (List.mem_cons_of_mem _ hk))]
    unfold cache_round_step
    exact Function.update_noteq (Ne.symm (hl j (List.mem_cons_self _ _))) _ _

/-- A round of the cache builder leaves the nodes from `n` on as they were. -/
theorem cache_round_frame (SHA3_512 : List Nat → List Nat) (n : Nat) (a : Nat → node)
    (i : Nat) (hi : n ≤ i) : cache_round SHA3_512 n a i = a i :=
  cache_round_fold_frame SHA3_512 n (List.range n) a i
    (fun j hj => by have := List.mem_range.mp hj; omega)

/-- The cache builder on an aligned size whose 32-bit node count `n` is at least 1: it
returns true, leaves the nodes from `n` on as they were, and, when `n <= 2^31`, leaves
SeqMemoHash on `n` nodes in the nodes below `n`. -/
theorem compute_cache_nodes_run (SHA3_512 : List Nat → List Nat) (nodes : Nat → node)
    (cache_size : Nat) (seed : vecash_h256_t) (h : cache_size % 64 = 0)
    (hn : 1 ≤ (cache_size / 64) % UINT32_RANGE) :
    ∃ nodes', vecash_compute_cache_nodes SHA3_512 nodes cache_size seed = some (true, nodes') ∧
      (∀ i, (cache_size / 64) % UINT32_RANGE ≤ i → nodes' i = nodes i) ∧
      ((cache_size / 64) % UINT32_RANGE ≤ 2 ^ 31 →
        ∀ i, i < (cache_size / 64) % UINT32_RANGE →
          nodes' i = SeqMemoHash SHA3_512 ((cache_size / 64) % UINT32_RANGE) seed i) := by
  obtain ⟨filled, hfill, hrun⟩ := compute_cache_nodes_aligned SHA3_512 nodes cache_size seed h
    (by intro h0; rw [h0, Nat.zero_mod] at hn; omega)
  have hlt : (cache_size / 64) % UINT32_RANGE < UINT32_RANGE :=
    Nat.mod_lt _ (by unfold UINT32_RANGE; norm_num)
  generalize (cache_size / 64) % UINT32_RANGE = n at *
  rw [loop_ne32_pure n _ hlt LOOP_FUEL 1 _ hn
    (by unfold LOOP_FUEL; unfold UINT32_RANGE at hlt; omega)] at hfill
  obtain ⟨hf1, hf2⟩ := cache_fill_fold SHA3_512 seed nodes (n - 1)
  have hfilled := Option.some.inj hfill
  rw [hfilled] at hf1 hf2
  refine ⟨_, hrun, ?_, ?_⟩
  · intro i hi
    simp only [Function.iterate_succ, Function.iterate_zero, Function.comp_apply, id_eq]
    rw [cache_round_frame _ _ _ _ hi, cache_round_frame _ _ _ _ hi,
      cache_round_frame _ _ _ _ hi]
    exact hf2 i (by omega)
  · intro h31 i hi
    have h0 : agree_below n filled (seq_memo_fill SHA3_512 seed) := by
      intro k hk
      refine ⟨hf1 k (by omega), ?_⟩
      rw [hf1 k (by omega)]
      cases k with
      | zero => exact node_of_bytes_length _
      | succ k => exact sha3_512_node_length _ _
    have h1 := cache_round_agree SHA3_512 n h31 _ _ h0
    have h2 := cache_round_agree SHA3_512 n h31 _ _ h1
    have h3 := cache_round_agree SHA3_512 n h31 _ _ h2
    exact (h3 i hi).1

/-- At `num_nodes = 2^31 + 1` and `i = 2^31` the 32-bit sum `num_nodes - 1 + i` wraps to 0:
the round step reads node 0 where `(N - 1 + i) mod N` is `2^31 - 1`. -/
theorem cache_round_step_wrap (SHA3_512 : List Nat → List Nat) (nodes : Nat → node) :
    (2 ^ 31 + 1 - 1 + 2 ^ 31) % (2 ^ 31 + 1) = 2 ^ 31 - 1 ∧
    cache_round_step SHA3_512 (2 ^ 31 + 1) (2 ^ 31) nodes
      = Function.update nodes (2 ^ 31)
          (sha3_512_node SHA3_512
            (for_const NODE_WORDS
              (fun w data => data.set w (data.getD w 0 ^^^
                (nodes ((nodes (2 ^ 31)).getD 0 0 % (2 ^ 31 + 1))).getD w 0))
              (nodes 0))) :=
  ⟨by decide, rfl⟩

/-! ## Dataset builder: shape of a run -/

/-- Without a callback the loop of the dataset builder runs to `max_n`: it writes the
generated node at every counter it passes and nothing else. -/
theorem compute_full_data_loop_complete (SHA3_512 : List Nat → List Nat) (max_n : Nat)
    (light : vecash_light) (hmax : max_n < UINT32_RANGE)
    (hP : (light.cache_size / 64) % UINT32_RANGE ≠ 0) :
    ∀ (fuel n0 : Nat) (mem : Nat → node) (log : List full_event),
      n0 ≤ max_n → max_n - n0 < fuel →
      ∃ mem' log',
        compute_full_data_loop SHA3_512 max_n light none fuel n0 mem log
          = some (true, mem', log') ∧
        (∀ n, n0 ≤ n → n < max_n → vecash_calculate_dag_item SHA3_512 n light = some (mem' n)) ∧
        (∀ n, n < n0 ∨ max_n ≤ n → mem' n = mem n) := by
  intro fuel
  induction fuel with
  | zero => intro n0 mem log _ h; omega
  | succ fuel ih =>
    intro n0 mem log hn hf
    unfold compute_full_data_loop
    by_cases heq : n0 = max_n
    · rw [if_pos heq]
      exact ⟨mem, log, rfl, fun n h1 h2 => by omega, fun _ _ => rfl⟩
    · rw [if_neg heq]
      have hmod : (n0 + 1) % UINT32_RANGE = n0 + 1 := Nat.mod_eq_of_lt (by omega)
      have hdag := vecash_calculate_dag_item_eq SHA3_512 n0 light hP
      simp only [progress_test, hdag, hmod]
      obtain ⟨mem', log', hrun, h1, h2⟩ := ih (n0 + 1)
        (Function.update mem n0 (calc_dataset_item_spec SHA3_512 light.cache
          ((light.cache_size / 64) % UINT32_RANGE) n0))
        (log ++ [full_event.write_node n0]) (by omega) (by omega)
      refine ⟨mem', log', hrun, ?_, ?_⟩
      · intro n hn0 hnm
        by_cases hnn : n = n0
        · subst hnn
          rw [h2 n (Or.inl (by omega)), Function.update_same, hdag]
        · exact h1 n (by omega) hnm
      · intro n hcase
        have hne : n ≠ n0 := by omega
        rw [h2 n (by omega), Function.update_noteq hne]

/-- When the callback is first called with a non-zero answer at counter `c`, the loop of
the dataset builder returns false right after that call: it has written the generated
nodes at the counters before `c` and nothing else. -/
theorem compute_full_data_loop_cancel (SHA3_512 : List Nat → List Nat) (max_n : Nat)
    (light : vecash_light) (cb : Nat → Int) (c : Nat) (hmax : max_n < UINT32_RANGE)
    (hq : max_n / 100 ≠ 0) (hc : c < max_n) (hcq : c % (max_n / 100) = 0) (hcb : cb c ≠ 0) :
    ∀ (fuel n0 : Nat) (mem : Nat → node) (log : List full_event),
      n0 ≤ c → c - n0 < fuel →
      (∀ m, n0 ≤ m → m < c → m % (max_n / 100) = 0 → cb m = 0) →
      (∀ m, n0 ≤ m → m < c → ∃ r, vecash_calculate_dag_item SHA3_512 m light = some r) →
      ∃ mem' events,
        compute_full_data_loop SHA3_512 max_n light (some cb) fuel n0 mem log
          = some (false, mem', log ++ events ++ [full_event.callback c]) ∧
        (∀ n, n0 ≤ n → n < c → vecash_calculate_dag_item SHA3_512 n light = some (mem' n)) ∧
        (∀ n, n < n0 ∨ c ≤ n → mem' n = mem n) := by
  intro fuel
  induction fuel with
  | zero => intro n0 mem log _ h; omega
  | succ fuel ih =>
    intro n0 mem log hn hf hfirst hdag
    unfold compute_full_data_loop
    have hne : n0 ≠ max_n := by omega
    rw [if_neg hne]
    by_cases heq : n0 = c
    · subst heq
      simp only [progress_test, if_neg hq, if_pos hcq, hcb, ne_eq, not_false_eq_true,
        decide_True]
      exact ⟨mem, [], by simp, fun n h1 h2 => by omega, fun _ _ => rfl⟩
    · have hmod : (n0 + 1) % UINT32_RANGE = n0 + 1 := Nat.mod_eq_of_lt (by omega)
      obtain ⟨r, hr⟩ := hdag n0 (Nat.le_refl _) (by omega)
      have hstep : ∀ log1 : List full_event,
          ∃ mem' events,
            compute_full_data_loop SHA3_512 max_n light (some cb) fuel (n0 + 1)
                (Function.update mem n0 r) (log1 ++ [full_event.write_node n0])
              = some (false, mem', log1 ++ events ++ [full_event.callback c]) ∧
            (∀ n, n0 ≤ n → n < c →
              vecash_calculate_dag_item SHA3_512 n light = some (mem' n)) ∧
            (∀ n, n < n0 ∨ c ≤ n → mem' n = mem n) := by
        intro log1
        obtain ⟨mem', events, hrun, h1, h2⟩ := ih (n0 + 1) (Function.update mem n0 r)
          (log1 ++ [full_event.write_node n0]) (by omega) (by omega)
          (fun m hm1 hm2 hm3 => hfirst m (by omega) hm2 hm3)
          (fun m hm1 hm2 => hdag m (by omega) hm2)
        refine ⟨mem', full_event.write_node n0 :: events, ?_, ?_, ?_⟩
        · rw [hrun]
          simp
        · intro n hn0 hnc
          by_cases hnn : n = n0
          · subst hnn
            rw [h2 n (Or.inl (by omega)), Function.update_same, hr]
          · exact h1 n (by omega) hnc
        · intro n hcase
          have hne : n ≠ n0 := by omega
          rw [h2 n (by omega), Function.update_noteq hne]
      by_cases hdiv : n0 % (max_n / 100) = 0
      · have hz : cb n0 = 0 := hfirst n0 (Nat.le_refl _) (by omega) hdiv
        simp only [progress_test, if_neg hq, if_pos hdiv, hz, ne_eq, not_true_eq_false,
          decide_False, hr, hmod]
        obtain ⟨mem', events, hrun, h1, h2⟩ := hstep (log ++ [full_event.callback n0])
        exact ⟨mem', full_event.callback n0 :: events, by rw [hrun]; simp, h1, h2⟩
      · simp only [progress_test, if_neg hq, if_neg hdiv, hr, hmod]
        exact hstep log

/-- The dataset builder with a null callback on an aligned size whose 32-bit node count is
`max_n`, for a cache whose 32-bit node count is not zero: it returns true, node `n` holds
the generated node for every `n < max_n`, and the nodes from `max_n` on are as they were. -/
theorem compute_full_data_run (SHA3_512 : List Nat → List Nat) (mem : Nat → node)
    (full_size : Nat) (light : vecash_light)
    (halign : ¬ (full_size % 128 ≠ 0 ∨ full_size % 64 ≠ 0))
    (hP : (light.cache_size / 64) % UINT32_RANGE ≠ 0) :
    ∃ mem' log, vecash_compute_full_data SHA3_512 mem full_size light none
        = some (true, mem', log) ∧
      (∀ n, n < (full_size / 64) % UINT32_RANGE →
        vecash_calculate_dag_item SHA3_512 n light = some (mem' n)) ∧
      (∀ n, (full_size / 64) % UINT32_RANGE ≤ n → mem' n = mem n) := by
  have hmax : (full_size / 64) % UINT32_RANGE < UINT32_RANGE :=
    Nat.mod_lt _ (by unfold UINT32_RANGE; norm_num)
  obtain ⟨mem', log', hrun, h1, h2⟩ := compute_full_data_loop_complete SHA3_512
    ((full_size / 64) % UINT32_RANGE) light hmax hP LOOP_FUEL 0 mem [] (Nat.zero_le _)
    (by unfold LOOP_FUEL; unfold UINT32_RANGE at hmax ⊢; omega)
  refine ⟨mem', log', ?_, fun n hn => h1 n (Nat.zero_le _) hn, fun n hn => h2 n (Or.inr hn)⟩
  unfold vecash_compute_full_data
  rw [if_neg (by simpa [MIX_WORDS] using halign)]
  exact hrun

/-! ## Light handle constructor: shape of a run -/

/-- For a block number in the table's range whose seed loop ends, `vecash_light_new` is
decided by `vecash_light_new_internal` on the table's size and the seed. -/
theorem vecash_light_new_in_range (SHA3_512 SHA3_256 : List Nat → List Nat) (ndebug : Bool)
    (cache_sizes : Nat → Nat) (env : light_env) (block_number : Nat)
    (hb : block_number < VECASH_EPOCH_LENGTH * 2048) :
    vecash_light_new SHA3_512 SHA3_256 ndebug cache_sizes env block_number
      = match vecash_light_new_internal SHA3_512 env
            (cache_sizes (block_number / VECASH_EPOCH_LENGTH))
            (SHA3_256^[block_number / VECASH_EPOCH_LENGTH] (List.replicate 32 0)) with
        | none => call_end.no_return
        | some none => call_end.null_write
        | some (some ret) => call_end.returns (some { ret with block_number := block_number }) := by
  have hidx : block_number / VECASH_EPOCH_LENGTH < 2048 := by
    unfold VECASH_EPOCH_LENGTH at *
    omega
  have hseed := vecash_get_seedhash_eq SHA3_256 block_number
    (by unfold UINT32_RANGE; omega)
  simp only [vecash_light_new, hseed, vecash_get_cachesize, hidx, decide_True, Bool.not_true,
    Bool.and_false, if_true]
  rfl

/-- A handle returned by `vecash_light_new_internal` holds the size it was given and the
nodes the cache builder left in the allocated buffer. -/
theorem vecash_light_new_internal_handle (SHA3_512 : List Nat → List Nat) (env : light_env)
    (cache_size : Nat) (seed : vecash_h256_t) (ret : vecash_light)
    (h : vecash_light_new_internal SHA3_512 env cache_size seed = some (some ret)) :
    ret.cache_size = cache_size ∧
    vecash_compute_cache_nodes SHA3_512 env.cache cache_size seed = some (true, ret.cache) := by
  unfold vecash_light_new_internal at h
  cases hc : env.calloc_ok with
  | false => simp [hc] at h
  | true =>
    cases hm : env.malloc_ok with
    | false => simp [hc, hm] at h
    | true =>
      simp only [hc, hm, Bool.not_true, Bool.false_eq_true, if_false] at h
      cases hrun : vecash_compute_cache_nodes SHA3_512 env.cache cache_size seed with
      | none => simp [hrun] at h
      | some r =>
        obtain ⟨ok, nodes⟩ := r
        cases ok with
        | false => simp [hrun] at h
        | true =>
          simp only [hrun, Option.some.injEq] at h
          subst h
          exact ⟨rfl, rfl⟩

/-! ## Full handle constructor: shape of a run -/

/-- The loop of the dataset builder only appends callback calls and node writes to the
log. -/
theorem compute_full_data_loop_events (SHA3_512 : List Nat → List Nat) (max_n : Nat)
    (light : vecash_light) (callback : Option (Nat → Int)) :
    ∀ (fuel n : Nat) (mem : Nat → node) (log : List full_event)
      (r : Bool × (Nat → node) × List full_event),
      compute_full_data_loop SHA3_512 max_n light callback fuel n mem log = some r →
      ∃ events, r.2.2 = log ++ events ∧
        ∀ e ∈ events, (∃ m, e = full_event.callback m) ∨ (∃ m, e = full_event.write_node m) := by
  intro fuel
  induction fuel with
  | zero =>
    intro n mem log r h
    simp [compute_full_data_loop] at h
  | succ fuel ih =>
    intro n mem log r h
    unfold compute_full_data_loop at h
    by_cases heq : n = max_n
    · rw [if_pos heq] at h
      obtain rfl := Option.some.inj h
      exact ⟨[], by simp, by simp⟩
    · rw [if_neg heq] at h
      have hstep : ∀ log1 events1, log1 = log ++ events1 →
          (∀ e ∈ events1,
            (∃ m, e = full_event.callback m) ∨ (∃ m, e = full_event.write_node m)) →
          (match vecash_calculate_dag_item SHA3_512 n light with
            | none => none
            | some r =>
              compute_full_data_loop SHA3_512 max_n light callback fuel
                ((n + 1) % UINT32_RANGE) (Function.update mem n r)
                (log1 ++ [full_event.write_node n])) = some r →
          ∃ events, r.2.2 = log ++ events ∧
            ∀ e ∈ events,
              (∃ m, e = full_event.callback m) ∨ (∃ m, e = full_event.write_node m) := by
        intro log1 events1 hlog hev hrun
        cases hdag : vecash_calculate_dag_item SHA3_512 n light with
        | none => simp [hdag] at hrun
        | some node =>
          simp only [hdag] at hrun
          obtain ⟨events, he, hall⟩ := ih _ _ _ _ hrun
          refine ⟨events1 ++ [full_event.write_node n] ++ events, ?_, ?_⟩
          · rw [he, hlog]
            simp
          · intro e hmem
            simp only [List.mem_append, List.mem_singleton] at hmem
            rcases hmem with (h1 | h1) | h1
            · exact hev e h1
            · exact Or.inr ⟨n, h1⟩
            · exact hall e h1
      cases callback with
      | none =>
        simp only [progress_test] at h
        exact hstep log [] (by simp) (by simp) h
      | some cb =>
        simp only [progress_test] at h
        by_cases hq : max_n / 100 = 0
        · simp [hq] at h
        · by_cases hdiv : n % (max_n / 100) = 0
          · by_cases hcb : cb n = 0
            · simp only [if_neg hq, if_pos hdiv, hcb, ne_eq, not_true_eq_false,
                decide_False] at h
              exact hstep _ [full_event.callback n] rfl
                (by intro e he; exact Or.inl ⟨n, by simpa using he⟩) h
            · simp only [if_neg hq, if_pos hdiv, hcb, ne_eq, not_false_eq_true,
                decide_True] at h
              obtain rfl := Option.some.inj h
              exact ⟨[full_event.callback n], rfl,
                by intro e he; exact Or.inl ⟨n, by simpa using he⟩⟩
          · simp only [if_neg hq, if_neg hdiv] at h
            exact hstep log [] (by simp) (by simp) h

/-- The dataset builder reports callback calls and node writes only. -/
theorem compute_full_data_events (SHA3_512 : List Nat → List Nat) (mem : Nat → node)
    (full_size : Nat) (light : vecash_light) (callback : Option (Nat → Int)) (ok : Bool)
    (data : Nat → node) (events : List full_event)
    (h : vecash_compute_full_data SHA3_512 mem full_size light callback
      = some (ok, data, events)) :
    ∀ e ∈ events, (∃ m, e = full_event.callback m) ∨ (∃ m, e = full_event.write_node m) := by
  unfold vecash_compute_full_data at h
  by_cases ha : full_size % (4 * MIX_WORDS) ≠ 0 ∨ full_size % 64 ≠ 0
  · rw [if_pos ha] at h
    simp only [Option.some.injEq, Prod.mk.injEq] at h
    obtain ⟨_, _, rfl⟩ := h
    simp
  · rw [if_neg ha] at h
    obtain ⟨ev, he, hall⟩ := compute_full_data_loop_events _ _ _ _ _ _ _ _ _ h
    simp only [List.nil_append] at he
    rw [he]
    exact hall

/-- The log a run of `full_new_build` returns is the log it was given followed by what
the run does on an empty log. -/
theorem full_new_build_log (SHA3_512 : List Nat → List Nat) (env : full_env) (full_size : Nat)
    (light : vecash_light) (callback : Option (Nat → Int)) (log : List full_event) :
    full_new_build SHA3_512 env full_size light callback log
      = (full_new_build SHA3_512 env full_size light callback []).map
          fun r => (r.1, log ++ r.2) := by
  unfold full_new_build
  cases env.mmap_ok <;> simp
  cases vecash_compute_full_data SHA3_512 env.data full_size light callback with
  | none => rfl
  | some r =>
    obtain ⟨ok, data, events⟩ := r
    cases ok <;> cases env.fseek_ok <;> cases env.fwrite_ok <;> cases env.fflush_ok <;> simp

/-- What `full_new_build` does on an empty log, case by case. -/
theorem full_new_build_nil (SHA3_512 : List Nat → List Nat) (env : full_env) (full_size : Nat)
    (light : vecash_light) (callback : Option (Nat → Int))
    (h : Option vecash_full) (log : List full_event)
    (hrun : full_new_build SHA3_512 env full_size light callback [] = some (h, log)) :
    (env.mmap_ok = false ∧ h = none ∧
      log = [full_event.mmap, full_event.fclose, full_event.free]) ∨
    (∃ data events, env.mmap_ok = true ∧
      vecash_compute_full_data SHA3_512 env.data full_size light callback
        = some (false, data, events) ∧ h = none ∧
      log = [full_event.mmap, full_event.compute] ++ events
        ++ [full_event.munmap, full_event.fclose, full_event.free]) ∨
    (∃ data events post, env.mmap_ok = true ∧
      vecash_compute_full_data SHA3_512 env.data full_size light callback
        = some (true, data, events) ∧
      log = [full_event.mmap, full_event.compute] ++ events ++ post ∧
      ((env.fseek_ok = false ∧ h = none ∧
          post = [full_event.fseek, full_event.munmap, full_event.fclose, full_event.free]) ∨
        (env.fseek_ok = true ∧ env.fwrite_ok = false ∧ h = none ∧
          post = [full_event.fseek, full_event.fwrite_magic, full_event.munmap,
            full_event.fclose, full_event.free]) ∨
        (env.fseek_ok = true ∧ env.fwrite_ok = true ∧ env.fflush_ok = false ∧ h = none ∧
          post = [full_event.fseek, full_event.fwrite_magic, full_event.fflush,
            full_event.munmap, full_event.fclose, full_event.free]) ∨
        (env.fseek_ok = true ∧ env.fwrite_ok = true ∧ env.fflush_ok = true ∧
          h = some { file_size := full_size, data := data } ∧
          post = [full_event.fseek, full_event.fwrite_magic, full_event.fflush]))) := by
  unfold full_new_build at hrun
  cases hm : env.mmap_ok with
  | false =>
    simp [hm] at hrun
    exact Or.inl ⟨rfl, hrun.1.symm, hrun.2.symm⟩
  | true =>
    simp only [hm, Bool.not_true, Bool.false_eq_true, if_false] at hrun
    cases hc : vecash_compute_full_data SHA3_512 env.data full_size light callback with
    | none => simp [hc] at hrun
    | some r =>
      obtain ⟨ok, data, events⟩ := r
      cases ok with
      | false =>
        simp [hc] at hrun
        exact Or.inr (Or.inl ⟨data, events, rfl, rfl, hrun.1.symm, by simp [← hrun.2]⟩)
      | true =>
        refine Or.inr (Or.inr ⟨data, events, ?_⟩)
        cases hs : env.fseek_ok with
        | false =>
          simp [hc, hs] at hrun
          exact ⟨_, rfl, rfl, by rw [← hrun.2]; simp, Or.inl ⟨rfl, hrun.1.symm, rfl⟩⟩
        | true =>
          cases hw : env.fwrite_ok with
          | false =>
            simp [hc, hs, hw] at hrun
            exact ⟨_, rfl, rfl, by rw [← hrun.2]; simp,
              Or.inr (Or.inl ⟨rfl, rfl, hrun.1.symm, rfl⟩)⟩
          | true =>
            cases hf : env.fflush_ok with
            | false =>
              simp [hc, hs, hw, hf] at hrun
              exact ⟨_, rfl, rfl, by rw [← hrun.2]; simp,
                Or.inr (Or.inr (Or.inl ⟨rfl, rfl, rfl, hrun.1.symm, rfl⟩))⟩
            | true =>
              simp [hc, hs, hw, hf] at hrun
              exact ⟨_, rfl, rfl, by rw [← hrun.2]; simp,
                Or.inr (Or.inr (Or.inr ⟨rfl, rfl, rfl, hrun.1.symm, rfl⟩))⟩

/-- In a run of `full_new_build` that starts from a log without a magic write and without
node writes, the magic number is written only after the dataset builder has returned true,
once, after every node write. -/
theorem full_new_build_magic (SHA3_512 : List Nat → List Nat) (env : full_env)
    (full_size : Nat) (light : vecash_light) (callback : Option (Nat → Int))
    (log0 : List full_event) (h : Option vecash_full) (log : List full_event)
    (hlog0 : ∀ e ∈ log0, e ≠ full_event.fwrite_magic ∧ ∀ n, e ≠ full_event.write_node n)
    (hrun : full_new_build SHA3_512 env full_size light callback log0 = some (h, log)) :
    (full_event.fwrite_magic ∈ log →
      ∃ data events pre post,
        vecash_compute_full_data SHA3_512 env.data full_size light callback
          = some (true, data, events) ∧
        log = pre ++ [full_event.compute] ++ events
          ++ [full_event.fseek, full_event.fwrite_magic] ++ post ∧
        (∀ e ∈ pre ++ post, e ≠ full_event.fwrite_magic ∧ ∀ n, e ≠ full_event.write_node n) ∧
        (∀ e ∈ events, e ≠ full_event.fwrite_magic) ∧
        (env.fwrite_ok = true → ∃ post', post = full_event.fflush :: post')) ∧
    (∀ data events,
      vecash_compute_full_data SHA3_512 env.data full_size light callback
        = some (false, data, events) → full_event.fwrite_magic ∉ log) := by
  rw [full_new_build_log] at hrun
  cases hnil : full_new_build SHA3_512 env full_size light callback [] with
  | none => simp [hnil] at hrun
  | some r =>
    obtain ⟨h', log'⟩ := r
    simp only [hnil, Option.map_some', Option.some.injEq, Prod.mk.injEq] at hrun
    obtain ⟨rfl, rfl⟩ := hrun
    have hmagic0 : full_event.fwrite_magic ∉ log0 := fun hm => (hlog0 _ hm).1 rfl
    have hev : ∀ (ok : Bool) data events,
        vecash_compute_full_data SHA3_512 env.data full_size light callback
          = some (ok, data, events) → full_event.fwrite_magic ∉ events := by
      intro ok data events hc hm
      rcases compute_full_data_events _ _ _ _ _ _ _ _ hc _ hm with ⟨m, hm'⟩ | ⟨m, hm'⟩ <;>
        exact full_event.noConfusion hm'
    rcases full_new_build_nil _ _ _ _ _ _ _ hnil with
      ⟨_, _, rfl⟩ | ⟨data, events, _, hc, _, rfl⟩ | ⟨data, events, post, _, hc, rfl, hpost⟩
    · refine ⟨fun hm => ?_, fun _ _ _ hm => ?_⟩ <;>
      · simp only [List.mem_append, List.mem_cons, List.mem_singleton] at hm
        simp [hmagic0] at hm
    · have he := hev _ _ _ hc
      refine ⟨fun hm => ?_, fun _ _ _ hm => ?_⟩ <;>
      · simp only [List.mem_append, List.mem_cons, List.mem_singleton] at hm
        simp [hmagic0, he] at hm
    · have he := hev _ _ _ hc
      refine ⟨fun hm => ?_, fun data' events' hc' _ => ?_⟩
      · have hq : ∀ post : List full_event,
            (∀ e ∈ post, e ≠ full_event.fwrite_magic ∧ ∀ n, e ≠ full_event.write_node n) →
            ∀ e ∈ (log0 ++ [full_event.mmap]) ++ post,
              e ≠ full_event.fwrite_magic ∧ ∀ n, e ≠ full_event.write_node n := by
          intro post hp e hem
          rcases List.mem_append.mp hem with hem1 | hem1
          · rcases List.mem_append.mp hem1 with hem2 | hem2
            · exact hlog0 e hem2
            · have hm1 : ∀ e ∈ [full_event.mmap],
                  e ≠ full_event.fwrite_magic ∧ ∀ n, e ≠ full_event.write_node n := by simp
              exact hm1 e hem2
          · exact hp e hem1
        rcases hpost with ⟨_, _, rfl⟩ | ⟨_, hw, _, rfl⟩ | ⟨_, hw, _, _, rfl⟩ | ⟨_, hw, _, _, rfl⟩
        · simp only [List.mem_append, List.mem_cons, List.mem_singleton] at hm
          simp [hmagic0, he] at hm
        · exact ⟨data, events, log0 ++ [full_event.mmap],
            [full_event.munmap, full_event.fclose, full_event.free], hc, by simp,
            hq _ (by simp), fun e hem hee => he (hee ▸ hem), fun hw' => by simp [hw] at hw'⟩
        · exact ⟨data, events, log0 ++ [full_event.mmap],
            [full_event.fflush, full_event.munmap, full_event.fclose, full_event.free], hc,
            by simp, hq _ (by simp), fun e hem hee => he (hee ▸ hem), fun _ => ⟨_, rfl⟩⟩
        · exact ⟨data, events, log0 ++ [full_event.mmap], [full_event.fflush], hc,
            by simp, hq _ (by simp), fun e hem hee => he (hee ▸ hem), fun _ => ⟨_, rfl⟩⟩
      · rw [hc] at hc'
        simp at hc'

/-- A run of `vecash_full_new_internal` in which every system call succeeds and the file
has to be built: the log, given what the dataset builder returns. -/
theorem vecash_full_new_internal_built (SHA3_512 : List Nat → List Nat) (env : full_env)
    (full_size : Nat) (light : vecash_light) (callback : Option (Nat → Int))
    (data : Nat → node) (events : List full_event)
    (hcalloc : env.calloc_ok = true) (hmmap : env.mmap_ok = true)
    (hseek : env.fseek_ok = true) (hwrite : env.fwrite_ok = true)
    (hflush : env.fflush_ok = true)
    (hc : vecash_compute_full_data SHA3_512 env.data full_size light callback
      = some (true, data, events)) :
    (env.prepare_first = vecash_io_rc.VECASH_IO_MEMO_MISMATCH →
      vecash_full_new_internal SHA3_512 env full_size light callback
        = some (some { file_size := full_size, data := data },
            [full_event.io_prepare false, full_event.mmap, full_event.compute] ++ events
              ++ [full_event.fseek, full_event.fwrite_magic, full_event.fflush])) ∧
    (env.prepare_first = vecash_io_rc.VECASH_IO_MEMO_SIZE_MISMATCH →
      env.prepare_forced = vecash_io_rc.VECASH_IO_MEMO_MISMATCH →
      vecash_full_new_internal SHA3_512 env full_size light callback
        = some (some { file_size := full_size, data := data },
            [full_event.io_prepare false, full_event.io_prepare true, full_event.mmap,
              full_event.compute] ++ events
              ++ [full_event.fseek, full_event.fwrite_magic, full_event.fflush])) := by
  constructor
  · intro hp
    simp [vecash_full_new_internal, full_new_build, hcalloc, hmmap, hseek, hwrite, hflush, hc,
      hp]
  · intro hp hf
    simp [vecash_full_new_internal, full_new_build, hcalloc, hmmap, hseek, hwrite, hflush, hc,
      hp, hf]

/-! ## Vectorised generator against the portable one -/

theorem list_length_succ (l : List Nat) (n : Nat) (h : l.length = n + 1) :
    ∃ a t, l = a :: t ∧ t.length = n := by
  cases l with
  | nil => simp at h
  | cons a t => exact ⟨a, t, rfl, by simpa using h⟩

/-- A node of 16 words, word by word. -/
theorem node_sixteen (r : node) (h : r.length = 16) :
    ∃ a0 a1 a2 a3 a4 a5 a6 a7 a8 a9 a10 a11 a12 a13 a14 a15 : Nat,
      r = [a0, a1, a2, a3, a4, a5, a6, a7, a8, a9, a10, a11, a12, a13, a14, a15] := by
  obtain ⟨a0, t0, rfl, h0⟩ := list_length_succ r 15 h
  obtain ⟨a1, t1, rfl, h1⟩ := list_length_succ t0 14 h0
  obtain ⟨a2, t2, rfl, h2⟩ := list_length_succ t1 13 h1
  obtain ⟨a3, t3, rfl, h3⟩ := list_length_succ t2 12 h2
  obtain ⟨a4, t4, rfl, h4⟩ := list_length_succ t3 11 h3
  obtain ⟨a5, t5, rfl, h5⟩ := list_length_succ t4 10 h4
  obtain ⟨a6, t6, rfl, h6⟩ := list_length_succ t5 9 h5
  obtain ⟨a7, t7, rfl, h7⟩ := list_length_succ t6 8 h6
  obtain ⟨a8, t8, rfl, h8⟩ := list_length_succ t7 7 h7
  obtain ⟨a9, t9, rfl, h9⟩ := list_length_succ t8 6 h8
  obtain ⟨a10, t10, rfl, h10⟩ := list_length_succ t9 5 h9
  obtain ⟨a11, t11, rfl, h11⟩ := list_length_succ t10 4 h10
  obtain ⟨a12, t12, rfl, h12⟩ := list_length_succ t11 3 h11
  obtain ⟨a13, t13, rfl, h13⟩ := list_length_succ t12 2 h12
  obtain ⟨a14, t14, rfl, h14⟩ := list_length_succ t13 1 h13
  obtain ⟨a15, t15, rfl, h15⟩ := list_length_succ t14 0 h14
  have : t15 = [] := List.length_eq_zero.mp h15
  subst this
  exact ⟨a0, a1, a2, a3, a4, a5, a6, a7, a8, a9, a10, a11, a12, a13, a14, a15, rfl⟩

/-- One pass of the vectorised loop on the registers of a 16-word node gives the registers
of the node whose every word is the FNV mix with the parent's word. -/
theorem sse_step (cache : Nat → node) (P node_index i : Nat) (r : node)
    (h : r.length = 16) :
    sse_parent_step cache P node_index i (sse_of_node r)
      = sse_of_node ((List.range 16).map fun w => fnv_hash (r.getD w 0)
          ((cache (fnv_hash (node_index ^^^ i) (r.getD (i % 16) 0) % P)).getD w 0)) := by
  obtain ⟨a0, a1, a2, a3, a4, a5, a6, a7, a8, a9, a10, a11, a12, a13, a14, a15, rfl⟩ :=
    node_sixteen r h
  rfl

/-- The vectorised parent loop keeps the registers equal to the node of the specified
parent loop. -/
theorem dag_parents_fold_sse (cache : Nat → node) (P node_index : Nat) :
    ∀ (l : List Nat) (r : node), r.length = 16 →
      l.foldl (fun s i => sse_parent_step cache P node_index i s) (sse_of_node r)
        = sse_of_node (l.foldl (fun r i =>
            (List.range 16).map fun w => fnv_hash (r.getD w 0)
              ((cache (fnv_hash (node_index ^^^ i) (r.getD (i % 16) 0) % P)).getD w 0)) r) := by
  intro l
  induction l with
  | nil => intro r _; rfl
  | cons i l ih =>
    intro r hr
    simp only [List.foldl_cons]
    rw [sse_step cache P node_index i r hr]
    exact ih _ (by simp)

/-- The vectorised branch and the portable branch of `vecash_calculate_dag_item` have the
same outcome. -/
theorem vecash_calculate_dag_item_sse_eq (SHA3_512 : List Nat → List Nat) (node_index : Nat)
    (light : vecash_light) :
    vecash_calculate_dag_item_sse SHA3_512 node_index light
      = vecash_calculate_dag_item SHA3_512 node_index light := by
  by_cases hP : (light.cache_size / 64) % UINT32_RANGE = 0
  · simp [vecash_calculate_dag_item_sse, vecash_calculate_dag_item, hP]
  · rw [vecash_calculate_dag_item_eq SHA3_512 node_index light hP]
    have h := dag_parents_fold_sse light.cache ((light.cache_size / 64) % UINT32_RANGE)
      node_index (List.range 256)
      (sha3_512_node SHA3_512
        ((light.cache (node_index % ((light.cache_size / 64) % UINT32_RANGE))).set 0
          ((light.cache (node_index % ((light.cache_size / 64) % UINT32_RANGE))).getD 0 0
            ^^^ node_index)))
      (sha3_512_node_length _ _)
    simp only [vecash_calculate_dag_item_sse, if_neg hP, for_const, calc_dataset_item_spec]
    rw [show VECASH_DATASET_PARENTS = 256 from rfl, h]
    simp only [sse_of_node]

/-! ## Mix compression: a mix word by word -/

/-- A mix of 32 words, word by word. -/
theorem mix_thirty_two (m : List Nat) (h : m.length = 32) :
    ∃ a0 a1 a2 a3 a4 a5 a6 a7 a8 a9 a10 a11 a12 a13 a14 a15
      a16 a17 a18 a19 a20 a21 a22 a23 a24 a25 a26 a27 a28 a29 a30 a31 : Nat,
      m = [a0, a1, a2, a3, a4, a5, a6, a7, a8, a9, a10,
        a11, a12, a13, a14, a15, a16, a17, a18, a19, a20, a21,
        a22, a23, a24, a25, a26, a27, a28, a29, a30, a31] := by
  obtain ⟨a0, t0, rfl, h0⟩ := list_length_succ m 31 h
  obtain ⟨a1, t1, rfl, h1⟩ := list_length_succ t0 30 h0
  obtain ⟨a2, t2, rfl, h2⟩ := list_length_succ t1 29 h1
  obtain ⟨a3, t3, rfl, h3⟩ := list_length_succ t2 28 h2
  obtain ⟨a4, t4, rfl, h4⟩ := list_length_succ t3 27 h3
  obtain ⟨a5, t5, rfl, h5⟩ := list_length_succ t4 26 h4
  obtain ⟨a6, t6, rfl, h6⟩ := list_length_succ t5 25 h5
  obtain ⟨a7, t7, rfl, h7⟩ := list_length_succ t6 24 h6
  obtain ⟨a8, t8, rfl, h8⟩ := list_length_succ t7 23 h7
  obtain ⟨a9, t9, rfl, h9⟩ := list_length_succ t8 22 h8
  obtain ⟨a10, t10, rfl, h10⟩ := list_length_succ t9 21 h9
  obtain ⟨a11, t11, rfl, h11⟩ := list_length_succ t10 20 h10
  obtain ⟨a12, t12, rfl, h12⟩ := list_length_succ t11 19 h11
  obtain ⟨a13, t13, rfl, h13⟩ := list_length_succ t12 18 h12
  obtain ⟨a14, t14, rfl, h14⟩ := list_length_succ t13 17 h13
  obtain ⟨a15, t15, rfl, h15⟩ := list_length_succ t14 16 h14
  obtain ⟨a16, t16, rfl, h16⟩ := list_length_succ t15 15 h15
  obtain ⟨a17, t17, rfl, h17⟩ := list_length_succ t16 14 h16
  obtain ⟨a18, t18, rfl, h18⟩ := list_length_succ t17 13 h17
  obtain ⟨a19, t19, rfl, h19⟩ := list_length_succ t18 12 h18
  obtain ⟨a20, t20, rfl, h20⟩ := list_length_succ t19 11 h19
  obtain ⟨a21, t21, rfl, h21⟩ := list_length_succ t20 10 h20
  obtain ⟨a22, t22, rfl, h22⟩ := list_length_succ t21 9 h21
  obtain ⟨a23, t23, rfl, h23⟩ := list_length_succ t22 8 h22
  obtain ⟨a24, t24, rfl, h24⟩ := list_length_succ t23 7 h23
  obtain ⟨a25, t25, rfl, h25⟩ := list_length_succ t24 6 h24
  obtain ⟨a26, t26, rfl, h26⟩ := list_length_succ t25 5 h25
  obtain ⟨a27, t27, rfl, h27⟩ := list_length_succ t26 4 h26
  obtain ⟨a28, t28, rfl, h28⟩ := list_length_succ t27 3 h27
  obtain ⟨a29, t29, rfl, h29⟩ := list_length_succ t28 2 h28
  obtain ⟨a30, t30, rfl, h30⟩ := list_length_succ t29 1 h29
  obtain ⟨a31, t31, rfl, h31⟩ := list_length_succ t30 0 h30
  obtain rfl := List.length_eq_zero.mp h31
  exact ⟨a0, a1, a2, a3, a4, a5, a6, a7, a8, a9, a10, a11, a12, a13, a14, a15,
    a16, a17, a18, a19, a20, a21, a22, a23, a24, a25, a26, a27, a28, a29, a30, a31, rfl⟩

/-! ## Mix engine: record of the dataset node indices -/

/-- A dataset node index formed from a page index below the page count lies below twice
the page count, also after 32-bit wrap-around. -/
theorem node_index_lt (np x n : Nat) (hnp : np ≠ 0) (hn : n < 2) :
    (MIX_NODES * (x % np) + n) % UINT32_RANGE < 2 * np := by
  have h1 : x % np < np := Nat.mod_lt _ (Nat.pos_of_ne_zero hnp)
  have h2 : (MIX_NODES * (x % np) + n) % UINT32_RANGE ≤ MIX_NODES * (x % np) + n :=
    Nat.mod_le _ _
  have h3 : MIX_NODES = 2 := rfl
  rw [h3] at h2
  rw [h3]
  omega

/-- The node `hash_dag_node` gets at page `index` and offset `n` is the node at the
dataset node index `MIX_NODES * index + n`, in both modes. -/
theorem hash_dag_node_at (SHA3_512 : List Nat → List Nat) (full_nodes : Option (Nat → node))
    (light : Option vecash_light) (index n : Nat) :
    hash_dag_node SHA3_512 full_nodes light index n
      = dag_node_at SHA3_512 full_nodes light ((MIX_NODES * index + n) % UINT32_RANGE) := by
  unfold hash_dag_node dag_node_at
  cases full_nodes with
  | some nodes => rfl
  | none =>
    cases light with
    | none => rfl
    | some l => simp only [Nat.mul_comm index MIX_NODES]

/-- One access with a record: the mix is the one of the plain access, the indices recorded
before are kept, the new ones lie below twice the page count, and there are `MIX_NODES` of
them when the access has a result. -/
theorem hash_access_traced_step (SHA3_512 : List Nat → List Nat)
    (full_nodes : Option (Nat → node)) (light : Option vecash_light) (np : Nat) (s_mix0 : node)
    (st : Option (List Nat) × List Nat) (i : Nat) :
    ∃ tl, hash_access_traced SHA3_512 full_nodes light np s_mix0 st i
        = (st.1.bind fun mix => hash_access SHA3_512 full_nodes light np s_mix0 mix i,
            st.2 ++ tl) ∧
      (∀ x ∈ tl, x < 2 * np) ∧
      ((st.1.bind fun mix => hash_access SHA3_512 full_nodes light np s_mix0 mix i).isSome
        → tl.length = 2) := by
  obtain ⟨m, tr⟩ := st
  cases m with
  | none => exact ⟨[], by simp [hash_access_traced], by simp, by simp⟩
  | some mix =>
    by_cases hnp : np = 0
    · exact ⟨[], by simp [hash_access_traced, hash_access, hnp], by simp,
        by simp [hash_access, hnp]⟩
    · refine ⟨?_, ?_, ?_, ?_⟩
      · exact
          if (dag_node_at SHA3_512 full_nodes light
              ((MIX_NODES * (fnv_hash (s_mix0.getD 0 0 ^^^ i) (mix.getD (i % MIX_WORDS) 0) % np)
                + 0) % UINT32_RANGE)).isSome
          then
            [(MIX_NODES * (fnv_hash (s_mix0.getD 0 0 ^^^ i) (mix.getD (i % MIX_WORDS) 0) % np)
                + 0) % UINT32_RANGE,
              (MIX_NODES * (fnv_hash (s_mix0.getD 0 0 ^^^ i) (mix.getD (i % MIX_WORDS) 0) % np)
                + 1) % UINT32_RANGE]
          else
            [(MIX_NODES * (fnv_hash (s_mix0.getD 0 0 ^^^ i) (mix.getD (i % MIX_WORDS) 0) % np)
                + 0) % UINT32_RANGE]
      · simp only [hash_access_traced, hash_access, if_neg hnp, range_mix_nodes,
          List.foldl_cons, List.foldl_nil, List.foldlM_cons, List.foldlM_nil,
          Option.some_bind, Option.bind_eq_bind, Option.pure_def, hash_dag_node_at]
        cases h0 : dag_node_at SHA3_512 full_nodes light
            ((MIX_NODES * (fnv_hash (s_mix0.getD 0 0 ^^^ i) (mix.getD (i % MIX_WORDS) 0) % np)
              + 0) % UINT32_RANGE) with
        | none => simp
        | some d0 =>
          cases h1 : dag_node_at SHA3_512 full_nodes light
              ((MIX_NODES * (fnv_hash (s_mix0.getD 0 0 ^^^ i) (mix.getD (i % MIX_WORDS) 0) % np)
                + 1) % UINT32_RANGE) with
          | none => simp [h1]
          | some d1 => simp [h1]
      · intro x hx
        split at hx
        · simp only [List.mem_cons, List.mem_singleton, List.not_mem_nil, or_false] at hx
          rcases hx with hx | hx
          · rw [hx]; exact node_index_lt np _ 0 hnp (by decide)
          · rw [hx]; exact node_index_lt np _ 1 hnp (by decide)
        · simp only [List.mem_singleton] at hx
          rw [hx]; exact node_index_lt np _ 0 hnp (by decide)
      · intro hs
        simp only [hash_access, if_neg hnp, range_mix_nodes, List.foldlM_cons, List.foldlM_nil,
          Option.some_bind, Option.bind_eq_bind, Option.pure_def, hash_dag_node_at] at hs
        cases h0 : dag_node_at SHA3_512 full_nodes light
            ((MIX_NODES * (fnv_hash (s_mix0.getD 0 0 ^^^ i) (mix.getD (i % MIX_WORDS) 0) % np)
              + 0) % UINT32_RANGE) with
        | none => rw [h0] at hs; simp at hs
        | some d0 => simp

/-- The access loop with a record: the mix is the one of the plain loop, the new indices
lie below twice the page count, and there are `MIX_NODES` per access when the loop has a
result. -/
theorem hash_access_traced_fold (SHA3_512 : List Nat → List Nat)
    (full_nodes : Option (Nat → node)) (light : Option vecash_light) (np : Nat)
    (s_mix0 : node) :
    ∀ (l : List Nat) (st : Option (List Nat) × List Nat),
      ∃ tl, l.foldl (hash_access_traced SHA3_512 full_nodes light np s_mix0) st
          = (st.1.bind fun mix =>
              l.foldlM (hash_access SHA3_512 full_nodes light np s_mix0) mix, st.2 ++ tl) ∧
        (∀ x ∈ tl, x < 2 * np) ∧
        ((st.1.bind fun mix =>
            l.foldlM (hash_access SHA3_512 full_nodes light np s_mix0) mix).isSome
          → tl.length = 2 * l.length) := by
  intro l
  induction l with
  | nil =>
    intro st
    refine ⟨[], ?_, by simp, by simp⟩
    obtain ⟨m, tr⟩ := st
    cases m <;> simp
  | cons i l ih =>
    intro st
    obtain ⟨t1, h1, hb1, hl1⟩ := hash_access_traced_step SHA3_512 full_nodes light np s_mix0 st i
    obtain ⟨t2, h2, hb2, hl2⟩ := ih (hash_access_traced SHA3_512 full_nodes light np s_mix0 st i)
    have hbind : ((hash_access_traced SHA3_512 full_nodes light np s_mix0 st i).1.bind fun mix =>
          l.foldlM (hash_access SHA3_512 full_nodes light np s_mix0) mix)
        = st.1.bind fun mix =>
            (i :: l).foldlM (hash_access SHA3_512 full_nodes light np s_mix0) mix := by
      rw [h1]
      obtain ⟨m, tr⟩ := st
      cases m <;> simp [List.foldlM_cons]
    refine ⟨t1 ++ t2, ?_, ?_, ?_⟩
    · rw [List.foldl_cons, h2, hbind, h1, List.append_assoc]
    · intro x hx
      rcases List.mem_append.mp hx with hx | hx
      · exact hb1 x hx
      · exact hb2 x hx
    · intro hs
      rw [← hbind] at hs
      have hl2' := hl2 hs
      have hs1 : (st.1.bind fun mix =>
          hash_access SHA3_512 full_nodes light np s_mix0 mix i).isSome := by
        rw [h1] at hs
        cases hm : (st.1.bind fun mix =>
            hash_access SHA3_512 full_nodes light np s_mix0 mix i) with
        | none => rw [hm] at hs; simp at hs
        | some m => rfl
      rw [List.length_append, hl1 hs1, hl2', List.length_cons]
      omega

/-- In full mode every access of the mix engine has a result when the page count is not
zero. -/
theorem hash_access_full_some (SHA3_512 : List Nat → List Nat) (nodes : Nat → node)
    (light : Option vecash_light) (np : Nat) (s_mix0 : node) (mix : List Nat) (i : Nat)
    (hnp : np ≠ 0) :
    ∃ mix', hash_access SHA3_512 (some nodes) light np s_mix0 mix i = some mix' := by
  unfold hash_access
  rw [if_neg hnp]
  simp only [range_mix_nodes, List.foldlM_cons, List.foldlM_nil, hash_dag_node,
    Option.map_some', Option.bind_eq_bind, Option.some_bind, Option.pure_def]
  exact ⟨_, rfl⟩

/-- Shape of a run of the access loop with a record, for a size that passes the guard, a
page count that is not zero, and a dataset or a light handle with a 32-bit node count
that is not zero. -/
theorem vecash_hash_accesses_run (SHA3_512 SHA3_256 : List Nat → List Nat)
    (ret : vecash_return_value) (full_nodes : Option (Nat → node))
    (light : Option vecash_light) (full_size : Nat) (header_hash : vecash_h256_t) (nonce : Nat)
    (h : full_size % MIX_WORDS = 0) (hnp : (full_size / 128) % UINT32_RANGE ≠ 0)
    (hd : full_nodes ≠ none ∨
      ∃ l, full_nodes = none ∧ light = some l ∧ (l.cache_size / 64) % UINT32_RANGE ≠ 0) :
    ∃ mix record,
      vecash_hash_accesses SHA3_512 full_nodes light full_size header_hash nonce
        = (some mix, record) ∧
      record.length = 128 ∧
      (∀ x ∈ record, x < 2 * ((full_size / 128) % UINT32_RANGE)) ∧
      vecash_hash SHA3_512 SHA3_256 ret full_nodes light full_size header_hash nonce
        = some (true, { ret with
            mix_hash := words_bytes (compress_mix mix) (MIX_WORDS / 4)
            result := SHA3_256
              (node_bytes (node_of_bytes (SHA3_512 (header_hash ++ le64_bytes nonce)))
                ++ words_bytes (compress_mix mix) (MIX_WORDS / 4)) }) := by
  have hstep : ∀ mix i, ∃ mix', hash_access SHA3_512 full_nodes light
      ((full_size / 128) % UINT32_RANGE)
      (node_of_bytes (SHA3_512 (header_hash ++ le64_bytes nonce))) mix i = some mix' := by
    intro mix i
    rcases hd with hd | ⟨l, hf, hl, hP⟩
    · obtain ⟨nodes, rfl⟩ := Option.ne_none_iff_exists'.mp hd
      exact hash_access_full_some SHA3_512 nodes light _ _ mix i hnp
    · subst hf hl
      exact hash_access_light_some SHA3_512 l _ _ mix i hnp hP
  obtain ⟨mix, hmix⟩ := foldlM_some_of_step _ hstep (List.range VECASH_ACCESSES)
    ((List.range MIX_WORDS).map fun w =>
      (node_of_bytes (SHA3_512 (header_hash ++ le64_bytes nonce))).getD (w % NODE_WORDS) 0)
  obtain ⟨tl, htl, hb, hlen⟩ := hash_access_traced_fold SHA3_512 full_nodes light
    ((full_size / 128) % UINT32_RANGE)
    (node_of_bytes (SHA3_512 (header_hash ++ le64_bytes nonce))) (List.range VECASH_ACCESSES)
    (some ((List.range MIX_WORDS).map fun w =>
      (node_of_bytes (SHA3_512 (header_hash ++ le64_bytes nonce))).getD (w % NODE_WORDS) 0), [])
  simp only [Option.some_bind, List.nil_append] at htl hlen
  rw [hmix] at htl hlen
  refine ⟨mix, tl, ?_, ?_, hb, ?_⟩
  · unfold vecash_hash_accesses
    simp only [h, ne_eq, not_true_eq_false, if_false]
    exact htl
  · rw [hlen rfl, List.length_range]
    rfl
  · rw [vecash_hash_aligned _ _ _ _ _ _ _ _ h, hmix]
    rfl

/-- With a 32-bit page count of zero the access loop does not run to its end. -/
theorem vecash_hash_accesses_zero_pages (SHA3_512 : List Nat → List Nat)
    (full_nodes : Option (Nat → node)) (light : Option vecash_light) (full_size : Nat)
    (header_hash : vecash_h256_t) (nonce : Nat)
    (hnp : (full_size / 128) % UINT32_RANGE = 0) :
    (vecash_hash_accesses SHA3_512 full_nodes light full_size header_hash nonce).1 = none := by
  unfold vecash_hash_accesses
  split
  · rfl
  · obtain ⟨tl, htl, _, _⟩ := hash_access_traced_fold SHA3_512 full_nodes light
      ((full_size / 128) % UINT32_RANGE)
      (node_of_bytes (SHA3_512 (header_hash ++ le64_bytes nonce)))
      (List.range VECASH_ACCESSES)
      (some ((List.range MIX_WORDS).map fun w =>
        (node_of_bytes (SHA3_512 (header_hash ++ le64_bytes nonce))).getD (w % NODE_WORDS) 0),
        [])
    have hr : List.range VECASH_ACCESSES = 0 :: List.range' 1 63 := by decide
    have h0 : ((List.range VECASH_ACCESSES).foldl
        (hash_access_traced SHA3_512 full_nodes light ((full_size / 128) % UINT32_RANGE)
          (node_of_bytes (SHA3_512 (header_hash ++ le64_bytes nonce))))
        (some ((List.range MIX_WORDS).map fun w =>
          (node_of_bytes (SHA3_512 (header_hash ++ le64_bytes nonce))).getD (w % NODE_WORDS) 0),
          [])).1 = none := by
      rw [htl, hr]
      simp [List.foldlM_cons, hash_access, hnp]
    exact h0

/-- Every index the access loop records lies below twice the 32-bit page count, whatever
the size and the handles. -/
theorem vecash_hash_accesses_bound (SHA3_512 : List Nat → List Nat)
    (full_nodes : Option (Nat → node)) (light : Option vecash_light) (full_size : Nat)
    (header_hash : vecash_h256_t) (nonce : Nat) :
    ∀ x ∈ (vecash_hash_accesses SHA3_512 full_nodes light full_size header_hash nonce).2,
      x < 2 * ((full_size / 128) % UINT32_RANGE) := by
  unfold vecash_hash_accesses
  split
  · intro x hx
    simp at hx
  · obtain ⟨tl, htl, hb, _⟩ := hash_access_traced_fold SHA3_512 full_nodes light
      ((full_size / 128) % UINT32_RANGE)
      (node_of_bytes (SHA3_512 (header_hash ++ le64_bytes nonce)))
      (List.range VECASH_ACCESSES)
      (some ((List.range MIX_WORDS).map fun w =>
        (node_of_bytes (SHA3_512 (header_hash ++ le64_bytes nonce))).getD (w % NODE_WORDS) 0),
        [])
    have h0 : ((List.range VECASH_ACCESSES).foldl
        (hash_access_traced SHA3_512 full_nodes light ((full_size / 128) % UINT32_RANGE)
          (node_of_bytes (SHA3_512 (header_hash ++ le64_bytes nonce))))
        (some ((List.range MIX_WORDS).map fun w =>
          (node_of_bytes (SHA3_512 (header_hash ++ le64_bytes nonce))).getD (w % NODE_WORDS) 0),
          [])).2 = tl := by
      rw [htl]
      rfl
    intro x hx
    exact hb x (h0 ▸ hx)

/-- One access with a record gets nodes at the recorded indices only: a dataset or light
handle that gives the same nodes at the indices the access records gives the same mix and
the same record. -/
theorem hash_access_traced_step_congr (SHA3_512 : List Nat → List Nat)
    (full_nodes full_nodes2 : Option (Nat → node)) (light light2 : Option vecash_light)
    (np : Nat) (s_mix0 : node) (st : Option (List Nat) × List Nat) (i : Nat)
    (hrec : ∀ x ∈ (hash_access_traced SHA3_512 full_nodes light np s_mix0 st i).2,
      dag_node_at SHA3_512 full_nodes2 light2 x = dag_node_at SHA3_512 full_nodes light x) :
    hash_access_traced SHA3_512 full_nodes2 light2 np s_mix0 st i
      = hash_access_traced SHA3_512 full_nodes light np s_mix0 st i := by
  obtain ⟨m, tr⟩ := st
  cases m with
  | none => simp [hash_access_traced]
  | some mix =>
    by_cases hnp : np = 0
    · simp [hash_access_traced, hnp]
    · simp only [hash_access_traced, if_neg hnp, range_mix_nodes, List.foldl_cons,
        List.foldl_nil] at hrec ⊢
      cases h0 : dag_node_at SHA3_512 full_nodes light
          ((MIX_NODES * (fnv_hash (s_mix0.getD 0 0 ^^^ i) (mix.getD (i % MIX_WORDS) 0) % np)
            + 0) % UINT32_RANGE) with
      | none =>
        rw [h0] at hrec
        simp only [Option.map_none', List.mem_append, List.mem_singleton] at hrec
        have e0 := hrec _ (Or.inr rfl)
        rw [h0] at e0
        rw [e0]
        simp only [Option.map_none']
      | some d0 =>
        rw [h0] at hrec
        simp only [Option.map_some', List.mem_append, List.mem_singleton] at hrec
        have e0 := hrec _ (Or.inl (Or.inr rfl))
        have e1 := hrec _ (Or.inr rfl)
        rw [e0, h0]
        simp only [Option.map_some']
        rw [e1]

/-- The access loop with a record gets nodes at the recorded indices only. -/
theorem hash_access_traced_fold_congr (SHA3_512 : List Nat → List Nat)
    (full_nodes full_nodes2 : Option (Nat → node)) (light light2 : Option vecash_light)
    (np : Nat) (s_mix0 : node) :
    ∀ (l : List Nat) (st : Option (List Nat) × List Nat),
      (∀ x ∈ (l.foldl (hash_access_traced SHA3_512 full_nodes light np s_mix0) st).2,
        dag_node_at SHA3_512 full_nodes2 light2 x = dag_node_at SHA3_512 full_nodes light x) →
      l.foldl (hash_access_traced SHA3_512 full_nodes2 light2 np s_mix0) st
        = l.foldl (hash_access_traced SHA3_512 full_nodes light np s_mix0) st := by
  intro l
  induction l with
  | nil => intro st _; rfl
  | cons i l ih =>
    intro st hrec
    rw [List.foldl_cons] at hrec
    obtain ⟨tl, htl, _, _⟩ := hash_access_traced_fold SHA3_512 full_nodes light np s_mix0 l
      (hash_access_traced SHA3_512 full_nodes light np s_mix0 st i)
    have hstep : hash_access_traced SHA3_512 full_nodes2 light2 np s_mix0 st i
        = hash_access_traced SHA3_512 full_nodes light np s_mix0 st i := by
      apply hash_access_traced_step_congr
      intro x hx
      apply hrec
      rw [htl]
      exact List.mem_append_left _ hx
    rw [List.foldl_cons, List.foldl_cons, hstep]
    exact ih _ hrec

/-- On a size that passes the guard, `vecash_hash` returns true with the hashes of the mix
the access loop with a record ends in, and has no result when that loop has none. -/
theorem vecash_hash_of_accesses (SHA3_512 SHA3_256 : List Nat → List Nat)
    (ret : vecash_return_value) (full_nodes : Option (Nat → node))
    (light : Option vecash_light) (full_size : Nat) (header_hash : vecash_h256_t) (nonce : Nat)
    (h : full_size % MIX_WORDS = 0) :
    vecash_hash SHA3_512 SHA3_256 ret full_nodes light full_size header_hash nonce
      = (vecash_hash_accesses SHA3_512 full_nodes light full_size header_hash nonce).1.map
          fun mix => (true, { ret with
            mix_hash := words_bytes (compress_mix mix) (MIX_WORDS / 4)
            result := SHA3_256
              (node_bytes (node_of_bytes (SHA3_512 (header_hash ++ le64_bytes nonce)))
                ++ words_bytes (compress_mix mix) (MIX_WORDS / 4)) }) := by
  obtain ⟨tl, htl, _, _⟩ := hash_access_traced_fold SHA3_512 full_nodes light
    ((full_size / 128) % UINT32_RANGE)
    (node_of_bytes (SHA3_512 (header_hash ++ le64_bytes nonce))) (List.range VECASH_ACCESSES)
    (some ((List.range MIX_WORDS).map fun w =>
      (node_of_bytes (SHA3_512 (header_hash ++ le64_bytes nonce))).getD (w % NODE_WORDS) 0), [])
  simp only [Option.some_bind, List.nil_append] at htl
  have hacc : vecash_hash_accesses SHA3_512 full_nodes light full_size header_hash nonce
      = ((List.range VECASH_ACCESSES).foldlM
          (hash_access SHA3_512 full_nodes light ((full_size / 128) % UINT32_RANGE)
            (node_of_bytes (SHA3_512 (header_hash ++ le64_bytes nonce))))
          ((List.range MIX_WORDS).map fun w =>
            (node_of_bytes (SHA3_512 (header_hash ++ le64_bytes nonce))).getD
              (w % NODE_WORDS) 0), tl) := by
    unfold vecash_hash_accesses
    simp only [h, ne_eq, not_true_eq_false, if_false]
    exact htl
  rw [hacc, vecash_hash_aligned _ _ _ _ _ _ _ _ h]
  rfl

/-- The result of `vecash_hash` depends on the dataset, or on the light handle, only
through the nodes at the indices the access loop records. -/
theorem vecash_hash_congr (SHA3_512 SHA3_256 : List Nat → List Nat)
    (ret : vecash_return_value) (full_nodes full_nodes2 : Option (Nat → node))
    (light light2 : Option vecash_light) (full_size : Nat) (header_hash : vecash_h256_t)
    (nonce : Nat)
    (hrec : ∀ x ∈
        (vecash_hash_accesses SHA3_512 full_nodes light full_size header_hash nonce).2,
      dag_node_at SHA3_512 full_nodes2 light2 x = dag_node_at SHA3_512 full_nodes light x) :
    vecash_hash SHA3_512 SHA3_256 ret full_nodes2 light2 full_size header_hash nonce
      = vecash_hash SHA3_512 SHA3_256 ret full_nodes light full_size header_hash nonce := by
  by_cases h : full_size % MIX_WORDS = 0
  · have hacc : vecash_hash_accesses SHA3_512 full_nodes2 light2 full_size header_hash nonce
        = vecash_hash_accesses SHA3_512 full_nodes light full_size header_hash nonce := by
      unfold vecash_hash_accesses at hrec ⊢
      simp only [h, ne_eq, not_true_eq_false, if_false] at hrec ⊢
      exact hash_access_traced_fold_congr SHA3_512 full_nodes full_nodes2 light light2 _ _ _ _
        hrec
    rw [vecash_hash_of_accesses _ _ _ _ _ _ _ _ h, vecash_hash_of_accesses _ _ _ _ _ _ _ _ h,
      hacc]
  · unfold vecash_hash
    rw [if_pos h, if_pos h]

/-! ## Dataset node generator: record of the cache indices -/

/-- The parent loop with a record computes the node of the plain parent loop and appends
one index per pass, each below the node count. -/
theorem dag_parent_traced_fold (cache : Nat → node) (P node_index : Nat) (hP : P ≠ 0) :
    ∀ (l : List Nat) (st : node × List Nat),
      ∃ tl, l.foldl (fun s i => dag_parent_traced cache P node_index i s) st
          = (l.foldl (fun ret i =>
              for_const NODE_WORDS
                (fun w acc => acc.set w (fnv_hash (acc.getD w 0)
                  ((cache (fnv_hash (node_index ^^^ i) (ret.getD (i % NODE_WORDS) 0) % P)).getD
                    w 0)))
                ret) st.1, st.2 ++ tl) ∧
        tl.length = l.length ∧ ∀ x ∈ tl, x < P := by
  intro l
  induction l with
  | nil => intro st; exact ⟨[], by simp, rfl, by simp⟩
  | cons i l ih =>
    intro st
    obtain ⟨tl, h, hl, hb⟩ := ih (dag_parent_traced cache P node_index i st)
    refine ⟨(fnv_hash (node_index ^^^ i) (st.1.getD (i % NODE_WORDS) 0) % P) :: tl, ?_, ?_, ?_⟩
    · rw [List.foldl_cons, h]
      simp only [dag_parent_traced, List.foldl_cons, List.append_assoc, List.singleton_append]
    · simp [hl]
    · intro x hx
      rcases List.mem_cons.mp hx with hx | hx
      · rw [hx]
        exact Nat.mod_lt _ (Nat.pos_of_ne_zero hP)
      · exact hb x hx

/-- The same for the loop over `i = 0, .., n - 1`, from a record that holds the initial
index. -/
theorem dag_parent_traced_for (cache : Nat → node) (P node_index : Nat) (hP : P ≠ 0)
    (n : Nat) (ret : node) (init : Nat) :
    ∃ tl, for_const n (dag_parent_traced cache P node_index) (ret, [init])
          = (for_const n (fun i ret =>
              for_const NODE_WORDS
                (fun w acc => acc.set w (fnv_hash (acc.getD w 0)
                  ((cache (fnv_hash (node_index ^^^ i) (ret.getD (i % NODE_WORDS) 0) % P)).getD
                    w 0)))
                ret) ret, init :: tl) ∧
        tl.length = n ∧ ∀ x ∈ tl, x < P := by
  obtain ⟨tl, h, hl, hb⟩ := dag_parent_traced_fold cache P node_index hP (List.range n)
    (ret, [init])
  exact ⟨tl, h, by rw [hl, List.length_range], hb⟩

/-- Shape of a run of the generator with a record when the 32-bit node count is not zero:
the node of the plain run, the initial index, and 256 parent indices below the count. -/
theorem dag_item_reads_run (SHA3_512 : List Nat → List Nat) (node_index : Nat)
    (light : vecash_light) (hP : (light.cache_size / 64) % UINT32_RANGE ≠ 0) :
    ∃ r tl,
      vecash_calculate_dag_item_reads SHA3_512 node_index light
        = some (r, node_index % ((light.cache_size / 64) % UINT32_RANGE) :: tl) ∧
      vecash_calculate_dag_item SHA3_512 node_index light = some r ∧
      tl.length = VECASH_DATASET_PARENTS ∧
      ∀ x ∈ tl, x < (light.cache_size / 64) % UINT32_RANGE := by
  obtain ⟨tl, h, hl, hb⟩ := dag_parent_traced_for light.cache
    ((light.cache_size / 64) % UINT32_RANGE) node_index hP VECASH_DATASET_PARENTS
    (sha3_512_node SHA3_512
      ((light.cache (node_index % ((light.cache_size / 64) % UINT32_RANGE))).set 0
        ((light.cache (node_index % ((light.cache_size / 64) % UINT32_RANGE))).getD 0 0
          ^^^ node_index)))
    (node_index % ((light.cache_size / 64) % UINT32_RANGE))
  have hreads : vecash_calculate_dag_item_reads SHA3_512 node_index light
      = (vecash_calculate_dag_item SHA3_512 node_index light).map fun r =>
          (r, node_index % ((light.cache_size / 64) % UINT32_RANGE) :: tl) := by
    unfold vecash_calculate_dag_item_reads vecash_calculate_dag_item
    simp only [if_neg hP]
    rw [h]
    simp only [Option.map_some']
  obtain ⟨r, hr⟩ : ∃ r, vecash_calculate_dag_item SHA3_512 node_index light = some r :=
    ⟨_, vecash_calculate_dag_item_eq SHA3_512 node_index light hP⟩
  rw [hr] at hreads
  exact ⟨r, tl, hreads, hr, hl, hb⟩

/-- With a 32-bit node count of zero the generator with a record has no result. -/
theorem dag_item_reads_zero (SHA3_512 : List Nat → List Nat) (node_index : Nat)
    (light : vecash_light) (hP : (light.cache_size / 64) % UINT32_RANGE = 0) :
    vecash_calculate_dag_item_reads SHA3_512 node_index light = none := by
  unfold vecash_calculate_dag_item_reads
  simp only [if_pos hP]

/-! ## Cache builder: a cache of one node -/

/-- A node combined with itself by XOR is the zero node. -/
theorem node_xor_self (a : node) : node_xor a a = List.replicate 16 0 := by
  simp only [node_xor, Nat.xor_self]
  rfl

/-- The bytes of the zero node are 64 zero bytes. -/
theorem node_bytes_zero : node_bytes (List.replicate 16 0) = List.replicate 64 0 := by
  decide

/-- One round on a cache of one node: the node is combined with itself, so the round
stores the hash of 64 zero bytes whatever the node held. -/
theorem cache_round_one (SHA3_512 : List Nat → List Nat) (nodes : Nat → node)
    (h : (nodes 0).length = 16) :
    cache_round SHA3_512 1 nodes
      = Function.update nodes 0 (node_of_bytes (SHA3_512 (List.replicate 64 0))) := by
  have hr : List.range 1 = [0] := rfl
  simp only [cache_round, hr, List.foldl_cons, List.foldl_nil, cache_round_step, Nat.mod_one,
    Nat.sub_self, Nat.add_zero, Nat.zero_mod]
  rw [node_xor_loop _ _ h, node_xor_self, sha3_512_node, node_bytes_zero]

/-- The run of the cache builder on a size of 64 bytes. -/
theorem compute_cache_nodes_one (SHA3_512 : List Nat → List Nat) (nodes : Nat → node)
    (seed : vecash_h256_t) :
    vecash_compute_cache_nodes SHA3_512 nodes 64 seed
      = some (true,
          Function.update nodes 0 (node_of_bytes (SHA3_512 (List.replicate 64 0)))) := by
  obtain ⟨filled, hfill, hrun⟩ := compute_cache_nodes_aligned SHA3_512 nodes 64 seed
    (by decide) (by decide)
  have hn : (64 / 64) % UINT32_RANGE = 1 := by decide
  rw [hn] at hfill hrun
  rw [loop_ne32_pure 1 _ (by decide) LOOP_FUEL 1 _ (Nat.le_refl _) (by decide)] at hfill
  simp only [Nat.sub_self, List.range'_zero, List.foldl_nil, Option.some.injEq] at hfill
  subst hfill
  rw [hrun]
  simp only [Function.iterate_succ, Function.iterate_zero, Function.comp_apply, id_eq]
  have hlen : ∀ (s : Nat → node) (b : List Nat),
      ((Function.update s 0 (node_of_bytes b)) 0).length = 16 := by
    intro s b
    rw [Function.update_same]
    exact node_of_bytes_length b
  rw [cache_round_one _ _ (hlen _ _), cache_round_one _ _ (hlen _ _),
    cache_round_one _ _ (hlen _ _)]
  simp only [Function.update_idem]

/-- With a cache of one node the dataset node generator reads node 0 only. -/
theorem dag_item_one_node (SHA3_512 : List Nat → List Nat) (node_index : Nat)
    (a b : vecash_light) (ha : a.cache_size = 64) (hb : b.cache_size = 64)
    (h0 : a.cache 0 = b.cache 0) :
    vecash_calculate_dag_item SHA3_512 node_index a
      = vecash_calculate_dag_item SHA3_512 node_index b := by
  have hn : (64 / 64) % UINT32_RANGE = 1 := by decide
  rw [vecash_calculate_dag_item_eq SHA3_512 node_index a (by rw [ha]; decide),
    vecash_calculate_dag_item_eq SHA3_512 node_index b (by rw [hb]; decide), ha, hb, hn]
  simp only [calc_dataset_item_spec, Nat.mod_one, h0]

/-! ## Loops with a record of the counter -/

/-- A counted body that always has a result, as a plain function on the pair. -/
theorem counted_pure {σ : Type} (f : Nat → σ → σ) :
    counted (fun i s => some (f i s)) = fun i st => some (f i st.1, st.2 ++ [i]) := by
  funext i st
  rfl

/-- Folding a counted body appends the list folded over to the record. -/
theorem counted_fold {σ : Type} (f : Nat → σ → σ) :
    ∀ (l : List Nat) (s : σ) (tr : List Nat),
      l.foldl (fun (st : σ × List Nat) k => (f k st.1, st.2 ++ [k])) (s, tr)
        = (l.foldl (fun s k => f k s) s, tr ++ l) := by
  intro l
  induction l with
  | nil => intro s tr; simp
  | cons k l ih => intro s tr; simp [List.foldl_cons, ih]

/-- A counted loop whose bound lies ahead of its counter passes through the counter values
from the start up to the bound, in order, and ends in the state of the plain loop. -/
theorem loop_ne32_counted {σ : Type} (bound : Nat) (f : Nat → σ → σ)
    (hb : bound < UINT32_RANGE) (fuel i : Nat) (s : σ) (hi : i ≤ bound)
    (hf : bound - i < fuel) :
    ∃ s', loop_ne32 bound (fun i s => some (f i s)) fuel i s = some s' ∧
      loop_ne32 bound (counted (fun i s => some (f i s))) fuel i (s, [])
        = some (s', List.range' i (bound - i)) := by
  refine ⟨_, loop_ne32_pure bound f hb fuel i s hi hf, ?_⟩
  rw [counted_pure, loop_ne32_pure bound _ hb fuel i (s, []) hi hf, counted_fold]
  simp

/-! ## The claims of the specification -/

/-- C1: for a size that is a multiple of 128 with at least one page and fewer than `2^32`
nodes, and a dataset array that holds `vecash_calculate_dag_item(n, light)` at every
`n < full_size / 64` (so the cache has a node), `vecash_hash` run on the array and
`vecash_hash` run with a null array and the light handle both return true, with the same
`result` and the same `mix_hash`. -/
theorem vecash_hash_light_full_agree (SHA3_512 SHA3_256 : List Nat → List Nat)
    (ret_full ret_light : vecash_return_value) (light : vecash_light)
    (full_nodes : Nat → node) (full_size : Nat) (header_hash : vecash_h256_t) (nonce : Nat)
    (hsize : full_size % 128 = 0) (hpages : 1 ≤ full_size / 128)
    (h32 : full_size / 64 < 2 ^ 32)
    (hfull : ∀ n, n < full_size / 64 →
      vecash_calculate_dag_item SHA3_512 n light = some (full_nodes n)) :
    ∃ rf rl,
      vecash_hash SHA3_512 SHA3_256 ret_full (some full_nodes) none full_size header_hash nonce
        = some (true, rf) ∧
      vecash_hash SHA3_512 SHA3_256 ret_light none (some light) full_size header_hash nonce
        = some (true, rl) ∧
      rf.result = rl.result ∧ rf.mix_hash = rl.mix_hash := by
  have h : full_size % MIX_WORDS = 0 := by
    unfold MIX_WORDS
    omega
  have hnp : (full_size / 128) % UINT32_RANGE ≠ 0 := by
    unfold UINT32_RANGE
    omega
  have hP : (light.cache_size / 64) % UINT32_RANGE ≠ 0 := by
    intro hz
    have h0 := hfull 0 (by omega)
    simp [vecash_calculate_dag_item, hz] at h0
  have hagree : hash_access SHA3_512 (some full_nodes) none ((full_size / 128) % UINT32_RANGE)
        (node_of_bytes (SHA3_512 (header_hash ++ le64_bytes nonce)))
      = hash_access SHA3_512 none (some light) ((full_size / 128) % UINT32_RANGE)
        (node_of_bytes (SHA3_512 (header_hash ++ le64_bytes nonce))) := by
    funext mix i
    exact hash_access_agree SHA3_512 full_nodes light _ (full_size / 64) _ mix i hnp
      (by unfold UINT32_RANGE; omega) (by unfold UINT32_RANGE; omega) hfull
  obtain ⟨mix, hmix⟩ := foldlM_some_of_step
    (hash_access SHA3_512 none (some light) ((full_size / 128) % UINT32_RANGE)
      (node_of_bytes (SHA3_512 (header_hash ++ le64_bytes nonce))))
    (fun b a => hash_access_light_some SHA3_512 light _ _ b a hnp hP)
    (List.range VECASH_ACCESSES)
    ((List.range MIX_WORDS).map fun w =>
      (node_of_bytes (SHA3_512 (header_hash ++ le64_bytes nonce))).getD (w % NODE_WORDS) 0)
  rw [vecash_hash_aligned _ _ _ _ _ _ _ _ h, vecash_hash_aligned _ _ _ _ _ _ _ _ h, hagree,
    hmix]
  exact ⟨_, _, rfl, rfl, rfl, rfl⟩

/-- Witness of C1: a one-node cache, a dataset of one page that holds the two nodes the
generator computes, stand-ins for the Keccak primitives. -/
theorem vecash_hash_light_full_agree_witness :
    128 % 128 = 0 ∧ 1 ≤ 128 / 128 ∧ 128 / 64 < 2 ^ 32 ∧
    ∃ rf rl,
      vecash_hash (fun x => x) (fun x => x) ⟨[], [], false⟩
          (some (calc_dataset_item_spec (fun x => x) (fun _ => []) 1)) none 128 [] 0
        = some (true, rf) ∧
      vecash_hash (fun x => x) (fun x => x) ⟨[], [], false⟩ none
          (some ⟨fun _ => [], 64, 0⟩) 128 [] 0
        = some (true, rl) ∧
      rf.result = rl.result ∧ rf.mix_hash = rl.mix_hash :=
  ⟨by decide, by decide, by decide,
    vecash_hash_light_full_agree (fun x => x) (fun x => x) ⟨[], [], false⟩ ⟨[], [], false⟩
      ⟨fun _ => [], 64, 0⟩ (calc_dataset_item_spec (fun x => x) (fun _ => []) 1) 128 [] 0
      (by decide) (by decide) (by decide)
      (fun n _ => vecash_calculate_dag_item_eq (fun x => x) n ⟨fun _ => [], 64, 0⟩ (by decide))⟩

/-- C2: when SHA3-512 returns 64 bytes and `vecash_light_compute_internal` returns `r` with
`r.success`, `vecash_quick_hash(header_hash, nonce, r.mix_hash)` is `r.result`. -/
theorem vecash_quick_hash_light_compute (SHA3_512 SHA3_256 : List Nat → List Nat)
    (hlen : ∀ x, (SHA3_512 x).length = 64) (hbyte : ∀ x, ∀ b ∈ SHA3_512 x, b < 256)
    (ret : vecash_return_value) (light : vecash_light) (full_size : Nat)
    (header_hash : vecash_h256_t) (nonce : Nat) (r : vecash_return_value)
    (hr : vecash_light_compute_internal SHA3_512 SHA3_256 ret light full_size header_hash nonce
      = some r)
    (hs : r.success = true) :
    vecash_quick_hash SHA3_512 SHA3_256 header_hash nonce r.mix_hash = r.result := by
  rw [light_compute_result SHA3_512 SHA3_256 ret light full_size header_hash nonce r hr hs,
    node_bytes_node_of_bytes _ (hlen _) (hbyte _)]
  rfl

/-- Witness of C2: a one-node cache, a dataset size of one page, stand-ins for the Keccak
primitives that return 64 and 32 zero bytes. -/
theorem vecash_quick_hash_light_compute_witness :
    ∃ r, vecash_light_compute_internal (fun _ => List.replicate 64 0)
        (fun _ => List.replicate 32 0) ⟨[], [], false⟩ ⟨fun _ => [], 64, 0⟩ 128 [] 0 = some r ∧
      r.success = true ∧
      vecash_quick_hash (fun _ => List.replicate 64 0) (fun _ => List.replicate 32 0) [] 0
        r.mix_hash = r.result := by
  obtain ⟨m, hm⟩ := vecash_hash_light_some (fun _ => List.replicate 64 0)
    (fun _ => List.replicate 32 0) ⟨[], [], true⟩ ⟨fun _ => [], 64, 0⟩ 128 [] 0
    (by decide) (by decide) (by decide)
  have hr : vecash_light_compute_internal (fun _ => List.replicate 64 0)
      (fun _ => List.replicate 32 0) ⟨[], [], false⟩ ⟨fun _ => [], 64, 0⟩ 128 [] 0
      = some ⟨(fun _ => List.replicate 32 0)
          (node_bytes (node_of_bytes ((fun _ => List.replicate 64 0) ([] ++ le64_bytes 0))) ++ m),
        m, true⟩ := by
    simp only [vecash_light_compute_internal, hm]
    rfl
  exact ⟨_, hr, rfl,
    vecash_quick_hash_light_compute (fun _ => List.replicate 64 0)
      (fun _ => List.replicate 32 0) (fun _ => by simp)
      (fun _ b hb => by
        have := List.eq_of_mem_replicate hb
        omega)
      ⟨[], [], false⟩ ⟨fun _ => [], 64, 0⟩ 128 [] 0 _ hr rfl⟩

/-- C3: for every block number below `EPOCH_LENGTH * 2048`, `vecash_get_seedhash` returns
SHA3-256 applied `block_number / 30000` times to 32 zero bytes; a block below 30000 yields
the 32 zero bytes; and the seed of `b + 30000` is SHA3-256 of the seed of `b`. -/
theorem vecash_get_seedhash_iterated (SHA3_256 : List Nat → List Nat) (block_number : Nat)
    (hrange : block_number < VECASH_EPOCH_LENGTH * 2048) :
    vecash_get_seedhash SHA3_256 block_number = some (seedhash_spec SHA3_256 block_number) ∧
    (block_number < 30000 →
      vecash_get_seedhash SHA3_256 block_number = some (List.replicate 32 0)) ∧
    (block_number + 30000 < VECASH_EPOCH_LENGTH * 2048 →
      vecash_get_seedhash SHA3_256 (block_number + 30000)
        = (vecash_get_seedhash SHA3_256 block_number).map SHA3_256) := by
  have hep : ∀ b, b < VECASH_EPOCH_LENGTH * 2048 →
      b / VECASH_EPOCH_LENGTH < UINT32_RANGE - 1 := by
    intro b hb
    unfold VECASH_EPOCH_LENGTH UINT32_RANGE at *
    omega
  have h0 := vecash_get_seedhash_eq SHA3_256 block_number (hep _ hrange)
  refine ⟨h0, ?_, ?_⟩
  · intro hlt
    have hz : block_number / VECASH_EPOCH_LENGTH = 0 := by
      unfold VECASH_EPOCH_LENGTH
      omega
    rw [h0, hz]
    rfl
  · intro hnext
    have hs : (block_number + 30000) / VECASH_EPOCH_LENGTH
        = block_number / VECASH_EPOCH_LENGTH + 1 := by
      unfold VECASH_EPOCH_LENGTH
      omega
    rw [vecash_get_seedhash_eq SHA3_256 _ (hep _ hnext), h0, hs,
      Function.iterate_succ_apply']
    rfl

/-- Witness of C3 at block 30000, with a stand-in for SHA3-256. -/
theorem vecash_get_seedhash_iterated_witness :
    30000 < VECASH_EPOCH_LENGTH * 2048 ∧
    vecash_get_seedhash (fun x => x ++ [1]) 30000
      = some (seedhash_spec (fun x => x ++ [1]) 30000) :=
  ⟨by decide, (vecash_get_seedhash_iterated (fun x => x ++ [1]) 30000 (by decide)).1⟩

/-- C4: at `full_size = 32` the guard `full_size % MIX_WORDS != 0` of `vecash_hash` passes
and `num_full_pages` is `32 / 128 = 0`, so the first `% num_full_pages` divides by zero:
neither `vecash_light_compute_internal` nor `vecash_full_compute` has a defined result. -/
theorem vecash_hash_zero_pages (SHA3_512 SHA3_256 : List Nat → List Nat)
    (ret : vecash_return_value) (light : vecash_light) (data : Nat → node)
    (header_hash : vecash_h256_t) (nonce : Nat) :
    32 % MIX_WORDS = 0 ∧
    vecash_light_compute_internal SHA3_512 SHA3_256 ret light 32 header_hash nonce = none ∧
    vecash_full_compute SHA3_512 SHA3_256 ret ⟨32, data⟩ header_hash nonce = none := by
  have hrun : ∀ (r : vecash_return_value) (full_nodes : Option (Nat → node))
      (l : Option vecash_light),
      vecash_hash SHA3_512 SHA3_256 r full_nodes l 32 header_hash nonce = none :=
    fun _ _ _ => rfl
  refine ⟨rfl, ?_, ?_⟩
  · simp [vecash_light_compute_internal, hrun]
  · simp [vecash_full_compute, hrun]

/-- C5 (amended): for a cache of `P = cache_size / 64` nodes with `1 <= P < 2^32` and every
node index, `vecash_calculate_dag_item` returns the node `calc_dataset_item_spec` defines
for `P`. -/
theorem vecash_calculate_dag_item_spec (SHA3_512 : List Nat → List Nat) (node_index : Nat)
    (light : vecash_light) (hP : 1 ≤ light.cache_size / 64)
    (h32 : light.cache_size / 64 < 2 ^ 32) :
    vecash_calculate_dag_item SHA3_512 node_index light
      = some (calc_dataset_item_spec SHA3_512 light.cache (light.cache_size / 64) node_index) := by
  have hmod : (light.cache_size / 64) % UINT32_RANGE = light.cache_size / 64 :=
    Nat.mod_eq_of_lt h32
  have h := vecash_calculate_dag_item_eq SHA3_512 node_index light (by rw [hmod]; omega)
  rw [hmod] at h
  exact h

/-- Witness of C5 (amended): a one-node cache and node index 5. -/
theorem vecash_calculate_dag_item_spec_witness :
    1 ≤ 64 / 64 ∧ 64 / 64 < 2 ^ 32 ∧
    vecash_calculate_dag_item (fun x => x) 5 ⟨fun _ => [], 64, 0⟩
      = some (calc_dataset_item_spec (fun x => x) (fun _ => []) (64 / 64) 5) :=
  ⟨by decide, by decide,
    vecash_calculate_dag_item_spec (fun x => x) 5 ⟨fun _ => [], 64, 0⟩ (by decide) (by decide)⟩

/-- Counterexample to C5 as stated: a cache of `2^38` bytes has `2^32 >= 1` nodes, the
32-bit `num_parent_nodes` is 0, and `node_index % num_parent_nodes` divides by zero, so no
node is returned. -/
theorem vecash_calculate_dag_item_wide_cache :
    ¬ (∀ (SHA3_512 : List Nat → List Nat) (node_index : Nat) (light : vecash_light),
        1 ≤ light.cache_size / 64 → node_index < 2 ^ 32 →
        vecash_calculate_dag_item SHA3_512 node_index light
          = some (calc_dataset_item_spec SHA3_512 light.cache (light.cache_size / 64)
              node_index)) := by
  intro h
  have hrun : vecash_calculate_dag_item (fun x => x) 0 ⟨fun _ => [], 2 ^ 38, 0⟩ = none := by
    decide
  have := h (fun x => x) 0 ⟨fun _ => [], 2 ^ 38, 0⟩ (by decide) (by decide)
  rw [hrun] at this
  exact Option.noConfusion this

/-- C6 (amended): for a cache size that is a multiple of 64 with
`1 <= N = cache_size / 64 <= 2^31` and every seed, `vecash_compute_cache_nodes` returns
true, leaves `SeqMemoHash` on `N` nodes in the nodes below `N`, and leaves the nodes from
`N` on as they were. -/
theorem vecash_compute_cache_nodes_seq_memo (SHA3_512 : List Nat → List Nat)
    (nodes : Nat → node) (cache_size : Nat) (seed : vecash_h256_t)
    (h : cache_size % 64 = 0) (h1 : 1 ≤ cache_size / 64) (h31 : cache_size / 64 ≤ 2 ^ 31) :
    ∃ nodes', vecash_compute_cache_nodes SHA3_512 nodes cache_size seed = some (true, nodes') ∧
      (∀ i, i < cache_size / 64 → nodes' i = SeqMemoHash SHA3_512 (cache_size / 64) seed i) ∧
      (∀ i, cache_size / 64 ≤ i → nodes' i = nodes i) := by
  have hmod : (cache_size / 64) % UINT32_RANGE = cache_size / 64 :=
    Nat.mod_eq_of_lt (by unfold UINT32_RANGE; omega)
  obtain ⟨nodes', hrun, hframe, hspec⟩ := compute_cache_nodes_run SHA3_512 nodes cache_size seed
    h (by rw [hmod]; exact h1)
  rw [hmod] at hframe hspec
  exact ⟨nodes', hrun, hspec h31, hframe⟩

/-- Witness of C6 (amended): a cache of 128 bytes, two nodes. -/
theorem vecash_compute_cache_nodes_seq_memo_witness :
    128 % 64 = 0 ∧ 1 ≤ 128 / 64 ∧ 128 / 64 ≤ 2 ^ 31 ∧
    ∃ nodes', vecash_compute_cache_nodes (fun x => x) (fun _ => []) 128 (List.replicate 32 0)
        = some (true, nodes') ∧
      (∀ i, i < 128 / 64 → nodes' i = SeqMemoHash (fun x => x) (128 / 64) (List.replicate 32 0) i) ∧
      (∀ i, 128 / 64 ≤ i → nodes' i = (fun _ => ([] : node)) i) :=
  ⟨by decide, by decide, by decide,
    vecash_compute_cache_nodes_seq_memo (fun x => x) (fun _ => []) 128 (List.replicate 32 0)
      (by decide) (by decide) (by decide)⟩

/-- Counterexample to C6 as stated: `cache_size = 2^38 + 64` is a multiple of 64 with
`N = 2^32 + 1` nodes, the 32-bit `num_nodes` is 1, and the builder writes node 0 only: node
1 keeps what the buffer held, which cannot be node 1 of SeqMemoHash for both of two
buffers that differ there. -/
theorem vecash_compute_cache_nodes_wide_cache :
    ¬ (∀ (SHA3_512 : List Nat → List Nat) (nodes : Nat → node) (cache_size : Nat)
        (seed : vecash_h256_t),
        cache_size % 64 = 0 → 1 ≤ cache_size / 64 → seed.length = 32 →
        ∃ nodes', vecash_compute_cache_nodes SHA3_512 nodes cache_size seed
            = some (true, nodes') ∧
          ∀ i, i < cache_size / 64 →
            nodes' i = SeqMemoHash SHA3_512 (cache_size / 64) seed i) := by
  intro hclaim
  have hkeep : ∀ nodes : Nat → node, ∀ nodes',
      vecash_compute_cache_nodes (fun x => x) nodes (2 ^ 38 + 64) (List.replicate 32 0)
        = some (true, nodes') → nodes' 1 = nodes 1 := by
    intro nodes nodes' hrun
    obtain ⟨nodes'', hrun', hframe, _⟩ := compute_cache_nodes_run (fun x => x) nodes
      (2 ^ 38 + 64) (List.replicate 32 0) (by decide) (by decide)
    rw [hrun] at hrun'
    have heq : nodes' = nodes'' := by
      have := Option.some.inj hrun'
      exact (Prod.mk.inj this).2
    rw [heq]
    exact hframe 1 (by decide)
  obtain ⟨a, ha, hsa⟩ := hclaim (fun x => x) (fun _ => [0]) (2 ^ 38 + 64)
    (List.replicate 32 0) (by decide) (by decide) (by decide)
  obtain ⟨b, hb, hsb⟩ := hclaim (fun x => x) (fun _ => [1]) (2 ^ 38 + 64)
    (List.replicate 32 0) (by decide) (by decide) (by decide)
  have h1 := hsa 1 (by decide)
  have h2 := hsb 1 (by decide)
  rw [hkeep _ _ ha] at h1
  rw [hkeep _ _ hb] at h2
  have : ([0] : List Nat) = [1] := h1.trans h2.symm
  exact absurd this (by decide)

/-- C7: `vecash_compute_cache_nodes` returns false if and only if `cache_size % 64 != 0`,
and when it returns false the node buffer is as it was.  On a misaligned size it does
return false; an aligned size of at least one node returns true; on the aligned size 0 the
write of `nodes[0]` falls outside the buffer and there is no return. -/
theorem vecash_compute_cache_nodes_false_iff (SHA3_512 : List Nat → List Nat)
    (nodes : Nat → node) (cache_size : Nat) (seed : vecash_h256_t) :
    ((∃ nodes', vecash_compute_cache_nodes SHA3_512 nodes cache_size seed
        = some (false, nodes')) ↔ cache_size % 64 ≠ 0) ∧
    (∀ nodes', vecash_compute_cache_nodes SHA3_512 nodes cache_size seed
        = some (false, nodes') → nodes' = nodes) ∧
    (cache_size % 64 = 0 → 64 ≤ cache_size →
      ∃ nodes', vecash_compute_cache_nodes SHA3_512 nodes cache_size seed
          = some (true, nodes')) ∧
    (cache_size = 0 → vecash_compute_cache_nodes SHA3_512 nodes cache_size seed = none) := by
  by_cases h : cache_size % 64 = 0
  · by_cases h0 : cache_size / 64 = 0
    · have hrun : vecash_compute_cache_nodes SHA3_512 nodes cache_size seed = none := by
        unfold vecash_compute_cache_nodes
        rw [if_neg (by simpa using h), if_pos h0]
      rw [hrun]
      refine ⟨by simp [h], by simp, ?_, fun _ => rfl⟩
      intro _ h64
      omega
    · obtain ⟨filled, _, hrun⟩ := compute_cache_nodes_aligned SHA3_512 nodes cache_size seed
        h h0
      rw [hrun]
      refine ⟨by simp [h], by simp, fun _ _ => ⟨_, rfl⟩, ?_⟩
      intro hz
      rw [hz] at h0
      exact absurd rfl h0
  · have hrun : vecash_compute_cache_nodes SHA3_512 nodes cache_size seed
        = some (false, nodes) := by
      unfold vecash_compute_cache_nodes
      rw [if_pos h]
    rw [hrun]
    refine ⟨by simp [h], ?_, fun h' => absurd h' h, ?_⟩
    · intro nodes' hn
      simp only [Option.some.injEq, Prod.mk.injEq, true_and] at hn
      exact hn.symm
    · intro hz
      rw [hz] at h
      exact absurd rfl h

/-- C8 (amended): for a cache of `P = cache_size / 64` nodes with `1 <= P < 2^32`, a
`full_size` that passes the alignment check with `full_size / 64 < 2^32`, and a null
callback, `vecash_compute_full_data` returns true and node `n` of the buffer is
`vecash_calculate_dag_item(n, light)` for every `n < full_size / 64`; the nodes from
`full_size / 64` on are as they were. -/
theorem vecash_compute_full_data_fills (SHA3_512 : List Nat → List Nat) (mem : Nat → node)
    (full_size : Nat) (light : vecash_light)
    (halign : ¬ (full_size % 128 ≠ 0 ∨ full_size % 64 ≠ 0))
    (h32 : full_size / 64 < 2 ^ 32)
    (hP : 1 ≤ light.cache_size / 64) (hP32 : light.cache_size / 64 < 2 ^ 32) :
    ∃ mem' log, vecash_compute_full_data SHA3_512 mem full_size light none
        = some (true, mem', log) ∧
      (∀ n, n < full_size / 64 →
        vecash_calculate_dag_item SHA3_512 n light = some (mem' n)) ∧
      (∀ n, full_size / 64 ≤ n → mem' n = mem n) := by
  have hmod : (full_size / 64) % UINT32_RANGE = full_size / 64 := Nat.mod_eq_of_lt h32
  have hPmod : (light.cache_size / 64) % UINT32_RANGE ≠ 0 := by
    rw [show UINT32_RANGE = 2 ^ 32 from rfl, Nat.mod_eq_of_lt hP32]
    omega
  have h := compute_full_data_run SHA3_512 mem full_size light halign hPmod
  rw [hmod] at h
  exact h

/-- Witness of C8 (amended): a one-node cache and a dataset of 128 bytes. -/
theorem vecash_compute_full_data_fills_witness :
    ¬ (128 % 128 ≠ 0 ∨ 128 % 64 ≠ 0) ∧ 128 / 64 < 2 ^ 32 ∧ 1 ≤ 64 / 64 ∧ 64 / 64 < 2 ^ 32 ∧
    ∃ mem' log, vecash_compute_full_data (fun x => x) (fun _ => []) 128
        ⟨fun _ => [], 64, 0⟩ none = some (true, mem', log) ∧
      (∀ n, n < 128 / 64 →
        vecash_calculate_dag_item (fun x => x) n ⟨fun _ => [], 64, 0⟩ = some (mem' n)) ∧
      (∀ n, 128 / 64 ≤ n → mem' n = (fun _ => ([] : node)) n) :=
  ⟨by decide, by decide, by decide, by decide,
    vecash_compute_full_data_fills (fun x => x) (fun _ => []) 128 ⟨fun _ => [], 64, 0⟩
      (by decide) (by decide) (by decide) (by decide)⟩

/-- Counterexample to C8 as stated, in two parts.  With a one-node cache and
`full_size = 2^38 + 128` (aligned, `2^32 + 2` nodes) the 32-bit `max_n` is 2 and node 2 is
never written, so it cannot hold the generated node for both of two buffers that differ
there.  With `full_size = 128` and a cache of `2^38` bytes (`2^32 >= 1` nodes) the 32-bit
`num_parent_nodes` is 0 and the generator divides by zero, so the builder does not return
true. -/
theorem vecash_compute_full_data_wide_sizes :
    ¬ (∀ (SHA3_512 : List Nat → List Nat) (mem : Nat → node) (full_size : Nat)
        (light : vecash_light),
        ¬ (full_size % 128 ≠ 0 ∨ full_size % 64 ≠ 0) →
        1 ≤ light.cache_size / 64 → light.cache_size / 64 < 2 ^ 32 →
        ∃ mem' log, vecash_compute_full_data SHA3_512 mem full_size light none
            = some (true, mem', log) ∧
          ∀ n, n < full_size / 64 →
            vecash_calculate_dag_item SHA3_512 n light = some (mem' n)) ∧
    ¬ (∀ (SHA3_512 : List Nat → List Nat) (mem : Nat → node) (full_size : Nat)
        (light : vecash_light),
        ¬ (full_size % 128 ≠ 0 ∨ full_size % 64 ≠ 0) →
        1 ≤ light.cache_size / 64 → full_size / 64 < 2 ^ 32 →
        ∃ mem' log, vecash_compute_full_data SHA3_512 mem full_size light none
            = some (true, mem', log) ∧
          ∀ n, n < full_size / 64 →
            vecash_calculate_dag_item SHA3_512 n light = some (mem' n)) := by
  constructor
  · intro hclaim
    have hkeep : ∀ mem : Nat → node, ∀ mem' log,
        vecash_compute_full_data (fun x => x) mem (2 ^ 38 + 128) ⟨fun _ => [], 64, 0⟩ none
          = some (true, mem', log) → mem' 2 = mem 2 := by
      intro mem mem' log hrun
      obtain ⟨mem'', log'', hrun', _, hframe⟩ := compute_full_data_run (fun x => x) mem
        (2 ^ 38 + 128) ⟨fun _ => [], 64, 0⟩ (by decide) (by decide)
      rw [hrun] at hrun'
      have heq : mem' = mem'' := by
        have := Option.some.inj hrun'
        exact (Prod.mk.inj (Prod.mk.inj this).2).1
      rw [heq]
      exact hframe 2 (by decide)
    obtain ⟨a, la, ha, hsa⟩ := hclaim (fun x => x) (fun _ => [0]) (2 ^ 38 + 128)
      ⟨fun _ => [], 64, 0⟩ (by decide) (by decide) (by decide)
    obtain ⟨b, lb, hb, hsb⟩ := hclaim (fun x => x) (fun _ => [1]) (2 ^ 38 + 128)
      ⟨fun _ => [], 64, 0⟩ (by decide) (by decide) (by decide)
    have h1 := hsa 2 (by decide)
    have h2 := hsb 2 (by decide)
    rw [hkeep _ _ _ ha] at h1
    rw [hkeep _ _ _ hb] at h2
    have : ([0] : List Nat) = [1] := Option.some.inj (h1.symm.trans h2)
    exact absurd this (by decide)
  · intro hclaim
    obtain ⟨a, la, ha, _⟩ := hclaim (fun x => x) (fun _ => []) 128
      ⟨fun _ => [], 2 ^ 38, 0⟩ (by decide) (by decide) (by decide)
    have hrun : vecash_compute_full_data (fun x => x) (fun _ => []) 128
        ⟨fun _ => [], 2 ^ 38, 0⟩ none = none := by
      rfl
    rw [hrun] at ha
    exact Option.noConfusion ha

/-- C9: on a size with `full_size % 128 != 0` or `full_size % 64 != 0`,
`vecash_compute_full_data` returns false, leaves the buffer as it was, and makes no node
write and no callback call. -/
theorem vecash_compute_full_data_misaligned (SHA3_512 : List Nat → List Nat)
    (mem : Nat → node) (full_size : Nat) (light : vecash_light)
    (callback : Option (Nat → Int))
    (h : full_size % 128 ≠ 0 ∨ full_size % 64 ≠ 0) :
    vecash_compute_full_data SHA3_512 mem full_size light callback = some (false, mem, []) := by
  unfold vecash_compute_full_data
  rw [if_pos (by simpa [MIX_WORDS] using h)]

/-- Witness of C9 at `full_size = 64`. -/
theorem vecash_compute_full_data_misaligned_witness :
    (64 % 128 ≠ 0 ∨ 64 % 64 ≠ 0) ∧
    vecash_compute_full_data (fun _ => []) (fun _ => []) 64 ⟨fun _ => [], 64, 0⟩
      (some fun _ => 1) = some (false, fun _ => [], []) :=
  ⟨by decide, vecash_compute_full_data_misaligned _ _ 64 _ _ (by decide)⟩

/-- C10: let a callback be given, `full_size` be aligned and `max_n` be its 32-bit node
count.  Suppose the run calls the callback at node index `n` and gets a non-zero answer
there for the first time: `max_n / 100` is not zero, `n < max_n` is a multiple of it, the
calls before `n` returned 0 and the nodes before `n` have a value.  Then
`vecash_compute_full_data` returns false with that call as its last action, nodes
`0..n-1` hold the generated nodes, every node from `n` on is as it was, and
`vecash_full_new_internal`, once it has mapped the file, returns `NULL`. -/
theorem vecash_compute_full_data_cancel (SHA3_512 : List Nat → List Nat) (mem : Nat → node)
    (full_size : Nat) (light : vecash_light) (cb : Nat → Int) (n : Nat)
    (halign : ¬ (full_size % 128 ≠ 0 ∨ full_size % 64 ≠ 0))
    (hq : (full_size / 64) % 2 ^ 32 / 100 ≠ 0)
    (hn : n < (full_size / 64) % 2 ^ 32)
    (hnq : n % ((full_size / 64) % 2 ^ 32 / 100) = 0)
    (hcb : cb n ≠ 0)
    (hfirst : ∀ m, m < n → m % ((full_size / 64) % 2 ^ 32 / 100) = 0 → cb m = 0)
    (hdag : ∀ m, m < n → ∃ r, vecash_calculate_dag_item SHA3_512 m light = some r) :
    ∃ mem' events,
      vecash_compute_full_data SHA3_512 mem full_size light (some cb)
        = some (false, mem', events ++ [full_event.callback n]) ∧
      (∀ m, m < n → vecash_calculate_dag_item SHA3_512 m light = some (mem' m)) ∧
      (∀ m, n ≤ m → mem' m = mem m) ∧
      ∀ env : full_env, env.calloc_ok = true → env.mmap_ok = true → env.data = mem →
        (env.prepare_first = vecash_io_rc.VECASH_IO_MEMO_MISMATCH ∨
          (env.prepare_first = vecash_io_rc.VECASH_IO_MEMO_SIZE_MISMATCH ∧
            env.prepare_forced = vecash_io_rc.VECASH_IO_MEMO_MISMATCH)) →
        ∃ log, vecash_full_new_internal SHA3_512 env full_size light (some cb)
          = some (none, log) := by
  have hmax : (full_size / 64) % UINT32_RANGE < UINT32_RANGE :=
    Nat.mod_lt _ (by unfold UINT32_RANGE; norm_num)
  obtain ⟨mem', events, hloop, h1, h2⟩ := compute_full_data_loop_cancel SHA3_512
    ((full_size / 64) % UINT32_RANGE) light cb n hmax hq hn hnq hcb LOOP_FUEL 0 mem []
    (Nat.zero_le _)
    (by unfold LOOP_FUEL; unfold UINT32_RANGE at hmax; omega)
    (fun m _ hm hmq => hfirst m hm hmq) (fun m _ hm => hdag m hm)
  have hrun : vecash_compute_full_data SHA3_512 mem full_size light (some cb)
      = some (false, mem', events ++ [full_event.callback n]) := by
    unfold vecash_compute_full_data
    rw [if_neg (by simpa [MIX_WORDS] using halign)]
    simpa using hloop
  refine ⟨mem', events, hrun, fun m hm => h1 m (Nat.zero_le _) hm,
    fun m hm => h2 m (Or.inr hm), ?_⟩
  intro env hcalloc hmmap hdata hprep
  subst hdata
  have hbuild : ∀ log, ∃ log', full_new_build SHA3_512 env full_size light (some cb) log
      = some (none, log') := by
    intro log
    simp only [full_new_build, hmmap, hrun]
    exact ⟨_, rfl⟩
  rcases hprep with hp | ⟨hp, hp2⟩
  · simp only [vecash_full_new_internal, hcalloc, hp]
    exact hbuild _
  · simp only [vecash_full_new_internal, hcalloc, hp, hp2]
    exact hbuild _

/-- Witness of C10: a one-node cache, a dataset of 200 nodes, a callback that answers 1
at node index 2 and 0 elsewhere, and a run of the constructor that finds no usable file. -/
theorem vecash_compute_full_data_cancel_witness :
    ¬ (12800 % 128 ≠ 0 ∨ 12800 % 64 ≠ 0) ∧ (12800 / 64) % 2 ^ 32 / 100 = 2 ∧
    ∃ mem' events,
      vecash_compute_full_data (fun x => x) (fun _ => []) 12800 ⟨fun _ => [], 64, 0⟩
          (some fun m => if m = 2 then 1 else 0)
        = some (false, mem', events ++ [full_event.callback 2]) ∧
      (∀ m, m < 2 →
        vecash_calculate_dag_item (fun x => x) m ⟨fun _ => [], 64, 0⟩ = some (mem' m)) ∧
      (∀ m, 2 ≤ m → mem' m = (fun _ => ([] : node)) m) ∧
      ∃ log, vecash_full_new_internal (fun x => x)
          ⟨true, vecash_io_rc.VECASH_IO_MEMO_MISMATCH, vecash_io_rc.VECASH_IO_FAIL, true,
            fun _ => [], true, true, true⟩
          12800 ⟨fun _ => [], 64, 0⟩ (some fun m => if m = 2 then 1 else 0)
        = some (none, log) := by
  refine ⟨by decide, by decide, ?_⟩
  obtain ⟨mem', events, h1, h2, h3, h4⟩ :=
    vecash_compute_full_data_cancel (fun x => x) (fun _ => []) 12800 ⟨fun _ => [], 64, 0⟩
      (fun m => if m = 2 then 1 else 0) 2 (by decide) (by decide) (by decide) (by decide)
      (by decide) (fun m hm _ => by
        have : m ≠ 2 := by omega
        simp [this])
      (fun m _ => ⟨_, vecash_calculate_dag_item_eq (fun x => x) m ⟨fun _ => [], 64, 0⟩
        (by decide)⟩)
  exact ⟨mem', events, h1, h2, h3,
    h4 ⟨true, vecash_io_rc.VECASH_IO_MEMO_MISMATCH, vecash_io_rc.VECASH_IO_FAIL, true,
      fun _ => [], true, true, true⟩ rfl rfl rfl (Or.inl rfl)⟩

/-- C11: at `full_size = 128`, which passes the alignment check, `max_n` is 2 and
`max_n / 100` is 0: with a callback the progress test `n % (max_n / 100)` divides by zero
at `n = 0` and `vecash_compute_full_data` has no defined result. -/
theorem vecash_compute_full_data_small (SHA3_512 : List Nat → List Nat) (mem : Nat → node)
    (light : vecash_light) (cb : Nat → Int) :
    ¬ (128 % 128 ≠ 0 ∨ 128 % 64 ≠ 0) ∧ (128 / 64) % 2 ^ 32 / 100 = 0 ∧
    vecash_compute_full_data SHA3_512 mem 128 light (some cb) = none :=
  ⟨by decide, by decide, rfl⟩

/-- C12: at block number `61440000 = 30000 * 2048` the seed loop ends and
`vecash_get_cachesize` is called with epoch 2048: `vecash_light_new` does not return
`NULL`; it fails the assertion, or, in a build without assertions, reads entry 2048 of the
size table. -/
theorem vecash_light_new_out_of_range (SHA3_512 SHA3_256 : List Nat → List Nat)
    (cache_sizes : Nat → Nat) (env : light_env) :
    vecash_light_new SHA3_512 SHA3_256 false cache_sizes env 61440000 = call_end.assert_fails ∧
    vecash_light_new SHA3_512 SHA3_256 true cache_sizes env 61440000
      = call_end.table_overrun 2048 := by
  have hseed := vecash_get_seedhash_eq SHA3_256 61440000 (by decide)
  constructor
  · simp only [vecash_light_new, hseed]
    rfl
  · simp only [vecash_light_new, hseed]
    rfl

/-- C13: at block number 0, when `calloc` or `malloc` fails inside
`vecash_light_new_internal`, that function returns `NULL` and `vecash_light_new` writes
`block_number` through the null handle instead of returning `NULL`; the same happens when
the cache size is not a multiple of 64. -/
theorem vecash_light_new_null_write (SHA3_512 SHA3_256 : List Nat → List Nat) (ndebug : Bool)
    (cache_sizes : Nat → Nat) (malloc_ok : Bool) (cache : Nat → node) :
    vecash_light_new_internal SHA3_512 ⟨false, malloc_ok, cache⟩ (cache_sizes 0)
        (List.replicate 32 0) = some none ∧
    vecash_light_new SHA3_512 SHA3_256 ndebug cache_sizes ⟨false, malloc_ok, cache⟩ 0
      = call_end.null_write ∧
    vecash_light_new SHA3_512 SHA3_256 ndebug cache_sizes ⟨true, false, cache⟩ 0
      = call_end.null_write ∧
    vecash_light_new SHA3_512 SHA3_256 ndebug (fun _ => 65) ⟨true, true, cache⟩ 0
      = call_end.null_write := by
  refine ⟨rfl, ?_, ?_, ?_⟩
  · rw [vecash_light_new_in_range _ _ _ _ _ 0 (by decide)]
    rfl
  · rw [vecash_light_new_in_range _ _ _ _ _ 0 (by decide)]
    rfl
  · rw [vecash_light_new_in_range _ _ _ _ _ 0 (by decide)]
    rfl

/-- C14: for a block number `b` below `30000 * 2048`, when `vecash_light_new(b)` returns a
handle, the handle has `block_number == b` and `cache_size == cache_sizes[b / 30000]`, and
its cache is what `vecash_compute_cache_nodes` leaves in the allocated buffer for that
size and the seed `vecash_get_seedhash(b)`. -/
theorem vecash_light_new_handle (SHA3_512 SHA3_256 : List Nat → List Nat) (ndebug : Bool)
    (cache_sizes : Nat → Nat) (env : light_env) (b : Nat) (light : vecash_light)
    (hb : b < VECASH_EPOCH_LENGTH * 2048)
    (hnew : vecash_light_new SHA3_512 SHA3_256 ndebug cache_sizes env b
      = call_end.returns (some light)) :
    light.block_number = b ∧ light.cache_size = cache_sizes (b / 30000) ∧
    ∃ seed, vecash_get_seedhash SHA3_256 b = some seed ∧
      vecash_compute_cache_nodes SHA3_512 env.cache (cache_sizes (b / 30000)) seed
        = some (true, light.cache) := by
  rw [vecash_light_new_in_range _ _ _ _ _ b hb] at hnew
  have hseed := vecash_get_seedhash_eq SHA3_256 b
    (by unfold UINT32_RANGE; unfold VECASH_EPOCH_LENGTH at *; omega)
  have hidx : b / VECASH_EPOCH_LENGTH = b / 30000 := rfl
  rw [hidx] at hnew hseed
  generalize SHA3_256^[b / 30000] (List.replicate 32 0) = seed at hnew hseed
  cases hint : vecash_light_new_internal SHA3_512 env (cache_sizes (b / 30000)) seed with
  | none => simp [hint] at hnew
  | some r =>
    cases r with
    | none => simp [hint] at hnew
    | some ret =>
      obtain ⟨hsize, hcache⟩ := vecash_light_new_internal_handle _ _ _ _ _ hint
      simp only [hint, call_end.returns.injEq, Option.some.injEq] at hnew
      subst hnew
      exact ⟨rfl, hsize, seed, hseed, hcache⟩

/-- Witness of C14: block 0, a table whose first entry is 128 bytes, allocations that
succeed. -/
theorem vecash_light_new_handle_witness :
    ∃ light, vecash_light_new (fun x => x) (fun x => x) false (fun _ => 128)
        ⟨true, true, fun _ => []⟩ 0 = call_end.returns (some light) ∧
      light.block_number = 0 ∧ light.cache_size = 128 ∧
      ∃ seed, vecash_get_seedhash (fun x => x) 0 = some seed ∧
        vecash_compute_cache_nodes (fun x => x) (fun _ => []) 128 seed
          = some (true, light.cache) := by
  obtain ⟨nodes, hrun, _⟩ := compute_cache_nodes_run (fun x => x) (fun _ => []) 128
    (List.replicate 32 0) (by decide) (by decide)
  have hnew : vecash_light_new (fun x => x) (fun x => x) false (fun _ => 128)
      ⟨true, true, fun _ => []⟩ 0 = call_end.returns (some ⟨nodes, 128, 0⟩) := by
    rw [vecash_light_new_in_range _ _ _ _ _ 0 (by decide)]
    simp only [vecash_light_new_internal, Bool.not_true, Bool.false_eq_true, if_false]
    rw [show (fun x => x)^[0 / VECASH_EPOCH_LENGTH] (List.replicate 32 0)
      = List.replicate 32 0 from rfl, hrun]
  exact ⟨_, hnew, vecash_light_new_handle (fun x => x) (fun x => x) false (fun _ => 128)
    ⟨true, true, fun _ => []⟩ 0 ⟨nodes, 128, 0⟩ (by decide) hnew⟩

/-- C15: for every cache and every node index the vectorised branch of
`vecash_calculate_dag_item` has the outcome of the portable branch; both return a node when
the 32-bit node count of the cache is not zero, and it is the same node. -/
theorem vecash_calculate_dag_item_sse_portable (SHA3_512 : List Nat → List Nat)
    (node_index : Nat) (light : vecash_light) :
    vecash_calculate_dag_item_sse SHA3_512 node_index light
      = vecash_calculate_dag_item SHA3_512 node_index light ∧
    ((light.cache_size / 64) % 2 ^ 32 ≠ 0 →
      ∃ r, vecash_calculate_dag_item_sse SHA3_512 node_index light = some r ∧
        vecash_calculate_dag_item SHA3_512 node_index light = some r) := by
  refine ⟨vecash_calculate_dag_item_sse_eq SHA3_512 node_index light, fun hP => ?_⟩
  rw [vecash_calculate_dag_item_sse_eq SHA3_512 node_index light]
  exact ⟨_, vecash_calculate_dag_item_eq SHA3_512 node_index light hP,
    vecash_calculate_dag_item_eq SHA3_512 node_index light hP⟩

/-- C16: when the handle is allocated, `vecash_io_prepare` reports `MEMO_MATCH` and the
mapping succeeds, `vecash_full_new_internal` returns a handle with
`file_size == full_size` on the mapped nodes as they are, and the run consists of the call
of `vecash_io_prepare` and the mapping: no call of `vecash_compute_full_data`, no callback
call, no node write, no write of the magic number. -/
theorem vecash_full_new_internal_match (SHA3_512 : List Nat → List Nat) (env : full_env)
    (full_size : Nat) (light : vecash_light) (callback : Option (Nat → Int))
    (hcalloc : env.calloc_ok = true)
    (hprep : env.prepare_first = vecash_io_rc.VECASH_IO_MEMO_MATCH)
    (hmmap : env.mmap_ok = true) :
    vecash_full_new_internal SHA3_512 env full_size light callback
      = some (some { file_size := full_size, data := env.data },
          [full_event.io_prepare false, full_event.mmap]) := by
  simp [vecash_full_new_internal, hcalloc, hprep, hmmap]

/-- Witness of C16: a run that finds a valid file. -/
theorem vecash_full_new_internal_match_witness :
    vecash_full_new_internal (fun x => x)
        ⟨true, vecash_io_rc.VECASH_IO_MEMO_MATCH, vecash_io_rc.VECASH_IO_FAIL, true,
          fun _ => [], true, true, true⟩
        128 ⟨fun _ => [], 64, 0⟩ (some fun _ => 1)
      = some (some { file_size := 128, data := fun _ => [] },
          [full_event.io_prepare false, full_event.mmap]) :=
  vecash_full_new_internal_match _ _ 128 _ _ rfl rfl rfl

/-- C17: in every run of `vecash_full_new_internal` that ends, if the magic number is
written then `vecash_compute_full_data` has returned true and the run is: some calls that
write no node and no magic, the dataset builder with its node writes, `fseek`, the write
of the magic number, and a rest that writes no node and no magic and starts with `fflush`
when the write succeeded.  When the dataset builder returns false (alignment failure,
cancelled build) the magic number is not written. -/
theorem vecash_full_new_internal_magic (SHA3_512 : List Nat → List Nat) (env : full_env)
    (full_size : Nat) (light : vecash_light) (callback : Option (Nat → Int))
    (h : Option vecash_full) (log : List full_event)
    (hrun : vecash_full_new_internal SHA3_512 env full_size light callback = some (h, log)) :
    (full_event.fwrite_magic ∈ log →
      ∃ data events pre post,
        vecash_compute_full_data SHA3_512 env.data full_size light callback
          = some (true, data, events) ∧
        log = pre ++ [full_event.compute] ++ events
          ++ [full_event.fseek, full_event.fwrite_magic] ++ post ∧
        (∀ e ∈ pre ++ post, e ≠ full_event.fwrite_magic ∧ ∀ n, e ≠ full_event.write_node n) ∧
        (∀ e ∈ events, e ≠ full_event.fwrite_magic) ∧
        (env.fwrite_ok = true → ∃ post', post = full_event.fflush :: post')) ∧
    (∀ data events,
      vecash_compute_full_data SHA3_512 env.data full_size light callback
        = some (false, data, events) → full_event.fwrite_magic ∉ log) := by
  unfold vecash_full_new_internal at hrun
  have hquiet : ∀ l : List full_event, some ((none : Option vecash_full), l) = some (h, log) →
      full_event.fwrite_magic ∉ l →
      (full_event.fwrite_magic ∈ log →
        ∃ data events pre post,
          vecash_compute_full_data SHA3_512 env.data full_size light callback
            = some (true, data, events) ∧
          log = pre ++ [full_event.compute] ++ events
            ++ [full_event.fseek, full_event.fwrite_magic] ++ post ∧
          (∀ e ∈ pre ++ post,
            e ≠ full_event.fwrite_magic ∧ ∀ n, e ≠ full_event.write_node n) ∧
          (∀ e ∈ events, e ≠ full_event.fwrite_magic) ∧
          (env.fwrite_ok = true → ∃ post', post = full_event.fflush :: post')) ∧
      (∀ data events,
        vecash_compute_full_data SHA3_512 env.data full_size light callback
          = some (false, data, events) → full_event.fwrite_magic ∉ log) := by
    intro l hl hnot
    simp only [Option.some.injEq, Prod.mk.injEq] at hl
    obtain ⟨_, rfl⟩ := hl
    exact ⟨fun hm => absurd hm hnot, fun _ _ _ => hnot⟩
  cases hc : env.calloc_ok with
  | false =>
    simp only [hc, Bool.not_false, if_true] at hrun
    exact hquiet _ hrun (by simp)
  | true =>
    simp only [hc, Bool.not_true, Bool.false_eq_true, if_false] at hrun
    cases hp : env.prepare_first with
    | VECASH_IO_FAIL =>
      simp only [hp] at hrun
      exact hquiet _ hrun (by simp)
    | VECASH_IO_MEMO_MATCH =>
      simp only [hp] at hrun
      cases hm : env.mmap_ok with
      | false =>
        simp only [hm, Bool.not_false, if_true] at hrun
        exact hquiet _ hrun (by simp)
      | true =>
        simp only [hm, Bool.not_true, Bool.false_eq_true, if_false, Option.some.injEq,
          Prod.mk.injEq] at hrun
        obtain ⟨_, rfl⟩ := hrun
        exact ⟨fun hm => by simp at hm, fun _ _ _ => by simp⟩
    | VECASH_IO_MEMO_SIZE_MISMATCH =>
      simp only [hp] at hrun
      by_cases hf : env.prepare_forced = vecash_io_rc.VECASH_IO_MEMO_MISMATCH
      · simp only [hf, ne_eq, not_true_eq_false, if_false] at hrun
        exact full_new_build_magic _ _ _ _ _ _ _ _ (by simp) hrun
      · simp only [ne_eq, hf, not_false_eq_true, if_true] at hrun
        exact hquiet _ hrun (by simp)
    | VECASH_IO_MEMO_MISMATCH =>
      simp only [hp] at hrun
      exact full_new_build_magic _ _ _ _ _ _ _ _ (by simp) hrun

/-- Witness of C17: a one-node cache, a dataset of 128 bytes, no callback, no usable file
and system calls that succeed: the magic number is written, after the two node writes. -/
theorem vecash_full_new_internal_magic_witness :
    ∃ h log,
      vecash_full_new_internal (fun x => x)
          ⟨true, vecash_io_rc.VECASH_IO_MEMO_MISMATCH, vecash_io_rc.VECASH_IO_FAIL, true,
            fun _ => [], true, true, true⟩
          128 ⟨fun _ => [], 64, 0⟩ none = some (h, log) ∧
      full_event.fwrite_magic ∈ log ∧
      ∃ data events pre post,
        vecash_compute_full_data (fun x => x) (fun _ => []) 128 ⟨fun _ => [], 64, 0⟩ none
          = some (true, data, events) ∧
        log = pre ++ [full_event.compute] ++ events
          ++ [full_event.fseek, full_event.fwrite_magic] ++ post ∧
        (∀ e ∈ pre ++ post, e ≠ full_event.fwrite_magic ∧ ∀ n, e ≠ full_event.write_node n) ∧
        (∀ e ∈ events, e ≠ full_event.fwrite_magic) := by
  obtain ⟨data, events, hc, _, _⟩ := compute_full_data_run (fun x => x) (fun _ => []) 128
    ⟨fun _ => [], 64, 0⟩ (by decide) (by decide)
  have hrun := (vecash_full_new_internal_built (fun x => x)
    ⟨true, vecash_io_rc.VECASH_IO_MEMO_MISMATCH, vecash_io_rc.VECASH_IO_FAIL, true,
      fun _ => [], true, true, true⟩
    128 ⟨fun _ => [], 64, 0⟩ none data events rfl rfl rfl rfl rfl hc).1 rfl
  have hmem : full_event.fwrite_magic ∈
      [full_event.io_prepare false, full_event.mmap, full_event.compute] ++ events
        ++ [full_event.fseek, full_event.fwrite_magic, full_event.fflush] := by
    simp
  obtain ⟨d, ev, pre, post, h1, h2, h3, h4, _⟩ :=
    (vecash_full_new_internal_magic (fun x => x) _ 128 _ none _ _ hrun).1 hmem
  exact ⟨_, _, hrun, hmem, d, ev, pre, post, h1, h2, h3, h4⟩

/-- C18: when the handle is allocated and the first `vecash_io_prepare` reports
`MEMO_SIZE_MISMATCH`, `vecash_io_prepare` is called a second time with
`force_create = true`.  If that call reports `MEMO_MISMATCH`, the run is the run of the
mismatch case with the second call inserted after the first; when the mapping, the
dataset builder and the file operations succeed it maps, computes, writes the magic number
and returns the handle.  If it reports anything else the run frees the handle and returns
`NULL` without mapping or computing. -/
theorem vecash_full_new_internal_size_mismatch (SHA3_512 : List Nat → List Nat)
    (env : full_env) (full_size : Nat) (light : vecash_light)
    (callback : Option (Nat → Int)) (hcalloc : env.calloc_ok = true)
    (hfirst : env.prepare_first = vecash_io_rc.VECASH_IO_MEMO_SIZE_MISMATCH) :
    (env.prepare_forced = vecash_io_rc.VECASH_IO_MEMO_MISMATCH →
      vecash_full_new_internal SHA3_512 env full_size light callback
        = (vecash_full_new_internal SHA3_512
            { env with prepare_first := vecash_io_rc.VECASH_IO_MEMO_MISMATCH }
            full_size light callback).map
          (fun r => (r.1,
            [full_event.io_prepare false, full_event.io_prepare true] ++ r.2.drop 1)) ∧
      ∀ data events,
        vecash_compute_full_data SHA3_512 env.data full_size light callback
          = some (true, data, events) →
        env.mmap_ok = true → env.fseek_ok = true → env.fwrite_ok = true →
        env.fflush_ok = true →
        vecash_full_new_internal SHA3_512 env full_size light callback
          = some (some { file_size := full_size, data := data },
              [full_event.io_prepare false, full_event.io_prepare true, full_event.mmap,
                full_event.compute] ++ events
                ++ [full_event.fseek, full_event.fwrite_magic, full_event.fflush])) ∧
    (env.prepare_forced ≠ vecash_io_rc.VECASH_IO_MEMO_MISMATCH →
      vecash_full_new_internal SHA3_512 env full_size light callback
        = some (none,
            [full_event.io_prepare false, full_event.io_prepare true, full_event.free])) := by
  refine ⟨fun hf => ⟨?_, ?_⟩, fun hf => ?_⟩
  · have h1 : vecash_full_new_internal SHA3_512 env full_size light callback
        = full_new_build SHA3_512 env full_size light callback
            [full_event.io_prepare false, full_event.io_prepare true] := by
      simp [vecash_full_new_internal, hcalloc, hfirst, hf]
    have h2 : vecash_full_new_internal SHA3_512
          { env with prepare_first := vecash_io_rc.VECASH_IO_MEMO_MISMATCH }
          full_size light callback
        = full_new_build SHA3_512 env full_size light callback
            [full_event.io_prepare false] := by
      simp only [vecash_full_new_internal, hcalloc, Bool.not_true, Bool.false_eq_true,
        if_false]
      rfl
    rw [h1, h2, full_new_build_log _ _ _ _ _ [full_event.io_prepare false, _],
      full_new_build_log _ _ _ _ _ [full_event.io_prepare false]]
    cases full_new_build SHA3_512 env full_size light callback [] with
    | none => rfl
    | some r => simp
  · intro data events hc hmmap hseek hwrite hflush
    exact (vecash_full_new_internal_built SHA3_512 env full_size light callback data events
      hcalloc hmmap hseek hwrite hflush hc).2 hfirst hf
  · simp [vecash_full_new_internal, hcalloc, hfirst, hf]

/-- Witness of C18: a file of the wrong size is found, the forced call reports
`MEMO_MISMATCH`, and the run maps, computes the two nodes of a 128-byte dataset, writes the
magic number and returns the handle. -/
theorem vecash_full_new_internal_size_mismatch_witness :
    ∃ data events,
      vecash_full_new_internal (fun x => x)
          ⟨true, vecash_io_rc.VECASH_IO_MEMO_SIZE_MISMATCH,
            vecash_io_rc.VECASH_IO_MEMO_MISMATCH, true, fun _ => [], true, true, true⟩
          128 ⟨fun _ => [], 64, 0⟩ none
        = some (some { file_size := 128, data := data },
            [full_event.io_prepare false, full_event.io_prepare true, full_event.mmap,
              full_event.compute] ++ events
              ++ [full_event.fseek, full_event.fwrite_magic, full_event.fflush]) := by
  obtain ⟨data, events, hc, _, _⟩ := compute_full_data_run (fun x => x) (fun _ => []) 128
    ⟨fun _ => [], 64, 0⟩ (by decide) (by decide)
  exact ⟨data, events,
    ((vecash_full_new_internal_size_mismatch (fun x => x)
      ⟨true, vecash_io_rc.VECASH_IO_MEMO_SIZE_MISMATCH,
        vecash_io_rc.VECASH_IO_MEMO_MISMATCH, true, fun _ => [], true, true, true⟩
      128 ⟨fun _ => [], 64, 0⟩ none rfl rfl).1 rfl).2 data events hc rfl rfl rfl rfl⟩

/-- C19: two block numbers below `30000 * 2048` in the same epoch have the same seed
hash. -/
theorem vecash_get_seedhash_same_epoch (SHA3_256 : List Nat → List Nat) (b1 b2 : Nat)
    (h1 : b1 < VECASH_EPOCH_LENGTH * 2048) (h2 : b2 < VECASH_EPOCH_LENGTH * 2048)
    (hepoch : b1 / 30000 = b2 / 30000) :
    vecash_get_seedhash SHA3_256 b1 = vecash_get_seedhash SHA3_256 b2 ∧
    ∃ seed, vecash_get_seedhash SHA3_256 b1 = some seed := by
  have hep : ∀ b, b < VECASH_EPOCH_LENGTH * 2048 →
      b / VECASH_EPOCH_LENGTH < UINT32_RANGE - 1 := by
    intro b hb
    unfold VECASH_EPOCH_LENGTH UINT32_RANGE at *
    omega
  have e1 := vecash_get_seedhash_eq SHA3_256 b1 (hep _ h1)
  have e2 := vecash_get_seedhash_eq SHA3_256 b2 (hep _ h2)
  have hidx : b1 / VECASH_EPOCH_LENGTH = b2 / VECASH_EPOCH_LENGTH := hepoch
  rw [hidx] at e1
  exact ⟨e1.trans e2.symm, _, e1⟩

/-- Witness of C19: blocks 30000 and 59999 of epoch 1. -/
theorem vecash_get_seedhash_same_epoch_witness :
    30000 / 30000 = 59999 / 30000 ∧
    vecash_get_seedhash (fun x => x ++ [1]) 30000
      = vecash_get_seedhash (fun x => x ++ [1]) 59999 :=
  ⟨by decide,
    (vecash_get_seedhash_same_epoch (fun x => x ++ [1]) 30000 59999 (by decide) (by decide)
      (by decide)).1⟩

/-- C20: `VECASH_CACHE_BYTES_INIT` is `1073741824 = 2^30`, the value of
`VECASH_DATASET_BYTES_INIT`, and not the `2^24 = 16777216` of its comment. -/
theorem VECASH_CACHE_BYTES_INIT_value :
    VECASH_CACHE_BYTES_INIT = 2 ^ 30 ∧ VECASH_CACHE_BYTES_INIT ≠ 2 ^ 24 ∧
    VECASH_DATASET_BYTES_INIT = 2 ^ 30 :=
  ⟨by decide, by decide, by decide⟩

/-- C21: for every mix of 32 words and every `k < 8`, word `k` after the compression loop of
`vecash_hash` is `fnv_hash(fnv_hash(fnv_hash(m[4k], m[4k+1]), m[4k+2]), m[4k+3])` over the
words `m` the mix held before the loop: no pass overwrites a word a later pass reads, and
`reduction * FNV_PRIME ^ x` is `(reduction * FNV_PRIME) XOR x`. -/
theorem vecash_hash_compress_mix (mix : List Nat) (h : mix.length = 32) (k : Nat)
    (hk : k < 8) :
    (compress_mix mix).getD k 0
      = fnv_hash (fnv_hash (fnv_hash (mix.getD (4 * k) 0) (mix.getD (4 * k + 1) 0))
          (mix.getD (4 * k + 2) 0)) (mix.getD (4 * k + 3) 0) := by
  obtain ⟨a0, a1, a2, a3, a4, a5, a6, a7, a8, a9, a10, a11, a12, a13, a14, a15,
    a16, a17, a18, a19, a20, a21, a22, a23, a24, a25, a26, a27, a28, a29, a30, a31, rfl⟩ :=
    mix_thirty_two mix h
  interval_cases k <;> rfl

/-- Witness of C21: the mix `0, 1, .., 31` and word 3, which reads the words 12 to 15. -/
theorem vecash_hash_compress_mix_witness :
    (List.range 32).length = 32 ∧ 3 < 8 ∧
    (compress_mix (List.range 32)).getD 3 0
      = fnv_hash (fnv_hash (fnv_hash ((List.range 32).getD (4 * 3) 0)
          ((List.range 32).getD (4 * 3 + 1) 0)) ((List.range 32).getD (4 * 3 + 2) 0))
          ((List.range 32).getD (4 * 3 + 3) 0) :=
  ⟨by decide, by decide, vecash_hash_compress_mix (List.range 32) (by decide) 3 (by decide)⟩

/-- C22: for every `full_size` with `full_size % 32 == 0`, every header hash and nonce, in
full mode and in light mode, each dataset node index `MIX_NODES * index + n` the access
loop of `vecash_hash` uses is strictly less than `full_size / 64` (no lower limit on
`full_size` is needed).  The indices are those of `vecash_hash_accesses`, which is tied to
`vecash_hash`: it ends in the mix `vecash_hash` hashes, and the result of `vecash_hash`
depends on the dataset or light handle only through the nodes at these indices.  When the
32-bit page count is not zero, with a dataset or a light handle whose 32-bit node count is
not zero, the indices are `64 x 2`. -/
theorem vecash_hash_accesses_in_bounds (SHA3_512 SHA3_256 : List Nat → List Nat)
    (ret : vecash_return_value) (full_nodes : Option (Nat → node))
    (light : Option vecash_light) (full_size : Nat) (header_hash : vecash_h256_t) (nonce : Nat)
    (h : full_size % 32 = 0) :
    (∀ x ∈ (vecash_hash_accesses SHA3_512 full_nodes light full_size header_hash nonce).2,
      x < full_size / 64) ∧
    vecash_hash SHA3_512 SHA3_256 ret full_nodes light full_size header_hash nonce
      = (vecash_hash_accesses SHA3_512 full_nodes light full_size header_hash nonce).1.map
          (fun mix => (true, { ret with
            mix_hash := words_bytes (compress_mix mix) (MIX_WORDS / 4)
            result := SHA3_256
              (node_bytes (node_of_bytes (SHA3_512 (header_hash ++ le64_bytes nonce)))
                ++ words_bytes (compress_mix mix) (MIX_WORDS / 4)) })) ∧
    (∀ (full_nodes2 : Option (Nat → node)) (light2 : Option vecash_light),
      (∀ x ∈ (vecash_hash_accesses SHA3_512 full_nodes light full_size header_hash nonce).2,
        dag_node_at SHA3_512 full_nodes2 light2 x = dag_node_at SHA3_512 full_nodes light x) →
      vecash_hash SHA3_512 SHA3_256 ret full_nodes2 light2 full_size header_hash nonce
        = vecash_hash SHA3_512 SHA3_256 ret full_nodes light full_size header_hash nonce) ∧
    ((full_size / 128) % 2 ^ 32 ≠ 0 →
      (full_nodes ≠ none ∨
        ∃ l, full_nodes = none ∧ light = some l ∧ (l.cache_size / 64) % 2 ^ 32 ≠ 0) →
      ∃ mix record,
        vecash_hash_accesses SHA3_512 full_nodes light full_size header_hash nonce
          = (some mix, record) ∧
        record.length = 64 * 2) := by
  refine ⟨?_, vecash_hash_of_accesses SHA3_512 SHA3_256 ret full_nodes light full_size
    header_hash nonce h, ?_, ?_⟩
  · intro x hx
    have h1 := vecash_hash_accesses_bound SHA3_512 full_nodes light full_size header_hash
      nonce x hx
    have h2 : (full_size / 128) % UINT32_RANGE ≤ full_size / 128 := Nat.mod_le _ _
    omega
  · intro full_nodes2 light2 hrec
    exact vecash_hash_congr SHA3_512 SHA3_256 ret full_nodes full_nodes2 light light2
      full_size header_hash nonce hrec
  · intro hnp hd
    obtain ⟨mix, record, hrun, hlen, _, _⟩ := vecash_hash_accesses_run SHA3_512 SHA3_256
      ret full_nodes light full_size header_hash nonce h hnp hd
    exact ⟨mix, record, hrun, hlen⟩

/-- Witness of C22: a dataset of one page, in full mode; the run forms `64 x 2` indices,
all below `128 / 64`. -/
theorem vecash_hash_accesses_in_bounds_witness :
    128 % 32 = 0 ∧
    (∀ x ∈ (vecash_hash_accesses (fun x => x) (some fun _ => []) none 128 [] 0).2,
      x < 128 / 64) ∧
    ∃ mix record,
      vecash_hash_accesses (fun x => x) (some fun _ => []) none 128 [] 0
        = (some mix, record) ∧
      record.length = 64 * 2 :=
  ⟨by decide,
    (vecash_hash_accesses_in_bounds (fun x => x) (fun x => x) ⟨[], [], false⟩
      (some fun _ => []) none 128 [] 0 (by decide)).1,
    (vecash_hash_accesses_in_bounds (fun x => x) (fun x => x) ⟨[], [], false⟩
      (some fun _ => []) none 128 [] 0 (by decide)).2.2.2 (by decide) (Or.inl (by simp))⟩

/-- C23 (amended): for every light handle whose cache has `P = cache_size / 64` nodes with
`1 <= P < 2^32` and every node index, `vecash_calculate_dag_item` returns a node, no
modulus is taken by zero, and the cache indices it reads are the initial index
`node_index mod P` followed by 256 parent indices, each strictly less than `P`, so every
64-byte read ends inside the first `P * 64 <= cache_size` bytes. -/
theorem vecash_calculate_dag_item_reads_in_bounds (SHA3_512 : List Nat → List Nat)
    (node_index : Nat) (light : vecash_light) (h1 : 1 ≤ light.cache_size / 64)
    (h32 : light.cache_size / 64 < 2 ^ 32) :
    ∃ r parents,
      vecash_calculate_dag_item_reads SHA3_512 node_index light
        = some (r, node_index % (light.cache_size / 64) :: parents) ∧
      vecash_calculate_dag_item SHA3_512 node_index light = some r ∧
      parents.length = 256 ∧
      ∀ x ∈ node_index % (light.cache_size / 64) :: parents,
        x < light.cache_size / 64 ∧ 64 * x + 64 ≤ (light.cache_size / 64) * 64 ∧
          (light.cache_size / 64) * 64 ≤ light.cache_size := by
  have hmod : (light.cache_size / 64) % UINT32_RANGE = light.cache_size / 64 :=
    Nat.mod_eq_of_lt h32
  obtain ⟨r, tl, hreads, hitem, hlen, hb⟩ := dag_item_reads_run SHA3_512 node_index light
    (by rw [hmod]; omega)
  rw [hmod] at hreads hb
  refine ⟨r, tl, hreads, hitem, hlen, ?_⟩
  intro x hx
  have hx' : x < light.cache_size / 64 := by
    rcases List.mem_cons.mp hx with hx | hx
    · rw [hx]
      exact Nat.mod_lt _ (by omega)
    · exact hb x hx
  have hle : (light.cache_size / 64) * 64 ≤ light.cache_size := Nat.div_mul_le_self _ _
  refine ⟨hx', ?_, hle⟩
  omega

/-- Witness of C23 (amended): a cache of two nodes and node index 5. -/
theorem vecash_calculate_dag_item_reads_in_bounds_witness :
    1 ≤ 128 / 64 ∧ 128 / 64 < 2 ^ 32 ∧
    ∃ r parents,
      vecash_calculate_dag_item_reads (fun x => x) 5 ⟨fun _ => [], 128, 0⟩
        = some (r, 5 % (128 / 64) :: parents) ∧
      vecash_calculate_dag_item (fun x => x) 5 ⟨fun _ => [], 128, 0⟩ = some r ∧
      parents.length = 256 ∧
      ∀ x ∈ 5 % (128 / 64) :: parents,
        x < 128 / 64 ∧ 64 * x + 64 ≤ (128 / 64) * 64 ∧ (128 / 64) * 64 ≤ 128 :=
  ⟨by decide, by decide,
    vecash_calculate_dag_item_reads_in_bounds (fun x => x) 5 ⟨fun _ => [], 128, 0⟩
      (by decide) (by decide)⟩

/-- Counterexample to C23 as stated: a cache of `2^38` bytes has `P = 2^32 >= 1` nodes, the
32-bit `num_parent_nodes` is 0, and `node_index % num_parent_nodes` takes a modulus by
zero: no index is formed and no node is returned. -/
theorem vecash_calculate_dag_item_reads_wide_cache :
    ¬ (∀ (SHA3_512 : List Nat → List Nat) (node_index : Nat) (light : vecash_light),
        64 ≤ light.cache_size → node_index < 2 ^ 32 →
        ∃ r parents,
          vecash_calculate_dag_item_reads SHA3_512 node_index light
            = some (r, node_index % (light.cache_size / 64) :: parents) ∧
          vecash_calculate_dag_item SHA3_512 node_index light = some r ∧
          parents.length = 256 ∧
          ∀ x ∈ node_index % (light.cache_size / 64) :: parents,
            x < light.cache_size / 64 ∧ 64 * x + 64 ≤ (light.cache_size / 64) * 64 ∧
              (light.cache_size / 64) * 64 ≤ light.cache_size) := by
  intro hclaim
  obtain ⟨r, parents, hreads, _, _, _⟩ := hclaim (fun x => x) 0 ⟨fun _ => [], 2 ^ 38, 0⟩
    (by decide) (by decide)
  rw [dag_item_reads_zero (fun x => x) 0 ⟨fun _ => [], 2 ^ 38, 0⟩ (by decide)] at hreads
  exact Option.noConfusion hreads

/-- C24: for `cache_size = 64`, every seed and every buffer, `vecash_compute_cache_nodes`
returns true and leaves in node 0 the SHA3-512 of 64 zero bytes, because each round
combines the node with itself by XOR before hashing; so the caches built from two seeds
hold the same node, and every dataset item generated from them is the same. -/
theorem vecash_compute_cache_nodes_one_node (SHA3_512 : List Nat → List Nat)
    (nodes : Nat → node) (seed : vecash_h256_t) :
    vecash_compute_cache_nodes SHA3_512 nodes 64 seed
      = some (true,
          Function.update nodes 0 (node_of_bytes (SHA3_512 (List.replicate 64 0)))) ∧
    ∀ (nodes2 : Nat → node) (seed2 : vecash_h256_t),
      ∃ cache cache2,
        vecash_compute_cache_nodes SHA3_512 nodes 64 seed = some (true, cache) ∧
        vecash_compute_cache_nodes SHA3_512 nodes2 64 seed2 = some (true, cache2) ∧
        cache 0 = cache2 0 ∧
        ∀ node_index block block2,
          vecash_calculate_dag_item SHA3_512 node_index ⟨cache, 64, block⟩
            = vecash_calculate_dag_item SHA3_512 node_index ⟨cache2, 64, block2⟩ := by
  refine ⟨compute_cache_nodes_one SHA3_512 nodes seed, ?_⟩
  intro nodes2 seed2
  refine ⟨_, _, compute_cache_nodes_one SHA3_512 nodes seed,
    compute_cache_nodes_one SHA3_512 nodes2 seed2, ?_, ?_⟩
  · rw [Function.update_same, Function.update_same]
  · intro node_index block block2
    exact dag_item_one_node SHA3_512 node_index _ _ rfl rfl
      (by simp only [Function.update_same])

/-- C25: for every `cache_size` that is a multiple of 64 with `1 <= cache_size / 64 < 2^32`,
every `!=`-terminated loop of `vecash_compute_cache_nodes` ends with a result, and its
counter takes exactly the values from its start up to its bound, in order, so it never
wraps: `1, .., N - 1` for the fill loop, `0, .., N - 1` for each round loop from every
state, and `0, 1, 2` for the loop over the rounds; and the function returns true. -/
theorem vecash_compute_cache_nodes_terminates (SHA3_512 : List Nat → List Nat) (nodes : Nat → node)
    (cache_size : Nat) (seed : vecash_h256_t) (h64 : cache_size % 64 = 0)
    (h1 : 1 ≤ cache_size / 64) (h32 : cache_size / 64 < 2 ^ 32) :
    (∀ s, ∃ s',
      loop_ne32 ((cache_size / 64) % UINT32_RANGE)
        (fun i nodes => some (Function.update nodes i (sha3_512_node SHA3_512 (nodes (i - 1)))))
        LOOP_FUEL 1 s = some s' ∧
      loop_ne32 ((cache_size / 64) % UINT32_RANGE)
        (counted fun i nodes =>
          some (Function.update nodes i (sha3_512_node SHA3_512 (nodes (i - 1)))))
        LOOP_FUEL 1 (s, []) = some (s', List.range' 1 (cache_size / 64 - 1))) ∧
    (∀ s, ∃ s',
      loop_ne32 ((cache_size / 64) % UINT32_RANGE)
        (fun i nodes =>
          some (cache_round_step SHA3_512 ((cache_size / 64) % UINT32_RANGE) i nodes))
        LOOP_FUEL 0 s = some s' ∧
      loop_ne32 ((cache_size / 64) % UINT32_RANGE)
        (counted fun i nodes =>
          some (cache_round_step SHA3_512 ((cache_size / 64) % UINT32_RANGE) i nodes))
        LOOP_FUEL 0 (s, []) = some (s', List.range (cache_size / 64))) ∧
    (∀ s, ∃ s',
      loop_ne32 VECASH_CACHE_ROUNDS
        (fun _ nodes => loop_ne32 ((cache_size / 64) % UINT32_RANGE)
          (fun i nodes =>
            some (cache_round_step SHA3_512 ((cache_size / 64) % UINT32_RANGE) i nodes))
          LOOP_FUEL 0 nodes)
        LOOP_FUEL 0 s = some s' ∧
      loop_ne32 VECASH_CACHE_ROUNDS
        (counted fun _ nodes => loop_ne32 ((cache_size / 64) % UINT32_RANGE)
          (fun i nodes =>
            some (cache_round_step SHA3_512 ((cache_size / 64) % UINT32_RANGE) i nodes))
          LOOP_FUEL 0 nodes)
        LOOP_FUEL 0 (s, []) = some (s', [0, 1, 2])) ∧
    ∃ nodes', vecash_compute_cache_nodes SHA3_512 nodes cache_size seed = some (true, nodes') := by
  have hmod : (cache_size / 64) % UINT32_RANGE = cache_size / 64 :=
    Nat.mod_eq_of_lt (by unfold UINT32_RANGE; exact h32)
  have hb : cache_size / 64 < UINT32_RANGE := by unfold UINT32_RANGE; exact h32
  have hfuel1 : cache_size / 64 - 1 < LOOP_FUEL := by unfold LOOP_FUEL; omega
  have hfuel0 : cache_size / 64 - 0 < LOOP_FUEL := by unfold LOOP_FUEL; omega
  rw [hmod]
  refine ⟨fun s => ?_, fun s => ?_, fun s => ?_, ?_⟩
  · exact loop_ne32_counted (cache_size / 64) _ hb LOOP_FUEL 1 s h1 hfuel1
  · have h := loop_ne32_counted (cache_size / 64)
      (fun i nodes => cache_round_step SHA3_512 (cache_size / 64) i nodes) hb LOOP_FUEL 0 s
      (Nat.zero_le _) hfuel0
    rw [List.range_eq_range']
    exact h
  · have hbody : (fun (_ : Nat) (nodes : Nat → node) => loop_ne32 (cache_size / 64)
          (fun i nodes => some (cache_round_step SHA3_512 (cache_size / 64) i nodes))
          LOOP_FUEL 0 nodes)
        = fun _ nodes => some (cache_round SHA3_512 (cache_size / 64) nodes) := by
      funext _ nodes
      exact cache_round_loop SHA3_512 (cache_size / 64) hb nodes
    rw [hbody]
    exact loop_ne32_counted VECASH_CACHE_ROUNDS _ (by decide) LOOP_FUEL 0 s (Nat.zero_le _)
      (by decide)
  · obtain ⟨filled, _, hrun⟩ := compute_cache_nodes_aligned SHA3_512 nodes cache_size seed h64
      (by omega)
    exact ⟨_, hrun⟩

/-- Witness of C25: a cache of two nodes; the fill loop passes through the counter 1 only
and the function returns true. -/
theorem vecash_compute_cache_nodes_terminates_witness :
    128 % 64 = 0 ∧ 1 ≤ 128 / 64 ∧ 128 / 64 < 2 ^ 32 ∧
    (∃ s',
      loop_ne32 ((128 / 64) % UINT32_RANGE)
        (fun i nodes => some (Function.update nodes i (sha3_512_node (fun x => x) (nodes (i - 1)))))
        LOOP_FUEL 1 (fun _ => []) = some s' ∧
      loop_ne32 ((128 / 64) % UINT32_RANGE)
        (counted fun i nodes =>
          some (Function.update nodes i (sha3_512_node (fun x => x) (nodes (i - 1)))))
        LOOP_FUEL 1 (fun _ => [], []) = some (s', List.range' 1 (128 / 64 - 1))) ∧
    ∃ nodes', vecash_compute_cache_nodes (fun x => x) (fun _ => []) 128 [] = some (true, nodes') :=
  ⟨by decide, by decide, by decide,
    (vecash_compute_cache_nodes_terminates (fun x => x) (fun _ => []) 128 [] (by decide)
      (by decide) (by decide)).1 (fun _ => []),
    (vecash_compute_cache_nodes_terminates (fun x => x) (fun _ => []) 128 [] (by decide)
      (by decide) (by decide)).2.2.2⟩

end Vecash
